import Mathlib

/-!
# upstart 0.6.7, `init/job_process.c`: supervision of the processes of a job

A shallow embedding of `job_process_terminated`, `job_process_catch_runaway`,
`job_process_kill`, `job_process_kill_timer`, `job_process_handler` with the
stop and trace handling behind it, of `job_process_run` (the building of
`argv`, the spawn loop, the feeding of a script), of `job_process_spawn` in
parent and child with the error record that goes between them, and of
`control_emit_event` of `init/control.c`, and the properties of the job
lifecycle specification that concern them.

Conventions of the embedding.

* The C enumerations are inductive types whose constructors keep the C names.
* `int status` is an `Int`; `time_t` values are `Int` seconds.
* `respawn_count` is a C `int` of 32 bits: its increment wraps around
  (`int_wrap`), and what is proved of the count is proved below 2147483647.
* A pid table entry is a `Nat`: `0` for "no process", otherwise the pid.
* `(ProcessType)-1` (no process) is `none` of `Option ProcessType`.
* `nih_assert` failing aborts the daemon: the embedded function returns `none`.
* `job.c` is not part of the sources at hand.  Its entry points used here
  (`job_failed`, `job_change_goal`, `job_change_state`, `job_next_state`) are not
  executed; each call is recorded, in program order, in a list of `Call`s next
  to the job as `job_process.c` itself has written it.
* System calls (`kill`, `ptrace`, `system_kill`, the spawning of a child) are
  recorded in the same list; what the kernel answers is an argument of the
  embedded function.  Signal, errno and ptrace numbers are those of Linux.
-/

namespace Upstart

/-- Modelled from the spec: `process.h` is not among the sources; the process kinds
of the spec, section 3, under the names `job_process.c` uses. -/
inductive ProcessType
  | PROCESS_MAIN
  | PROCESS_PRE_START
  | PROCESS_POST_START
  | PROCESS_PRE_STOP
  | PROCESS_POST_STOP
  deriving DecidableEq, Repr

/-- Modelled from the spec: `job.h` is not among the sources; the goals of the
spec, section 3, under the names `job_process.c` uses. -/
inductive JobGoal
  | JOB_STOP
  | JOB_START
  | JOB_RESPAWN
  deriving DecidableEq, Repr

/-- Modelled from the spec: `job.h` is not among the sources; the states of the
spec, section 3, under the names `job_process.c` uses. -/
inductive JobState
  | JOB_WAITING
  | JOB_STARTING
  | JOB_PRE_START
  | JOB_SPAWNED
  | JOB_POST_START
  | JOB_RUNNING
  | JOB_PRE_STOP
  | JOB_STOPPING
  | JOB_KILLED
  | JOB_POST_STOP
  deriving DecidableEq, Repr

/-- Modelled from the spec: `job_class.h` is not among the sources; the expect modes
of the spec, section 3. -/
inductive ExpectType
  | EXPECT_NONE
  | EXPECT_STOP
  | EXPECT_DAEMON
  | EXPECT_FORK
  deriving DecidableEq, Repr

/-- Modelled from the spec: `job.h` is not among the sources; the trace states of the
spec, section 3. -/
inductive TraceState
  | TRACE_NONE
  | TRACE_NEW
  | TRACE_NEW_CHILD
  | TRACE_NORMAL
  deriving DecidableEq, Repr

/-- Modelled from the spec: `process.h` is not among the sources; a process
definition carries a command string and a script flag. -/
structure Process where
  script : Bool
  command : String
  deriving DecidableEq, Repr

/-- Modelled from the spec: `job_class.h` is not among the sources; the members of
`JobClass` that `job_process_terminated`, `job_process_catch_runaway` and the
kill and trace code read.  `process p` is `none` when the class defines no
process of kind `p` (a NULL pointer in C).  `respawn_limit` and
`respawn_interval` are a count and a number of seconds; the class can only be
built with values that are not negative. -/
structure JobClass where
  process : ProcessType → Option Process
  expect : ExpectType
  kill_timeout : Nat
  task : Bool
  respawn : Bool
  respawn_limit : Nat
  respawn_interval : Nat
  normalexit : List Int

/-- Modelled from the spec: `job.h` is not among the sources; the members of `Job`
that `job_process.c` reads and writes itself.  `kill_timer` is `none` for a
NULL timer and otherwise holds the timeout the timer was armed with. -/
structure Job where
  class_ : JobClass
  state : JobState
  pid : ProcessType → Nat
  kill_timer : Option Nat
  kill_process : Option ProcessType
  respawn_time : Int
  respawn_count : Int
  trace_forks : Int
  trace_state : TraceState

/-- The ptrace requests that `job_process.c` issues. -/
inductive PtraceRequest
  | PTRACE_SETOPTIONS
  | PTRACE_CONT
  | PTRACE_DETACH
  | PTRACE_GETEVENTMSG
  deriving DecidableEq, Repr

/-- Calls that leave `job_process_terminated`, recorded in program order.
`job_failed p s` is `job_failed (job, p, s)` with `none` for the process `-1`;
`job_change_state_next` is `job_change_state (job, job_next_state (job))`;
`catch_runaway` marks a call of `job_process_catch_runaway`.

Calls that leave the other functions of `job_process.c`: `system_kill pid force`
(TERM for `force = false`, KILL for `force = true`), `nih_timer_add_timeout t`
for the kill timer, `kill pid sig`, `ptrace request pid data` with the fourth
argument of the call as `data` (0 where it is a pointer), `job_process_spawn
trace`, and `nih_warn` for a warning logged about a call that failed.  Other
log messages are not recorded. -/
inductive Call
  | job_failed (process : Option ProcessType) (status : Int)
  | job_change_goal (goal : JobGoal)
  | job_change_state_next
  | catch_runaway
  | system_kill (pid : Nat) (force : Bool)
  | nih_timer_add_timeout (timeout : Nat)
  | kill (pid : Nat) (signum : Int)
  | ptrace (request : PtraceRequest) (pid : Nat) (data : Int)
  | job_process_spawn (trace : Bool)
  | nih_warn
  deriving DecidableEq, Repr

/-- The `for` loop over `normalexit` at lines 1060-1065: whether an entry equal to
`status` is met (the loop then clears `failed` and breaks). -/
def normalexit_listed : List Int → Int → Bool
  | [], _ => false
  | x :: xs, status => if x = status then true else normalexit_listed xs status

/-- Value of the local `failed` of `job_process_terminated` right after the
`normalexit` loop, line 1066, for a MAIN process that died outside KILLED and
STOPPING. -/
def main_exit_failed (cls : JobClass) (status : Int) : Bool :=
  if status ≠ 0 ∨ (cls.respawn = true ∧ cls.task = false) then
    !(normalexit_listed cls.normalexit status)
  else
    false

/-- The value a C `int` of 32 bits holds after arithmetic with the result `x`: `x`
itself from -2147483648 to 2147483647, and `x` wrapped around outside. -/
def int_wrap (x : Int) : Int :=
  (x + 2147483648) % 4294967296 - 2147483648

/-- The function `job_process_catch_runaway`, lines 1199-1226.  `now` is the
`tv_sec` that `clock_gettime (CLOCK_MONOTONIC)` yields.  `respawn_count` is a C
`int`: `job->respawn_count++` at 2147483647 wraps around to -2147483648. -/
def job_process_catch_runaway (now : Int) (job : Job) : Job × Bool :=
  if job.class_.respawn_limit ≠ 0 ∧ job.class_.respawn_interval ≠ 0 then
    let interval : Int := now - job.respawn_time
    if interval < (job.class_.respawn_interval : Int) then
      let job1 : Job := { job with respawn_count := int_wrap (job.respawn_count + 1) }
      if job1.respawn_count > (job.class_.respawn_limit : Int) then
        (job1, true)
      else
        (job1, false)
    else
      ({ job with respawn_time := now, respawn_count := 1 }, false)
  else
    (job, false)

/-- What the `switch (process)` of `job_process_terminated` leaves behind: the job,
the calls made so far and the three locals. -/
structure Switched where
  job : Job
  calls : List Call
  failed : Bool
  stop : Bool
  state : Bool

/-- The `switch (process)` of `job_process_terminated`, lines 1005-1150. -/
def terminated_switch (now : Int) (job : Job) (process : ProcessType) (status : Int) :
    Option Switched :=
  match process with
  | .PROCESS_MAIN =>
    if job.state = .JOB_RUNNING ∨ job.state = .JOB_SPAWNED ∨ job.state = .JOB_KILLED
        ∨ job.state = .JOB_STOPPING ∨ job.state = .JOB_POST_START
        ∨ job.state = .JOB_PRE_STOP then
      let state : Bool :=
        if job.state = .JOB_POST_START ∧ (job.class_.process .PROCESS_POST_START).isSome
            ∧ job.pid .PROCESS_POST_START > 0 then false
        else if job.state = .JOB_PRE_STOP ∧ (job.class_.process .PROCESS_PRE_STOP).isSome
            ∧ job.pid .PROCESS_PRE_STOP > 0 then false
        else true
      if job.state = .JOB_KILLED then
        some ⟨job, [], false, false, state⟩
      else if job.state = .JOB_STOPPING then
        some ⟨job, [], false, false, false⟩
      else if status ≠ 0 ∨ (job.class_.respawn = true ∧ job.class_.task = false) then
        let failed : Bool := !(normalexit_listed job.class_.normalexit status)
        if failed = true ∧ job.class_.respawn = true then
          let r := job_process_catch_runaway now job
          if r.2 = true then
            some ⟨r.1, [.catch_runaway, .job_failed none 0], false, true, state⟩
          else if state = false then
            some ⟨r.1, [.catch_runaway, .job_change_goal .JOB_RESPAWN], false, false, state⟩
          else
            some ⟨r.1, [.catch_runaway], false, false, state⟩
        else
          some ⟨job, [], failed, true, state⟩
      else
        some ⟨job, [], false, true, state⟩
    else
      none
  | .PROCESS_PRE_START =>
    if job.state = .JOB_PRE_START then
      if status ≠ 0 then some ⟨job, [], true, true, true⟩
      else some ⟨job, [], false, false, true⟩
    else
      none
  | .PROCESS_POST_START =>
    if job.state = .JOB_POST_START then some ⟨job, [], false, false, true⟩ else none
  | .PROCESS_PRE_STOP =>
    if job.state = .JOB_PRE_STOP then some ⟨job, [], false, false, true⟩ else none
  | .PROCESS_POST_STOP =>
    if job.state = .JOB_POST_STOP then
      if status ≠ 0 then some ⟨job, [], true, true, true⟩
      else some ⟨job, [], false, false, true⟩
    else
      none

/-- Lines 1153-1165 of `job_process_terminated`: cancel the kill timer if there is
one, then clear the pid of the process that died. -/
def reaped (job : Job) (process : ProcessType) : Job :=
  let job1 : Job :=
    if job.kill_timer.isSome then
      { job with kill_timer := none, kill_process := none }
    else job
  { job1 with pid := Function.update job1.pid process 0 }

/-- The function `job_process_terminated`, lines 996-1186: the switch, then the
common tail (cancel the kill timer, clear the pid, `job_failed`,
`job_change_goal (JOB_STOP)`, `job_change_state`).  `job_failed` sets the failed
flag and records process and status; it leaves `job->state` as it is, so the
test at line 1178 sees the state the function was entered with. -/
def job_process_terminated (now : Int) (job : Job) (process : ProcessType) (status : Int) :
    Option (Job × List Call) :=
  match terminated_switch now job process status with
  | none => none
  | some r =>
    let job2 : Job := reaped r.job process
    let calls1 : List Call :=
      if r.failed = true then r.calls ++ [.job_failed (some process) status] else r.calls
    let state : Bool := if r.stop = true ∧ job2.state = .JOB_RUNNING then false else r.state
    let calls2 : List Call :=
      if r.stop = true then calls1 ++ [.job_change_goal .JOB_STOP] else calls1
    let calls3 : List Call :=
      if state = true then calls2 ++ [.job_change_state_next] else calls2
    some (job2, calls3)

/-- The condition under which MAIN may be reaped outside KILLED and STOPPING. -/
def main_live_state (s : JobState) : Prop :=
  s = .JOB_RUNNING ∨ s = .JOB_SPAWNED ∨ s = .JOB_POST_START ∨ s = .JOB_PRE_STOP

instance (s : JobState) : Decidable (main_live_state s) := by
  unfold main_live_state; infer_instance

/-- Whether `job_process_terminated` leaves the state change to a post-start or
pre-stop process that is still running (the local `state` cleared at lines
1019-1027). -/
def state_deferred (job : Job) : Prop :=
  (job.state = .JOB_POST_START ∧ (job.class_.process .PROCESS_POST_START).isSome = true
      ∧ job.pid .PROCESS_POST_START ≠ 0)
  ∨ (job.state = .JOB_PRE_STOP ∧ (job.class_.process .PROCESS_PRE_STOP).isSome = true
      ∧ job.pid .PROCESS_PRE_STOP ≠ 0)

instance (job : Job) : Decidable (state_deferred job) := by
  unfold state_deferred; infer_instance

/-- The failure times `nows` handed, in order, to `job_process_catch_runaway`, each
call working on the job the one before has left: every time with the answer
given for it (`true` for runaway, `false` for a respawn). -/
def catch_runaway_run (job : Job) : List Int → List (Int × Bool)
  | [] => []
  | now :: rest =>
    (now, (job_process_catch_runaway now job).2)
      :: catch_runaway_run (job_process_catch_runaway now job).1 rest

/-- Number of failures of the run that were answered "not runaway" at a time `t`
with `a ≤ t ≤ b`. -/
def respawns_between (job : Job) (nows : List Int) (a b : Int) : Nat :=
  (catch_runaway_run job nows).countP
    (fun p => !p.2 && decide (a ≤ p.1) && decide (p.1 ≤ b))

/-- Number of respawns of the run in the window of whole seconds
`a, ..., a + respawn_interval`, the times a window of length
`respawn_interval + ε` starting at `a` can hold. -/
def respawns_in_window (job : Job) (nows : List Int) (a : Int) : Nat :=
  respawns_between job nows a (a + job.class_.respawn_interval)

/-- Bound on the respawns still to come in the seconds `a ≤ t ≤ b`, for `b` at most
`a + interval + 1`, when the seconds to come are at least `lo` and the history
stands at `rt`, `rc`: what the window on record still allows, and `limit` for
each window that can be opened up to `b`. -/
def window_bound (limit interval : Nat) (a b lo rt rc : Int) : Int :=
  if b < lo then 0
  else if b < rt + interval then (limit - rc).toNat
  else if a < rt + interval then
    if b < rt + 2 * interval then (limit - rc).toNat + limit
    else (limit - rc).toNat + 2 * limit
  else 3 * limit

/-- Nanoseconds in a second. -/
def NSEC : Int := 1000000000

/-- The `tv_sec` that `clock_gettime` stores at the instant `t`, an instant being a
number of nanoseconds of the monotonic clock: the whole seconds, the rest going
to `tv_nsec`, which `job_process_catch_runaway` does not read. -/
def tv_sec (t : Int) : Int :=
  t / NSEC

/-- The failures at the instants `times` handed, in order, to
`job_process_catch_runaway`, which reads the clock at each: every instant with
the answer given for it. -/
def catch_runaway_at (job : Job) : List Int → List (Int × Bool)
  | [] => []
  | t :: rest =>
    (t, (job_process_catch_runaway (tv_sec t) job).2)
      :: catch_runaway_at (job_process_catch_runaway (tv_sec t) job).1 rest

/-- Number of failures of the run that were answered "not runaway" at an instant
`t` of the time window `w ≤ t ≤ w + len`. -/
def respawns_in_time (job : Job) (times : List Int) (w len : Int) : Nat :=
  (catch_runaway_at job times).countP
    (fun p => !p.2 && decide (w ≤ p.1) && decide (p.1 ≤ w + len))

/-- The service of the respawn scenario: respawn, limit 3 in 10 seconds, no
`normalexit`, no process but MAIN. -/
def svc : JobClass :=
  { process := fun p => if p = .PROCESS_MAIN then some ⟨false, "/bin/crasher"⟩ else none
    expect := .EXPECT_NONE
    kill_timeout := 5
    task := false
    respawn := true
    respawn_limit := 3
    respawn_interval := 10
    normalexit := [] }

/-- An instance of `svc` in the given state with the given respawn history, MAIN
running as pid 7. -/
def svc_job (state : JobState) (respawn_time respawn_count : Int) : Job :=
  { class_ := svc
    state := state
    pid := fun p => if p = .PROCESS_MAIN then 7 else 0
    kill_timer := none
    kill_process := none
    respawn_time := respawn_time
    respawn_count := respawn_count
    trace_forks := 0
    trace_state := .TRACE_NONE }

/-- The pairs of process and status that `job_failed` was called with, in order. -/
def failures (calls : List Call) : List (Option ProcessType × Int) :=
  calls.filterMap (fun c =>
    match c with
    | .job_failed p s => some (p, s)
    | _ => none)

/-- Signal number of SIGTRAP. -/
def SIGTRAP : Int := 5

/-- Signal number of SIGCONT. -/
def SIGCONT : Int := 18

/-- Signal number of SIGSTOP. -/
def SIGSTOP : Int := 19

/-- Error number of ESRCH, no such process. -/
def ESRCH : Int := 3

/-- Ptrace event number of a fork. -/
def PTRACE_EVENT_FORK : Int := 1

/-- Ptrace event number of an exec. -/
def PTRACE_EVENT_EXEC : Int := 4

/-- Ptrace option asking for fork events. -/
def PTRACE_O_TRACEFORK : Nat := 2

/-- Ptrace option asking for exec events. -/
def PTRACE_O_TRACEEXEC : Nat := 16

/-- The options `PTRACE_O_TRACEFORK | PTRACE_O_TRACEEXEC` that
`job_process_trace_new` sets. -/
def trace_options : Int := ((PTRACE_O_TRACEFORK ||| PTRACE_O_TRACEEXEC : Nat) : Int)

/-- The kinds of child event that `nih_child` hands to `job_process_handler`. -/
inductive NihChildEvents
  | NIH_CHILD_EXITED
  | NIH_CHILD_KILLED
  | NIH_CHILD_DUMPED
  | NIH_CHILD_STOPPED
  | NIH_CHILD_CONTINUED
  | NIH_CHILD_TRAPPED
  | NIH_CHILD_PTRACE
  deriving DecidableEq, Repr

/-- What the kernel answers to the ptrace calls made while one event is handled:
`ptrace request pid data` is `true` when that call succeeds, and `eventmsg pid`
is the message that a successful `PTRACE_GETEVENTMSG` on `pid` stores.  No two
calls made for one event have the same request, pid and data unless the child
reported by a fork is the forking process itself. -/
structure Sys where
  ptrace : PtraceRequest → Nat → Int → Bool
  eventmsg : Nat → Nat

/-- The function `job_process_kill`, lines 766-795.  `result` is what `system_kill`
does: `none` when the signal is sent, `some e` when it raises the error
number `e`.  The assertion at line 773 is written with `=`: it stores -1 in
`kill_process` and, -1 being non-zero, always passes. -/
def job_process_kill (result : Option Int) (job : Job) (process : ProcessType) :
    Option (Job × List Call) :=
  if job.pid process > 0 then
    if job.kill_timer = none then
      let job1 : Job := { job with kill_process := none }
      match result with
      | some e =>
        if e ≠ ESRCH then
          some (job1, [.system_kill (job1.pid process) false, .nih_warn])
        else
          some (job1, [.system_kill (job1.pid process) false])
      | none =>
        some ({ job1 with kill_process := some process,
                          kill_timer := some job1.class_.kill_timeout },
          [.system_kill (job1.pid process) false,
            .nih_timer_add_timeout job1.class_.kill_timeout])
    else none
  else none

/-- The function `job_process_kill_timer`, lines 806-836, run for the job's own
kill timer (the assertions `timer != NULL` and `job->kill_timer == timer`
come to `kill_timer` being set).  `result` is what `system_kill` does. -/
def job_process_kill_timer (result : Option Int) (job : Job) : Option (Job × List Call) :=
  if job.kill_timer.isSome then
    match job.kill_process with
    | none => none
    | some process =>
      if job.pid process > 0 then
        let job1 : Job := { job with kill_timer := none, kill_process := none }
        match result with
        | some e =>
          if e ≠ ESRCH then
            some (job1, [.system_kill (job1.pid process) true, .nih_warn])
          else
            some (job1, [.system_kill (job1.pid process) true])
        | none => some (job1, [.system_kill (job1.pid process) true])
      else none
  else none

/-- The function `job_process_stopped`, lines 1240-1259. -/
def job_process_stopped (job : Job) (process : ProcessType) : Job × List Call :=
  if process ≠ .PROCESS_MAIN ∨ job.state ≠ .JOB_SPAWNED then
    (job, [])
  else if job.class_.expect = .EXPECT_STOP then
    (job, [.kill (job.pid process) SIGCONT, .job_change_state_next])
  else
    (job, [])

/-- The function `job_process_trace_new`, lines 1273-1309. -/
def job_process_trace_new (sys : Sys) (job : Job) (process : ProcessType) :
    Option (Job × List Call) :=
  if job.trace_state = .TRACE_NEW ∨ job.trace_state = .TRACE_NEW_CHILD then
    if process ≠ .PROCESS_MAIN ∨ job.state ≠ .JOB_SPAWNED then
      some (job, [])
    else if sys.ptrace .PTRACE_SETOPTIONS (job.pid process) trace_options = false then
      some (job,
        [.ptrace .PTRACE_SETOPTIONS (job.pid process) trace_options, .nih_warn])
    else
      let job1 : Job := { job with trace_state := .TRACE_NORMAL }
      if sys.ptrace .PTRACE_CONT (job1.pid process) 0 = false then
        some (job1,
          [.ptrace .PTRACE_SETOPTIONS (job.pid process) trace_options,
            .ptrace .PTRACE_CONT (job1.pid process) 0, .nih_warn])
      else
        some (job1,
          [.ptrace .PTRACE_SETOPTIONS (job.pid process) trace_options,
            .ptrace .PTRACE_CONT (job1.pid process) 0])
  else none

/-- A `PTRACE_DETACH` of `pid` and the warning that follows when it fails. -/
def ptrace_detach (sys : Sys) (pid : Nat) : List Call :=
  if sys.ptrace .PTRACE_DETACH pid 0 = false then
    [.ptrace .PTRACE_DETACH pid 0, .nih_warn]
  else
    [.ptrace .PTRACE_DETACH pid 0]

/-- A `PTRACE_CONT` of `pid` delivering `signum` and the warning that follows when
it fails. -/
def ptrace_cont (sys : Sys) (pid : Nat) (signum : Int) : List Call :=
  if sys.ptrace .PTRACE_CONT pid signum = false then
    [.ptrace .PTRACE_CONT pid signum, .nih_warn]
  else
    [.ptrace .PTRACE_CONT pid signum]

/-- The function `job_process_trace_new_child`, lines 1325-1357. -/
def job_process_trace_new_child (sys : Sys) (job : Job) (process : ProcessType) :
    Option (Job × List Call) :=
  if job.trace_state = .TRACE_NEW_CHILD then
    if process ≠ .PROCESS_MAIN ∨ job.state ≠ .JOB_SPAWNED then
      some (job, [])
    else
      let job1 : Job := { job with trace_forks := job.trace_forks + 1 }
      if job1.trace_forks > 1 ∨ job1.class_.expect = .EXPECT_FORK then
        some ({ job1 with trace_state := .TRACE_NONE },
          ptrace_detach sys (job1.pid process) ++ [.job_change_state_next])
      else
        job_process_trace_new sys job1 process
  else none

/-- The function `job_process_trace_signal`, lines 1370-1390. -/
def job_process_trace_signal (sys : Sys) (job : Job) (process : ProcessType)
    (signum : Int) : Job × List Call :=
  if process ≠ .PROCESS_MAIN ∨ job.state ≠ .JOB_SPAWNED
      ∨ job.trace_state ≠ .TRACE_NORMAL then
    (job, [])
  else
    (job, ptrace_cont sys (job.pid process) signum)

/-- The function `job_process_trace_fork`, lines 1404-1460.  The failure of the
probing `PTRACE_SETOPTIONS` on the new child is logged at debug level only. -/
def job_process_trace_fork (sys : Sys) (job : Job) (process : ProcessType) :
    Option (Job × List Call) :=
  if process ≠ .PROCESS_MAIN ∨ job.state ≠ .JOB_SPAWNED
      ∨ job.trace_state ≠ .TRACE_NORMAL then
    some (job, [])
  else if sys.ptrace .PTRACE_GETEVENTMSG (job.pid process) 0 = false then
    some (job, [.ptrace .PTRACE_GETEVENTMSG (job.pid process) 0, .nih_warn])
  else
    let data : Nat := sys.eventmsg (job.pid process)
    let calls1 : List Call :=
      .ptrace .PTRACE_GETEVENTMSG (job.pid process) 0 :: ptrace_detach sys (job.pid process)
    let job1 : Job :=
      { job with pid := Function.update job.pid process data,
                 trace_state := .TRACE_NEW_CHILD }
    if sys.ptrace .PTRACE_SETOPTIONS (job1.pid process) 0 = false then
      some (job1, calls1 ++ [.ptrace .PTRACE_SETOPTIONS (job1.pid process) 0])
    else
      match job_process_trace_new_child sys job1 process with
      | none => none
      | some r =>
        some (r.1, calls1 ++ [.ptrace .PTRACE_SETOPTIONS (job1.pid process) 0] ++ r.2)

/-- The function `job_process_trace_exec`, lines 1474-1505. -/
def job_process_trace_exec (sys : Sys) (job : Job) (process : ProcessType) :
    Job × List Call :=
  if process ≠ .PROCESS_MAIN ∨ job.state ≠ .JOB_SPAWNED
      ∨ job.trace_state ≠ .TRACE_NORMAL then
    (job, [])
  else if job.trace_forks ≠ 0 then
    ({ job with trace_state := .TRACE_NONE },
      ptrace_detach sys (job.pid process) ++ [.job_change_state_next])
  else
    (job, ptrace_cont sys (job.pid process) 0)

/-- The search of one job's pid table in `job_process_find`, lines 1534-1541: the
first process kind, in the order of the enumeration (MAIN, PRE_START,
POST_START, PRE_STOP, POST_STOP, the order of the spec; `process.h` is not
among the sources), whose pid is `pid`.  The walk over the classes and their
instances around it is not embedded (the registry belongs to `job_class.c`);
the handler is given the job. -/
def job_process_find (job : Job) (pid : Nat) : Option ProcessType :=
  [ProcessType.PROCESS_MAIN, .PROCESS_PRE_START, .PROCESS_POST_START,
    .PROCESS_PRE_STOP, .PROCESS_POST_STOP].find? (fun i => decide (job.pid i = pid))

/-- The function `job_process_handler`, lines 853-980, for the job that
`job_process_find` is looking at.  `status <<= 8` is `status * 256`. -/
def job_process_handler (sys : Sys) (now : Int) (job : Job) (pid : Nat)
    (event : NihChildEvents) (status : Int) : Option (Job × List Call) :=
  if pid > 0 then
    match job_process_find job pid with
    | none => some (job, [])
    | some process =>
      match event with
      | .NIH_CHILD_EXITED => job_process_terminated now job process status
      | .NIH_CHILD_KILLED => job_process_terminated now job process (status * 256)
      | .NIH_CHILD_DUMPED => job_process_terminated now job process (status * 256)
      | .NIH_CHILD_STOPPED =>
        if status = SIGSTOP then some (job_process_stopped job process) else some (job, [])
      | .NIH_CHILD_CONTINUED => some (job, [])
      | .NIH_CHILD_TRAPPED =>
        if job.trace_state = .TRACE_NEW ∧ status = SIGTRAP then
          job_process_trace_new sys job process
        else if job.trace_state = .TRACE_NEW_CHILD ∧ status = SIGSTOP then
          job_process_trace_new_child sys job process
        else
          some (job_process_trace_signal sys job process status)
      | .NIH_CHILD_PTRACE =>
        if status = PTRACE_EVENT_FORK then job_process_trace_fork sys job process
        else if status = PTRACE_EVENT_EXEC then some (job_process_trace_exec sys job process)
        else none
  else none

/-- What one call of `job_process_spawn` comes back with, as `job_process_run` tells
the cases apart: the pid of the child, -1 with `JOB_PROCESS_ERROR` raised, or
-1 with any other error raised. -/
inductive SpawnResult
  | pid (p : Nat)
  | job_process_error
  | other_error
  deriving DecidableEq, Repr

/-- The loop of `job_process_run`, lines 257-293, over the results of the successive
calls of `job_process_spawn`; `error` is the local of that name.  The result is
the job, the calls and the value returned; it is `none` when the results run
out before a call succeeds or raises `JOB_PROCESS_ERROR`. -/
def job_process_run_loop (job : Job) (process : ProcessType) (trace : Bool) :
    Bool → List SpawnResult → Option (Job × List Call × Int)
  | _, [] => none
  | _, .pid p :: _ =>
    some ({ job with pid := Function.update job.pid process p,
                     trace_forks := 0,
                     trace_state := if trace = true then .TRACE_NEW else .TRACE_NONE },
      [.job_process_spawn trace], 0)
  | _, .job_process_error :: _ =>
    some ({ job with pid := Function.update job.pid process 0 },
      [.job_process_spawn trace, .nih_warn], -1)
  | error, .other_error :: rest =>
    match job_process_run_loop job process trace true rest with
    | none => none
    | some r =>
      some (r.1,
        (if error = false then [Call.job_process_spawn trace, Call.nih_warn]
          else [Call.job_process_spawn trace]) ++ r.2.1,
        r.2.2)

/-- The local `trace` of `job_process_run`, lines 252-255. -/
def run_trace (job : Job) (process : ProcessType) : Bool :=
  decide (process = .PROCESS_MAIN
    ∧ (job.class_.expect = .EXPECT_DAEMON ∨ job.class_.expect = .EXPECT_FORK))

/-- The function `job_process_run`, lines 135-321, from the choice of `trace` on;
`spawns` are the results of the successive calls of `job_process_spawn`.  The
building of `argv` and `env` (lines 153-246) and the feeding of a script to
the shell (lines 295-318) do not touch the job and are not part of this
definition. -/
def job_process_run (spawns : List SpawnResult) (job : Job) (process : ProcessType) :
    Option (Job × List Call × Int) :=
  match job.class_.process process with
  | none => none
  | some _ => job_process_run_loop job process (run_trace job process) false spawns

/-- The trace predicate of the data model: the trace state is not NONE only if
the class expects a fork or a daemon and `pid[MAIN]` is a live pid. -/
def trace_invariant (job : Job) : Prop :=
  job.trace_state ≠ .TRACE_NONE →
    (job.class_.expect = .EXPECT_FORK ∨ job.class_.expect = .EXPECT_DAEMON)
      ∧ job.pid .PROCESS_MAIN ≠ 0

instance (job : Job) : Decidable (trace_invariant job) := by
  unfold trace_invariant; infer_instance

/-- The signals sent through `system_kill`, in order: the pid and whether it was
KILL (`true`) or TERM (`false`). -/
def signals_sent (calls : List Call) : List (Nat × Bool) :=
  calls.filterMap (fun c =>
    match c with
    | .system_kill pid force => some (pid, force)
    | _ => none)

/-- The timeouts of the timers added, in order. -/
def timers_added (calls : List Call) : List Nat :=
  calls.filterMap (fun c =>
    match c with
    | .nih_timer_add_timeout t => some t
    | _ => none)

/-- A class that expects one fork of its MAIN process. -/
def forking : JobClass :=
  { svc with expect := .EXPECT_FORK, respawn := false }

/-- An instance of `forking` just spawned: in SPAWNED with the trace new, no fork
seen, MAIN running as pid 7. -/
def forking_job : Job :=
  { svc_job .JOB_SPAWNED 0 0 with class_ := forking, trace_state := .TRACE_NEW }

/-- The kernel answering every ptrace call with success, the fork message being the
child pid `c`. -/
def sys_ok (c : Nat) : Sys :=
  { ptrace := fun _ _ _ => true, eventmsg := fun _ => c }

/-- The kernel answering every ptrace call with success but the probing
`PTRACE_SETOPTIONS` (no options) on the child `c`, which has not stopped yet. -/
def sys_probe_fails (c : Nat) : Sys :=
  { ptrace := fun r p d =>
      !(decide (r = .PTRACE_SETOPTIONS) && decide (p = c) && decide (d = 0)),
    eventmsg := fun _ => c }

/-- The kernel refusing every ptrace call. -/
def sys_fail : Sys :=
  { ptrace := fun _ _ _ => false, eventmsg := fun _ => 0 }

/-- The job that `job_process_trace_fork` goes on with: MAIN is the child of the
event message and the trace is at NEW_CHILD. -/
def forked (sys : Sys) (job : Job) : Job :=
  { job with pid := Function.update job.pid .PROCESS_MAIN (sys.eventmsg (job.pid .PROCESS_MAIN)),
             trace_state := .TRACE_NEW_CHILD }

/-- A class that expects its MAIN process to fork twice. -/
def daemon : JobClass :=
  { svc with expect := .EXPECT_DAEMON, respawn := false }

/-- An instance of `daemon` in SPAWNED, MAIN running as pid 7, with the given count
of forks and trace state. -/
def daemon_job (trace_forks : Int) (trace_state : TraceState) : Job :=
  { svc_job .JOB_SPAWNED 0 0 with
    class_ := daemon, trace_forks := trace_forks, trace_state := trace_state }

/-- The kill timer predicate: a kill timer is armed if and only if `kill_process` is
not -1, and then `pid[kill_process]` is greater than 0. -/
def kill_invariant (job : Job) : Prop :=
  (job.kill_timer.isSome = true ↔ job.kill_process.isSome = true)
    ∧ ∀ p, job.kill_process = some p → job.pid p > 0

/-- The states that the assertions of `job_process_terminated` allow for the death
of a process. -/
def terminated_permitted (job : Job) (process : ProcessType) : Prop :=
  (process = .PROCESS_MAIN
      ∧ (main_live_state job.state ∨ job.state = .JOB_KILLED ∨ job.state = .JOB_STOPPING))
  ∨ (process = .PROCESS_PRE_START ∧ job.state = .JOB_PRE_START)
  ∨ (process = .PROCESS_POST_START ∧ job.state = .JOB_POST_START)
  ∨ (process = .PROCESS_PRE_STOP ∧ job.state = .JOB_PRE_STOP)
  ∨ (process = .PROCESS_POST_STOP ∧ job.state = .JOB_POST_STOP)

/-- Modelled from the spec: `job_process.h` is not among the sources; the steps of
the child setup that an error record can name, the error taxonomy of the spec
(section 4.A), under the names `job_process.c` uses. -/
inductive JobProcessErrorType
  | JOB_PROCESS_ERROR_CONSOLE
  | JOB_PROCESS_ERROR_RLIMIT
  | JOB_PROCESS_ERROR_PRIORITY
  | JOB_PROCESS_ERROR_OOM_ADJ
  | JOB_PROCESS_ERROR_CHROOT
  | JOB_PROCESS_ERROR_CHDIR
  | JOB_PROCESS_ERROR_PTRACE
  | JOB_PROCESS_ERROR_EXEC
  deriving DecidableEq, Repr

/-- The structure `JobProcessWireError`, lines 76-80: what the child sends over the
error pipe. -/
structure JobProcessWireError where
  type : JobProcessErrorType
  arg : Int
  errnum : Int
  deriving DecidableEq, Repr

/-- Size in bytes of a `JobProcessWireError`: an enumeration and two `int`. -/
def sizeof_wire_err : Int := 12

/-- Error number of ENOENT, no such file or directory. -/
def ENOENT : Int := 2

/-- Error number of ENOMEM, out of memory. -/
def ENOMEM : Int := 12

/-- Error number of EILSEQ. -/
def EILSEQ : Int := 84

/-- How the child of `job_process_spawn` ends: `exec` when `execvp` has replaced it
by the program, `exit written code` when it has written the record `written`
to the error pipe and called `exit (code)`, and `spin` when it is held in the
loop of `job_process_error_abort`, every `write` failing. -/
inductive ChildEnd
  | exec
  | exit (written : JobProcessWireError) (code : Nat)
  | spin
  deriving DecidableEq, Repr

/-- The function `job_process_error_abort`, lines 580-605.  `errnum` is the number
of the error raised when it is called.  `pipe_open` tells whether `fd` still is
the open writing end of the error pipe: the `write` of a record to the open
pipe goes through ("in theory this should never fail"), while on a descriptor
that has been closed every `write` fails with EBADF and the `while` loop is
not left. -/
def job_process_error_abort (pipe_open : Bool) (type : JobProcessErrorType) (arg : Int)
    (errnum : Int) : ChildEnd :=
  if pipe_open = true then .exit ⟨type, arg, errnum⟩ 255 else .spin

/-- The record that the child has written to the error pipe, if any. -/
def record_written : ChildEnd → Option JobProcessWireError
  | .exit written _ => some written
  | _ => none

/-- The errors that `job_process_spawn` raises: a system error with its error
number, or `JOB_PROCESS_ERROR` with the members of the `JobProcessError` that
`job_process_error_read` fills in.  The message, built with `strerror`, is
left out. -/
inductive NihError
  | system (errno : Int)
  | job_process_error (type : JobProcessErrorType) (arg : Int) (errnum : Int)
  deriving DecidableEq, Repr

/-- The inner `switch (err->arg)` of `job_process_error_read`, lines 664-712: the
name of the resource, `none` where the `default` is taken.  The numbers are
those the Linux `sys/resource.h` gives RLIMIT_CPU to RLIMIT_RTPRIO. -/
def rlimit_name (arg : Int) : Option String :=
  if arg = 0 then some "cpu"
  else if arg = 1 then some "fsize"
  else if arg = 2 then some "data"
  else if arg = 3 then some "stack"
  else if arg = 4 then some "core"
  else if arg = 5 then some "rss"
  else if arg = 6 then some "nproc"
  else if arg = 7 then some "nofile"
  else if arg = 8 then some "memlock"
  else if arg = 9 then some "as"
  else if arg = 10 then some "locks"
  else if arg = 11 then some "sigpending"
  else if arg = 12 then some "msgqueue"
  else if arg = 13 then some "nice"
  else if arg = 14 then some "rtprio"
  else none

/-- What `read (fd, &wire_err, sizeof (wire_err))` gives on the error pipe: the
value returned, `errno` where that is negative, and the record in the buffer
where it is the size of a record. -/
structure PipeRead where
  len : Int
  errno : Int
  wire_err : JobProcessWireError
  deriving DecidableEq, Repr

/-- The function `job_process_error_read`, lines 621-753: the value returned and the
error raised.  The result is `none` where `nih_assert_not_reached` is met, the
`default` of the switch over the resource. -/
def job_process_error_read (r : PipeRead) : Option (Int × Option NihError) :=
  if r.len = 0 then
    some (0, none)
  else if r.len < 0 then
    some (-1, some (NihError.system r.errno))
  else if r.len ≠ sizeof_wire_err then
    some (-1, some (NihError.system EILSEQ))
  else
    match r.wire_err.type with
    | .JOB_PROCESS_ERROR_RLIMIT =>
      match rlimit_name r.wire_err.arg with
      | none => none
      | some _ =>
        some (-1, some (NihError.job_process_error r.wire_err.type r.wire_err.arg r.wire_err.errnum))
    | _ => some (-1, some (NihError.job_process_error r.wire_err.type r.wire_err.arg r.wire_err.errnum))

/-- What the kernel answers to the parent in one call of `job_process_spawn`:
`pipe` is the error number when `pipe ()` fails, `fork` is what `fork ()`
returns, `fork_errno` the error number when that is negative, and `read` what
the read of the error pipe gives. -/
structure SpawnSys where
  pipe : Option Int
  fork : Int
  fork_errno : Int
  read : PipeRead
  deriving DecidableEq, Repr

/-- The function `job_process_spawn`, lines 354-411, as the parent runs it: the
value returned and the error raised.  The result is `none` where `fork ()`
returns 0: that is the child, whose run is `job_process_spawn_child`. -/
def job_process_spawn (sys : SpawnSys) : Option (Int × Option NihError) :=
  match sys.pipe with
  | some e => some (-1, some (NihError.system e))
  | none =>
    if sys.fork > 0 then
      match job_process_error_read sys.read with
      | none => none
      | some r => if r.1 < 0 then some (-1, r.2) else some (sys.fork, none)
    else if sys.fork < 0 then
      some (-1, some (NihError.system sys.fork_errno))
    else none

/-- How the loop of `job_process_run`, lines 257-263, tells apart what
`job_process_spawn` has returned: a pid, or -1 with `JOB_PROCESS_ERROR`
raised, or -1 with another error raised. -/
def spawn_result (r : Int × Option NihError) : SpawnResult :=
  if r.1 < 0 then
    match r.2 with
    | some (NihError.job_process_error _ _ _) => .job_process_error
    | _ => .other_error
  else .pid r.1.toNat

/-- An attempt in which the child could not change its root: the record
CHROOT, 0, ENOENT is read from the error pipe. -/
def spawn_chroot_missing : SpawnSys :=
  { pipe := none, fork := 7, fork_errno := 0,
    read := ⟨sizeof_wire_err, 0, ⟨.JOB_PROCESS_ERROR_CHROOT, 0, ENOENT⟩⟩ }

/-- Modelled from the spec: `system.h` is not among the sources; the console modes
of the spec, section 3. -/
inductive ConsoleType
  | CONSOLE_NONE
  | CONSOLE_OUTPUT
  | CONSOLE_OWNER
  | CONSOLE_LOGGED
  deriving DecidableEq, Repr

/-- Modelled from the spec: `job_class.h` is not among the sources; the members of
`JobClass` that the child part of `job_process_spawn` reads, kept apart from
those the supervisor reads.  `limits i` is `none` for a NULL entry and else
the soft and the hard limit; `chroot` and `chdir` are `none` for NULL. -/
structure ClassSetup where
  console : ConsoleType
  limits : Nat → Option (Nat × Nat)
  umask : Nat
  nice : Int
  oom_adj : Int
  chroot : Option String
  chdir : Option String
  debug : Bool

/-- Number of resource kinds, RLIMIT_NLIMITS of the Linux `sys/resource.h`. -/
def RLIMIT_NLIMITS : Nat := 16

/-- What the kernel answers to the calls of the child: for each call that can fail,
`none` when it succeeds and the error number raised when it fails. -/
structure ChildSys where
  system_setup_console : ConsoleType → Option Int
  setrlimit : Nat → Option Int
  setpriority : Option Int
  fopen : Option Int
  fclose : Option Int
  chroot : Option Int
  chdir : Option Int
  ptrace : Option Int
  execvp : Option Int

/-- The steps of the child, lines 421-564, as they are logged: `setsid ()`, the
console set up (with its second try), `setrlimit (i, ...)`, the assignment of
`environ`, `umask`, `setpriority`, the write of `oom_adj`, `chroot`, `chdir`,
the reset of the signals, the pause of a debugged class (the error pipe is
closed and SIGSTOP raised), `ptrace (PTRACE_TRACEME)` and `execvp`. -/
inductive ChildStep
  | setsid
  | system_setup_console
  | setrlimit (i : Nat)
  | environ
  | umask
  | setpriority
  | oom_adj
  | chroot (dir : String)
  | chdir (dir : String)
  | nih_signal_reset
  | raise_SIGSTOP
  | ptrace_traceme
  | execvp
  deriving DecidableEq, Repr

/-- Puts the steps `steps` before a run of the child. -/
def after (steps : List ChildStep) (r : List ChildStep × ChildEnd) :
    List ChildStep × ChildEnd :=
  (steps ++ r.1, r.2)

/-- The child from `execvp` on, lines 549-553. -/
def child_exec (sys : ChildSys) (pipe_open : Bool) : List ChildStep × ChildEnd :=
  match sys.execvp with
  | some e => ([.execvp], job_process_error_abort pipe_open .JOB_PROCESS_ERROR_EXEC 0 e)
  | none => ([.execvp], .exec)

/-- The child from the trace on, lines 540-553. -/
def child_trace (sys : ChildSys) (trace : Bool) (pipe_open : Bool) :
    List ChildStep × ChildEnd :=
  if trace = true then
    match sys.ptrace with
    | some e =>
      ([.ptrace_traceme], job_process_error_abort pipe_open .JOB_PROCESS_ERROR_PTRACE 0 e)
    | none => after [.ptrace_traceme] (child_exec sys pipe_open)
  else child_exec sys pipe_open

/-- The child from the reset of the signals on, lines 519-553: a debugged class
closes the error pipe and stops itself. -/
def child_debug (sys : ChildSys) (cls : ClassSetup) (trace : Bool) :
    List ChildStep × ChildEnd :=
  if cls.debug = true then
    after [.nih_signal_reset, .raise_SIGSTOP] (child_trace sys trace false)
  else
    after [.nih_signal_reset] (child_trace sys trace true)

/-- The child from `chdir` on, lines 509-553. -/
def child_chdir (sys : ChildSys) (cls : ClassSetup) (trace : Bool) :
    List ChildStep × ChildEnd :=
  match sys.chdir with
  | some e =>
    ([.chdir (cls.chdir.getD "/")],
      job_process_error_abort true .JOB_PROCESS_ERROR_CHDIR 0 e)
  | none => after [.chdir (cls.chdir.getD "/")] (child_debug sys cls trace)

/-- The child from `chroot` on, lines 497-553. -/
def child_chroot (sys : ChildSys) (cls : ClassSetup) (trace : Bool) :
    List ChildStep × ChildEnd :=
  match cls.chroot with
  | some dir =>
    match sys.chroot with
    | some e => ([.chroot dir], job_process_error_abort true .JOB_PROCESS_ERROR_CHROOT 0 e)
    | none => after [.chroot dir] (child_chdir sys cls trace)
  | none => child_chdir sys cls trace

/-- The child from the OOM adjustment on, lines 477-553. -/
def child_oom_adj (sys : ChildSys) (cls : ClassSetup) (trace : Bool) :
    List ChildStep × ChildEnd :=
  if cls.oom_adj ≠ 0 then
    match sys.fopen with
    | some e => ([.oom_adj], job_process_error_abort true .JOB_PROCESS_ERROR_OOM_ADJ 0 e)
    | none =>
      match sys.fclose with
      | some e => ([.oom_adj], job_process_error_abort true .JOB_PROCESS_ERROR_OOM_ADJ 0 e)
      | none => after [.oom_adj] (child_chroot sys cls trace)
  else child_chroot sys cls trace

/-- The child from the assignment of `environ` on, lines 461-553. -/
def child_priority (sys : ChildSys) (cls : ClassSetup) (trace : Bool) :
    List ChildStep × ChildEnd :=
  match sys.setpriority with
  | some e =>
    ([.environ, .umask, .setpriority],
      job_process_error_abort true .JOB_PROCESS_ERROR_PRIORITY 0 e)
  | none => after [.environ, .umask, .setpriority] (child_oom_adj sys cls trace)

/-- The `for` loop over the resources, lines 449-459, over the values of `i` still
to come, and what follows it. -/
def child_limits (sys : ChildSys) (cls : ClassSetup) (trace : Bool) :
    List Nat → List ChildStep × ChildEnd
  | [] => child_priority sys cls trace
  | i :: rest =>
    match cls.limits i with
    | none => child_limits sys cls trace rest
    | some _ =>
      match sys.setrlimit i with
      | some e =>
        ([.setrlimit i], job_process_error_abort true .JOB_PROCESS_ERROR_RLIMIT (i : Int) e)
      | none => after [.setrlimit i] (child_limits sys cls trace rest)

/-- The child from the console on, lines 431-553. -/
def child_console (sys : ChildSys) (cls : ClassSetup) (trace : Bool) :
    List ChildStep × ChildEnd :=
  match sys.system_setup_console cls.console with
  | none =>
    after [.system_setup_console] (child_limits sys cls trace (List.range RLIMIT_NLIMITS))
  | some e =>
    if cls.console = .CONSOLE_OUTPUT then
      match sys.system_setup_console .CONSOLE_NONE with
      | some e2 =>
        ([.system_setup_console],
          job_process_error_abort true .JOB_PROCESS_ERROR_CONSOLE 0 e2)
      | none =>
        after [.system_setup_console]
          (child_limits sys cls trace (List.range RLIMIT_NLIMITS))
    else
      ([.system_setup_console], job_process_error_abort true .JOB_PROCESS_ERROR_CONSOLE 0 e)

/-- The function `job_process_spawn`, lines 414-566, as the child runs it: the steps
taken, in order, and how the child ends.  Before `setsid ()` the child closes
the reading end of the error pipe and marks the writing end close-on-exec. -/
def job_process_spawn_child (sys : ChildSys) (cls : ClassSetup) (trace : Bool) :
    List ChildStep × ChildEnd :=
  after [.setsid] (child_console sys cls trace)

/-- The steps after the directories, in the order of the specification: signal reset, debug
pause, ptrace arm (only if trace), exec. -/
def late_steps (cls : ClassSetup) (trace : Bool) : List ChildStep :=
  [.nih_signal_reset] ++ ((if cls.debug = true then [.raise_SIGSTOP] else [])
    ++ ((if trace = true then [.ptrace_traceme] else []) ++ [.execvp]))

/-- The steps from chroot on, in the order of the specification: chroot (only if
configured), chdir (to the chdir of the class or "/"), and the late steps. -/
def dir_steps (cls : ClassSetup) (trace : Bool) : List ChildStep :=
  (match cls.chroot with
    | some dir => [.chroot dir]
    | none => [])
  ++ ([.chdir (cls.chdir.getD "/")] ++ late_steps cls trace)

/-- The steps from the environment on, in the order of the specification: environment,
umask, priority, OOM adjustment (only if non-zero), and the steps from chroot
on. -/
def priority_steps (cls : ClassSetup) (trace : Bool) : List ChildStep :=
  [.environ, .umask, .setpriority]
    ++ ((if cls.oom_adj ≠ 0 then [.oom_adj] else []) ++ dir_steps cls trace)

/-- The resource limits among the indices `idx`, in their order, only those set on
the class. -/
def limit_steps (cls : ClassSetup) (idx : List Nat) : List ChildStep :=
  (idx.filter (fun i => (cls.limits i).isSome)).map .setrlimit

/-- The setup steps of the child in the order the specification gives them: console,
resource limits by ascending index, and the steps from the environment on. -/
def planned_steps (cls : ClassSetup) (trace : Bool) : List ChildStep :=
  [.system_setup_console]
    ++ (limit_steps cls (List.range RLIMIT_NLIMITS) ++ priority_steps cls trace)

/-- Whether the console step fails, lines 436-449: a class with CONSOLE_OUTPUT falls
back to CONSOLE_NONE, and the error of the second try is the one raised. -/
def setup_console (sys : ChildSys) (cls : ClassSetup) : Option Int :=
  match sys.system_setup_console cls.console with
  | none => none
  | some e =>
    if cls.console = .CONSOLE_OUTPUT then sys.system_setup_console .CONSOLE_NONE else some e

/-- Whether the OOM adjustment fails, lines 482-493: at `fopen` or at `fclose`. -/
def setup_oom_adj (sys : ChildSys) : Option Int :=
  match sys.fopen with
  | some e => some e
  | none => sys.fclose

/-- Whether a step fails, and with which error number. -/
def step_result (sys : ChildSys) (cls : ClassSetup) : ChildStep → Option Int
  | .setsid => none
  | .system_setup_console => setup_console sys cls
  | .setrlimit i => sys.setrlimit i
  | .environ => none
  | .umask => none
  | .setpriority => sys.setpriority
  | .oom_adj => setup_oom_adj sys
  | .chroot _ => sys.chroot
  | .chdir _ => sys.chdir
  | .nih_signal_reset => none
  | .raise_SIGSTOP => none
  | .ptrace_traceme => sys.ptrace
  | .execvp => sys.execvp

/-- The type and the argument of the record that names a step: the resource index
for RLIMIT and 0 for every other type; `none` for the steps that have no
error type. -/
def step_error : ChildStep → Option (JobProcessErrorType × Int)
  | .system_setup_console => some (.JOB_PROCESS_ERROR_CONSOLE, 0)
  | .setrlimit i => some (.JOB_PROCESS_ERROR_RLIMIT, (i : Int))
  | .setpriority => some (.JOB_PROCESS_ERROR_PRIORITY, 0)
  | .oom_adj => some (.JOB_PROCESS_ERROR_OOM_ADJ, 0)
  | .chroot _ => some (.JOB_PROCESS_ERROR_CHROOT, 0)
  | .chdir _ => some (.JOB_PROCESS_ERROR_CHDIR, 0)
  | .ptrace_traceme => some (.JOB_PROCESS_ERROR_PTRACE, 0)
  | .execvp => some (.JOB_PROCESS_ERROR_EXEC, 0)
  | _ => none

/-- Runs the steps in order up to the first that fails: the steps taken, and the
step that failed with its error number, if one did. -/
def run_steps (result : ChildStep → Option Int) :
    List ChildStep → List ChildStep × Option (ChildStep × Int)
  | [] => ([], none)
  | s :: rest =>
    match result s with
    | some e => ([s], some (s, e))
    | none => (s :: (run_steps result rest).1, (run_steps result rest).2)

/-- Whether the error pipe is still open at a step: a debugged class has closed it
at its pause, before the ptrace arm and the exec. -/
def pipe_open_at (debug : Bool) (s : ChildStep) : Bool :=
  !(debug && (decide (s = .ptrace_traceme) || decide (s = .execvp)))

/-- How the child ends after a run of its steps: with the exec when none failed,
and else through `job_process_error_abort` for the step that failed. -/
def child_outcome (debug : Bool) : Option (ChildStep × Int) → ChildEnd
  | none => .exec
  | some (s, e) =>
    match step_error s with
    | some (t, a) => job_process_error_abort (pipe_open_at debug s) t a e
    | none => .exec

/-- The class of the setup error scenario: chroot to a directory that is missing. -/
def bad : ClassSetup :=
  { console := .CONSOLE_NONE, limits := fun _ => none, umask := 18, nice := 0, oom_adj := 0,
    chroot := some "/no/such/dir", chdir := none, debug := false }

/-- The kernel letting every call of the child succeed. -/
def child_ok : ChildSys :=
  { system_setup_console := fun _ => none, setrlimit := fun _ => none, setpriority := none,
    fopen := none, fclose := none, chroot := none, chdir := none, ptrace := none,
    execvp := none }

/-- The child as the specification has it, over the steps `steps`: they are run in order up
to the first that fails, and the child ends with the exec, or through
`job_process_error_abort` for the step that failed. -/
def run_child (sys : ChildSys) (cls : ClassSetup) (steps : List ChildStep) :
    List ChildStep × ChildEnd :=
  ((run_steps (step_result sys cls) steps).1,
    child_outcome cls.debug (run_steps (step_result sys cls) steps).2)

/-- The kernel refusing the `chroot` of the child with ENOENT, every other call
succeeding. -/
def child_chroot_missing : ChildSys :=
  { child_ok with chroot := some ENOENT }

/-- The kernel refusing the `execvp` of the child with ENOENT, every other call
succeeding. -/
def child_exec_missing : ChildSys :=
  { child_ok with execvp := some ENOENT }

/-- A class paused for debugging, with nothing else set. -/
def debugged : ClassSetup :=
  { bad with chroot := none, debug := true }

/-- The shell, `SHELL` of `paths.h`. -/
def SHELL : String := "/bin/sh"

/-- The characters of `SHELL_CHARS`, line 66: tilde, backquote, `!$^&*()=|`,
backslash, the braces, `[];`, double and single quote, `<>?`. -/
def SHELL_CHARS : String := "~\x60!$^&*()=|\x5c\x7b\x7d[];\x22\x27<>?"

/-- The newline character. -/
def NL : Char := Char.ofNat 10

/-- Whether `strpbrk (s, accept)` is not NULL: some character of `s` is one of
`accept`.  The strings of C are sequences of bytes; the characters of `accept`
being ASCII, looking at characters finds what looking at bytes finds. -/
def strpbrk (s accept : String) : Bool :=
  s.toList.any (fun c => accept.toList.contains c)

/-- The pointer `strchr (script, NL)`: the text from the first newline on, `none`
for NULL. -/
def strchr_nl (script : List Char) : Option (List Char) :=
  match script.dropWhile (fun c => decide (c ≠ NL)) with
  | [] => none
  | l => some l

/-- What lines 153-223 of `job_process_run` leave: `argv`, the local `script` (the
text to feed to the shell where `shell` is set) and the local `shell`. -/
structure RunArgv where
  argv : List String
  script : String
  shell : Bool
  deriving DecidableEq, Repr

/-- Lines 153-223 of `job_process_run`, the building of `argv`.  `nih_str_split` is
the function of that name of libnih, and `fds0` the reading end of the pipe
that `pipe (fds)` opens for a script of several lines. -/
def job_process_run_argv (nih_str_split : String → String → Bool → List String)
    (fds0 : Nat) (proc : Process) : RunArgv :=
  if proc.script = true ∨ strpbrk proc.command SHELL_CHARS = true then
    let script : String := if proc.script = true then proc.command else "exec " ++ proc.command
    let nl : Option (List Char) := strchr_nl script.toList
    let p : Option (List Char) := nl.map (fun l => l.dropWhile (fun c => decide (c = NL)))
    if nl = none ∨ p = some [] then
      { argv := [SHELL, "-e", "-c",
                  String.mk (script.toList.takeWhile (fun c => decide (c ≠ NL))), SHELL],
        script := String.mk (script.toList.takeWhile (fun c => decide (c ≠ NL))),
        shell := false }
    else
      { argv := [SHELL, "-e", "/proc/self/fd/" ++ toString fds0],
        script := script,
        shell := true }
  else
    { argv := nih_str_split proc.command " \t\r\n" true, script := "", shell := false }

/-- The calls of `job_process_run` on the pipe that feeds a script to the shell. -/
inductive PipeCall
  | pipe
  | close (fd : Nat)
  | nih_io_reopen (fd : Nat)
  | nih_io_write (fd : Nat) (text : String)
  | nih_io_shutdown (fd : Nat)
  deriving DecidableEq, Repr

/-- The calls on the script pipe in a run of `job_process_run` that returns `v`:
the pipe is opened where `shell` is set (line 200); when the spawn has raised
`JOB_PROCESS_ERROR` both ends are closed (lines 268-271), and after a spawn
the reading end is closed and the script written to the writing end, which
is then shut down (lines 296-318). -/
def job_process_run_pipe (shell : Bool) (fds : Nat × Nat) (script : String) (v : Int) :
    List PipeCall :=
  if shell = true then
    if v < 0 then
      [.pipe, .close fds.1, .close fds.2]
    else
      [.pipe, .close fds.1, .nih_io_reopen fds.2, .nih_io_write fds.2 script,
        .nih_io_shutdown fds.2]
  else []

/-- The function `job_process_run`, lines 135-321, with the building of `argv` and
the feeding of the script: `argv`, the calls on the script pipe, and job, calls
and value returned as `job_process_run` has them.  The environment (lines
225-246) is not part of this definition. -/
def job_process_run_shell (nih_str_split : String → String → Bool → List String)
    (fds : Nat × Nat) (spawns : List SpawnResult) (job : Job) (process : ProcessType) :
    Option (List String × List PipeCall × Job × List Call × Int) :=
  match job.class_.process process with
  | none => none
  | some proc =>
    let a : RunArgv := job_process_run_argv nih_str_split fds.1 proc
    match job_process_run_loop job process (run_trace job process) false spawns with
    | none => none
    | some r => some (a.argv, job_process_run_pipe a.shell fds a.script r.2.2, r.1, r.2.1, r.2.2)

/-- The text that goes to the shell, in the words of the specification: the command itself
for a script and "exec " followed by the command otherwise. -/
def shell_text (proc : Process) : String :=
  if proc.script = true then proc.command else "exec " ++ proc.command

/-- The words of `s` between the characters of `delim`, with `word` the characters
of the word being read, in reverse. -/
def split_words (delim : List Char) (word : List Char) : List Char → List (List Char)
  | [] => if word = [] then [] else [word.reverse]
  | c :: rest =>
    if delim.contains c = true then
      if word = [] then split_words delim [] rest
      else word.reverse :: split_words delim [] rest
    else split_words delim (c :: word) rest

/-- A stand-in for `nih_str_split` with `repeat` set: the words between runs of
delimiters. -/
def split_blank (s : String) (delim : String) (_repeat : Bool) : List String :=
  (split_words delim.toList [] s.toList).map String.mk

/-- A script of two lines, 13 bytes long. -/
def two_lines : Process := ⟨true, "echo a\necho b"⟩

/-- An instance of a class whose pre-start process is the script `two_lines`. -/
def scripted_job : Job :=
  { svc_job .JOB_PRE_START 0 0 with
    class_ := { svc with
      process := fun p => if p = .PROCESS_PRE_START then some two_lines else none } }

/-- Modelled from the spec: `blocked.h` is not among the sources; the kinds of
blocker of the spec, section 3. -/
inductive BlockedType
  | BLOCKED_EVENT
  | BLOCKED_JOB
  | BLOCKED_EMIT_METHOD
  | BLOCKED_START_METHOD
  | BLOCKED_STOP_METHOD
  | BLOCKED_RESTART_METHOD
  deriving DecidableEq, Repr

/-- Modelled from the spec: `blocked.h` is not among the sources; a blocker of the
kind of a method call, holding the D-Bus message of the caller (a number
stands for the message). -/
structure Blocked where
  type : BlockedType
  message : Nat
  deriving DecidableEq, Repr

/-- Modelled from the spec: `event.h` is not among the sources; an event has a name,
an environment and a list of blockers. -/
structure Event where
  name : String
  env : List String
  blocking : List Blocked
  deriving DecidableEq, Repr

/-- What `control_emit_event` works on: the event queue, and the messages replied
to so far, in order. -/
structure ControlState where
  events : List Event
  replies : List Nat
  deriving DecidableEq, Repr

/-- The errors that `control_emit_event` raises: the D-Bus error
`DBUS_ERROR_INVALID_ARGS`, or a system error with its error number. -/
inductive ControlError
  | invalid_args
  | system (errno : Int)
  deriving DecidableEq, Repr

/-- Modelled from the spec: `event.c` is not among the sources; `event_new` makes an
event of the name and environment with no blocker and puts it at the back of
the queue; it returns NULL, here `none`, when memory runs out, which `alloc`
tells by the error number. -/
def event_new (alloc : Option Int) (st : ControlState) (name : String) (env : List String) :
    Option Event × ControlState :=
  match alloc with
  | some _ => (none, st)
  | none => (some ⟨name, env, []⟩, { st with events := st.events ++ [⟨name, env, []⟩] })

/-- Modelled from the spec: `blocked.c` is not among the sources; `blocked_new` makes
a blocker of the kind for the message; it returns NULL, here `none`, when
memory runs out. -/
def blocked_new (alloc : Option Int) (type : BlockedType) (message : Nat) : Option Blocked :=
  match alloc with
  | some _ => none
  | none => some ⟨type, message⟩

/-- The function `control_emit_event`, lines 489-537: the state left, the value
returned and the error raised.  `environ_all_valid` is the function of that
name of `environ.c`; `event_alloc` and `blocked_alloc` are `none` when the
allocation in `event_new` and in `blocked_new` succeeds and the error number
when it fails.  The event just made is the last of the queue: `nih_free
(event)` takes it off again, and `nih_list_add` puts the blocker on its list.
The reply of `control_emit_event_reply` is tried until it is sent. -/
def control_emit_event (environ_all_valid : List String → Bool)
    (event_alloc blocked_alloc : Option Int) (st : ControlState) (message : Nat)
    (name : String) (env : List String) (wait : Bool) :
    ControlState × Int × Option ControlError :=
  if name.length = 0 then
    (st, -1, some .invalid_args)
  else if environ_all_valid env = false then
    (st, -1, some .invalid_args)
  else
    match event_new event_alloc st name env with
    | (none, st1) => (st1, -1, some (.system (event_alloc.getD 0)))
    | (some event, st1) =>
      if wait = true then
        match blocked_new blocked_alloc .BLOCKED_EMIT_METHOD message with
        | none =>
          ({ st1 with events := st1.events.dropLast }, -1,
            some (.system (blocked_alloc.getD 0)))
        | some blocked =>
          ({ st1 with
              events := st1.events.dropLast
                ++ [{ event with blocking := event.blocking ++ [blocked] }] }, 0, none)
      else
        ({ st1 with replies := st1.replies ++ [message] }, 0, none)

/-- A stand-in for `environ_all_valid`: every entry holds an equals sign. -/
def all_key_value (env : List String) : Bool :=
  env.all (fun e => e.toList.contains (Char.ofNat 61))

/-- The loop over `normalexit` finds `status` exactly when it is in the list. -/
theorem normalexit_listed_iff (l : List Int) (status : Int) :
    normalexit_listed l status = true ↔ status ∈ l := by
  induction l with
  | nil => simp [normalexit_listed]
  | cons x xs ih =>
    by_cases h : x = status
    · simp [normalexit_listed, h]
    · have h2 : ¬ status = x := fun e => h e.symm
      simp [normalexit_listed, h, h2, ih]

/-- The `normalexit` loop and the test around it: MAIN counts as failed exactly when
the status is non-zero (or the class is a respawning service) and not listed. -/
theorem main_exit_failed_iff (cls : JobClass) (status : Int) :
    main_exit_failed cls status = true ↔
      (status ≠ 0 ∨ (cls.respawn = true ∧ cls.task = false)) ∧ status ∉ cls.normalexit := by
  unfold main_exit_failed
  by_cases h : status ≠ 0 ∨ (cls.respawn = true ∧ cls.task = false)
  · rw [if_pos h]
    have := normalexit_listed_iff cls.normalexit status
    cases hl : normalexit_listed cls.normalexit status
    · simp [hl] at this ⊢
      exact ⟨h, this⟩
    · simp [hl] at this ⊢
      intro _; exact this
  · rw [if_neg h]
    simp only [Bool.false_eq_true, false_iff, not_and]
    intro h2; exact absurd h2 h

/-- The local `state` after lines 1019-1027 is the negation of `state_deferred`. -/
theorem deferred_flag (job : Job) :
    (if job.state = .JOB_POST_START ∧ (job.class_.process .PROCESS_POST_START).isSome
            ∧ job.pid .PROCESS_POST_START > 0 then false
        else if job.state = .JOB_PRE_STOP ∧ (job.class_.process .PROCESS_PRE_STOP).isSome
            ∧ job.pid .PROCESS_PRE_STOP > 0 then false
        else true) = !(decide (state_deferred job)) := by
  unfold state_deferred
  by_cases h1 : job.state = .JOB_POST_START ∧ (job.class_.process .PROCESS_POST_START).isSome
            ∧ job.pid .PROCESS_POST_START > 0
  · rw [if_pos h1]
    have : (job.state = .JOB_POST_START ∧ (job.class_.process .PROCESS_POST_START).isSome = true
      ∧ job.pid .PROCESS_POST_START ≠ 0) := ⟨h1.1, h1.2.1, by omega⟩
    simp [this]
  · rw [if_neg h1]
    by_cases h2 : job.state = .JOB_PRE_STOP ∧ (job.class_.process .PROCESS_PRE_STOP).isSome
            ∧ job.pid .PROCESS_PRE_STOP > 0
    · rw [if_pos h2]
      have : (job.state = .JOB_PRE_STOP ∧ (job.class_.process .PROCESS_PRE_STOP).isSome = true
        ∧ job.pid .PROCESS_PRE_STOP ≠ 0) := ⟨h2.1, h2.2.1, by omega⟩
      simp [this]
    · rw [if_neg h2]
      have n1 : ¬ (job.state = .JOB_POST_START
          ∧ (job.class_.process .PROCESS_POST_START).isSome = true
          ∧ job.pid .PROCESS_POST_START ≠ 0) :=
        fun h => h1 ⟨h.1, h.2.1, Nat.pos_of_ne_zero h.2.2⟩
      have n2 : ¬ (job.state = .JOB_PRE_STOP
          ∧ (job.class_.process .PROCESS_PRE_STOP).isSome = true
          ∧ job.pid .PROCESS_PRE_STOP ≠ 0) :=
        fun h => h2 ⟨h.1, h.2.1, Nat.pos_of_ne_zero h.2.2⟩
      simp [n1, n2]

/-- The switch for MAIN outside KILLED and STOPPING, by cases on the failure, the
respawn flag, the runaway answer and the deferral of the state change. -/
theorem terminated_switch_main_live (now : Int) (job : Job) (status : Int)
    (hs : main_live_state job.state) :
    terminated_switch now job .PROCESS_MAIN status =
      if main_exit_failed job.class_ status = true ∧ job.class_.respawn = true then
        if (job_process_catch_runaway now job).2 = true then
          some ⟨(job_process_catch_runaway now job).1, [.catch_runaway, .job_failed none 0],
            false, true, !(decide (state_deferred job))⟩
        else if state_deferred job then
          some ⟨(job_process_catch_runaway now job).1,
            [.catch_runaway, .job_change_goal .JOB_RESPAWN], false, false, false⟩
        else
          some ⟨(job_process_catch_runaway now job).1, [.catch_runaway], false, false, true⟩
      else
        some ⟨job, [], main_exit_failed job.class_ status, true,
          !(decide (state_deferred job))⟩ := by
  have hperm : job.state = .JOB_RUNNING ∨ job.state = .JOB_SPAWNED ∨ job.state = .JOB_KILLED
        ∨ job.state = .JOB_STOPPING ∨ job.state = .JOB_POST_START
        ∨ job.state = .JOB_PRE_STOP := by
    unfold main_live_state at hs; tauto
  have hk : ¬ job.state = .JOB_KILLED := by
    unfold main_live_state at hs; rcases hs with h | h | h | h <;> simp [h]
  have hst : ¬ job.state = .JOB_STOPPING := by
    unfold main_live_state at hs; rcases hs with h | h | h | h <;> simp [h]
  unfold terminated_switch
  simp only []
  rw [if_pos hperm, if_neg hk, if_neg hst, deferred_flag]
  unfold main_exit_failed
  by_cases hc : status ≠ 0 ∨ (job.class_.respawn = true ∧ job.class_.task = false)
  · rw [if_pos hc, if_pos hc]
    by_cases hf : (!(normalexit_listed job.class_.normalexit status)) = true
        ∧ job.class_.respawn = true
    · rw [if_pos hf, if_pos hf]
      by_cases hr : (job_process_catch_runaway now job).2 = true
      · rw [if_pos hr, if_pos hr]
      · rw [if_neg hr, if_neg hr]
        by_cases hd : state_deferred job
        · simp [hd]
        · simp [hd]
    · rw [if_neg hf, if_neg hf]
  · rw [if_neg hc, if_neg hc]
    simp

/-- The call `job_process_catch_runaway` leaves the state of the job alone. -/
theorem catch_runaway_state (now : Int) (job : Job) :
    (job_process_catch_runaway now job).1.state = job.state := by
  unfold job_process_catch_runaway
  dsimp only
  split_ifs <;> rfl

/-- A value in the range of a C `int` is not changed by the wrap. -/
theorem int_wrap_fits (x : Int) (h1 : -2147483648 ≤ x) (h2 : x ≤ 2147483647) :
    int_wrap x = x := by
  unfold int_wrap
  omega

/-- Inside the window, for a count in the range of a C `int` and below its largest
value: `job_process_catch_runaway` adds one to the count and reports runaway
exactly when the new count exceeds the limit. -/
theorem catch_runaway_within (now : Int) (job : Job)
    (hl : job.class_.respawn_limit ≠ 0) (hi : job.class_.respawn_interval ≠ 0)
    (hw : now - job.respawn_time < (job.class_.respawn_interval : Int))
    (hfit : -2147483648 ≤ job.respawn_count ∧ job.respawn_count < 2147483647) :
    (job_process_catch_runaway now job).1
        = { job with respawn_count := job.respawn_count + 1 }
      ∧ ((job_process_catch_runaway now job).2 = true ↔
          job.respawn_count + 1 > (job.class_.respawn_limit : Int)) := by
  unfold job_process_catch_runaway
  rw [if_pos ⟨hl, hi⟩]
  dsimp only
  rw [if_pos hw, int_wrap_fits (job.respawn_count + 1) (by omega) (by omega)]
  by_cases h4 : job.respawn_count + 1 > (job.class_.respawn_limit : Int)
  · rw [if_pos h4]; simp [h4]
  · rw [if_neg h4]; simp [h4]

/-- Past the window: `job_process_catch_runaway` opens a new one at `now` with the
count at 1 and reports no runaway. -/
theorem catch_runaway_expired (now : Int) (job : Job)
    (hl : job.class_.respawn_limit ≠ 0) (hi : job.class_.respawn_interval ≠ 0)
    (hw : ¬ now - job.respawn_time < (job.class_.respawn_interval : Int)) :
    job_process_catch_runaway now job
      = ({ job with respawn_time := now, respawn_count := 1 }, false) := by
  unfold job_process_catch_runaway
  rw [if_pos ⟨hl, hi⟩]
  dsimp only
  rw [if_neg hw]

/-- Reaping a process leaves the state of the job alone. -/
theorem reaped_state (job : Job) (process : ProcessType) :
    (reaped job process).state = job.state := by
  unfold reaped
  split_ifs <;> rfl

/-- MAIN dies outside KILLED and STOPPING and is not a failure of a respawn class:
the job is stopped, and marked failed if the exit counts as a failure. -/
theorem terminated_main_stop (now : Int) (job : Job) (status : Int)
    (hs : main_live_state job.state)
    (h : ¬ (main_exit_failed job.class_ status = true ∧ job.class_.respawn = true)) :
    job_process_terminated now job .PROCESS_MAIN status =
      some (reaped job .PROCESS_MAIN,
        (if main_exit_failed job.class_ status = true
          then [Call.job_failed (some .PROCESS_MAIN) status] else [])
        ++ [Call.job_change_goal .JOB_STOP]
        ++ (if ¬ state_deferred job ∧ job.state ≠ .JOB_RUNNING
          then [Call.job_change_state_next] else [])) := by
  unfold job_process_terminated
  rw [terminated_switch_main_live now job status hs, if_neg h]
  simp only [reaped_state]
  by_cases hf : main_exit_failed job.class_ status = true <;>
  by_cases hd : state_deferred job <;>
  by_cases hr : job.state = .JOB_RUNNING <;>
  simp [hf, hd, hr]

/-- MAIN of a respawn class fails outside KILLED and STOPPING and the job is running
away: the respawn marker is recorded and the job is stopped. -/
theorem terminated_main_runaway (now : Int) (job : Job) (status : Int)
    (hs : main_live_state job.state)
    (h : main_exit_failed job.class_ status = true ∧ job.class_.respawn = true)
    (hr : (job_process_catch_runaway now job).2 = true) :
    job_process_terminated now job .PROCESS_MAIN status =
      some (reaped (job_process_catch_runaway now job).1 .PROCESS_MAIN,
        [Call.catch_runaway, Call.job_failed none 0, Call.job_change_goal .JOB_STOP]
        ++ (if ¬ state_deferred job ∧ job.state ≠ .JOB_RUNNING
          then [Call.job_change_state_next] else [])) := by
  unfold job_process_terminated
  rw [terminated_switch_main_live now job status hs, if_pos h, if_pos hr]
  simp only [reaped_state, catch_runaway_state]
  by_cases hd : state_deferred job <;>
  by_cases hr : job.state = .JOB_RUNNING <;>
  simp [hd, hr]

/-- MAIN of a respawn class fails outside KILLED and STOPPING and the job is not
running away: the goal becomes RESPAWN if the state change is deferred, and
otherwise the state is advanced with the goal as it is. -/
theorem terminated_main_respawn (now : Int) (job : Job) (status : Int)
    (hs : main_live_state job.state)
    (h : main_exit_failed job.class_ status = true ∧ job.class_.respawn = true)
    (hr : (job_process_catch_runaway now job).2 = false) :
    job_process_terminated now job .PROCESS_MAIN status =
      some (reaped (job_process_catch_runaway now job).1 .PROCESS_MAIN,
        if state_deferred job then [Call.catch_runaway, Call.job_change_goal .JOB_RESPAWN]
        else [Call.catch_runaway, Call.job_change_state_next]) := by
  have hr2 : ¬ (job_process_catch_runaway now job).2 = true := by simp [hr]
  unfold job_process_terminated
  rw [terminated_switch_main_live now job status hs, if_pos h, if_neg hr2]
  by_cases hd : state_deferred job
  · rw [if_pos hd, if_pos hd]; simp
  · rw [if_neg hd, if_neg hd]; simp

/-- MAIN dies in KILLED: nothing but the reaping and the state change. -/
theorem terminated_main_killed (now : Int) (job : Job) (status : Int)
    (hs : job.state = .JOB_KILLED) :
    job_process_terminated now job .PROCESS_MAIN status =
      some (reaped job .PROCESS_MAIN, [Call.job_change_state_next]) := by
  unfold job_process_terminated terminated_switch
  simp [hs]

/-- MAIN dies in STOPPING: nothing but the reaping. -/
theorem terminated_main_stopping (now : Int) (job : Job) (status : Int)
    (hs : job.state = .JOB_STOPPING) :
    job_process_terminated now job .PROCESS_MAIN status =
      some (reaped job .PROCESS_MAIN, []) := by
  unfold job_process_terminated terminated_switch
  simp [hs]

/-- Reaping clears the pid of the process reaped. -/
theorem reaped_pid (job : Job) (process : ProcessType) :
    (reaped job process).pid process = 0 := by
  unfold reaped
  simp

/-- Reaping leaves no kill timer behind. -/
theorem reaped_kill_timer (job : Job) (process : ProcessType) :
    (reaped job process).kill_timer = none := by
  unfold reaped
  cases h : job.kill_timer <;> simp [h]

/-- Reaping does not touch the respawn history. -/
theorem reaped_respawn (job : Job) (process : ProcessType) :
    (reaped job process).respawn_time = job.respawn_time
      ∧ (reaped job process).respawn_count = job.respawn_count := by
  unfold reaped
  split_ifs <;> exact ⟨rfl, rfl⟩

/-- C1: for MAIN dying in RUNNING, SPAWNED, POST_START or PRE_STOP the termination
counts as a failure (the local `failed` after the `normalexit` loop; seen from
outside: MAIN is marked failed or the runaway check is made) exactly when the
status is non-zero or the class has respawn set and task unset, and the status
is not in `normalexit`.  For a class without respawn `job_failed` is called,
for MAIN and that status, exactly then, and the goal is changed to STOP in
either case. -/
theorem terminated_main_failure_rule (now : Int) (job : Job) (status : Int)
    (hs : main_live_state job.state) :
    (main_exit_failed job.class_ status = true ↔
      (status ≠ 0 ∨ (job.class_.respawn = true ∧ job.class_.task = false))
        ∧ status ∉ job.class_.normalexit)
    ∧ ∃ job1 calls, job_process_terminated now job .PROCESS_MAIN status = some (job1, calls)
      ∧ ((Call.job_failed (some .PROCESS_MAIN) status ∈ calls ∨ Call.catch_runaway ∈ calls) ↔
          ((status ≠ 0 ∨ (job.class_.respawn = true ∧ job.class_.task = false))
            ∧ status ∉ job.class_.normalexit))
      ∧ (job.class_.respawn = false →
          (Call.job_failed (some .PROCESS_MAIN) status ∈ calls ↔
            ((status ≠ 0 ∨ (job.class_.respawn = true ∧ job.class_.task = false))
              ∧ status ∉ job.class_.normalexit))
          ∧ (∀ p s, Call.job_failed p s ∈ calls → p = some .PROCESS_MAIN ∧ s = status)
          ∧ Call.job_change_goal .JOB_STOP ∈ calls) := by
  refine ⟨main_exit_failed_iff _ _, ?_⟩
  rw [← main_exit_failed_iff]
  by_cases h : main_exit_failed job.class_ status = true ∧ job.class_.respawn = true
  · have hresp : ¬ job.class_.respawn = false := by simp [h.2]
    cases hr : (job_process_catch_runaway now job).2
    · refine ⟨_, _, terminated_main_respawn now job status hs h hr, ?_, ?_⟩
      · by_cases hd : state_deferred job <;> simp [hd, h.1]
      · intro h2; exact absurd h2 hresp
    · refine ⟨_, _, terminated_main_runaway now job status hs h hr, ?_, ?_⟩
      · simp [h.1]
      · intro h2; exact absurd h2 hresp
  · refine ⟨_, _, terminated_main_stop now job status hs h, ?_, ?_⟩
    · by_cases hf : main_exit_failed job.class_ status = true <;>
      by_cases hg : ¬ state_deferred job ∧ job.state ≠ .JOB_RUNNING <;>
      simp [hf, hg]
    · intro _
      by_cases hf : main_exit_failed job.class_ status = true <;>
      by_cases hg : ¬ state_deferred job ∧ job.state ≠ .JOB_RUNNING <;>
      simp [hf, hg]

/-- C1, at an instance: a class without respawn whose MAIN exits with status 1 in
RUNNING. -/
theorem terminated_main_failure_rule_witness :
    main_live_state JobState.JOB_RUNNING
    ∧ ∃ job1 calls,
      job_process_terminated 0
        ⟨⟨fun _ => none, .EXPECT_NONE, 5, false, false, 0, 0, [2]⟩, .JOB_RUNNING,
          fun _ => 7, none, none, 0, 0, 0, .TRACE_NONE⟩ .PROCESS_MAIN 1 = some (job1, calls)
      ∧ Call.job_failed (some .PROCESS_MAIN) 1 ∈ calls
      ∧ Call.job_change_goal .JOB_STOP ∈ calls := by
  have h := terminated_main_failure_rule 0
    ⟨⟨fun _ => none, .EXPECT_NONE, 5, false, false, 0, 0, [2]⟩, .JOB_RUNNING,
      fun _ => 7, none, none, 0, 0, 0, .TRACE_NONE⟩ 1 (by decide)
  refine ⟨by decide, ?_⟩
  obtain ⟨_, job1, calls, he, _, h3⟩ := h
  obtain ⟨h4, _, h6⟩ := h3 rfl
  exact ⟨job1, calls, he, h4.2 (by decide), h6⟩

/-- C2: whatever the class and whichever of the six states MAIN may die in, a status
listed in `normalexit` never has the instance marked failed: `job_failed` is
not called at all (neither for MAIN nor with the respawn marker), the runaway
check is not made, and the respawn history is as before. -/
theorem terminated_main_normalexit (now : Int) (job : Job) (status : Int)
    (hp : main_live_state job.state ∨ job.state = .JOB_KILLED ∨ job.state = .JOB_STOPPING)
    (hn : status ∈ job.class_.normalexit) :
    ∃ job1 calls, job_process_terminated now job .PROCESS_MAIN status = some (job1, calls)
      ∧ (∀ p s, Call.job_failed p s ∉ calls)
      ∧ Call.catch_runaway ∉ calls
      ∧ job1.respawn_time = job.respawn_time
      ∧ job1.respawn_count = job.respawn_count := by
  rcases hp with hs | hs | hs
  · have hf : ¬ main_exit_failed job.class_ status = true := by
      rw [main_exit_failed_iff]; tauto
    have h : ¬ (main_exit_failed job.class_ status = true ∧ job.class_.respawn = true) :=
      fun h => hf h.1
    refine ⟨_, _, terminated_main_stop now job status hs h, ?_, ?_,
      (reaped_respawn _ _).1, (reaped_respawn _ _).2⟩
    · intro p s
      by_cases hg : ¬ state_deferred job ∧ job.state ≠ .JOB_RUNNING <;> simp [hf, hg]
    · by_cases hg : ¬ state_deferred job ∧ job.state ≠ .JOB_RUNNING <;> simp [hf, hg]
  · exact ⟨_, _, terminated_main_killed now job status hs, by simp, by simp,
      (reaped_respawn _ _).1, (reaped_respawn _ _).2⟩
  · exact ⟨_, _, terminated_main_stopping now job status hs, by simp, by simp,
      (reaped_respawn _ _).1, (reaped_respawn _ _).2⟩

/-- C2, at an instance: a respawning service whose MAIN exits with the listed
status 0 in RUNNING. -/
theorem terminated_main_normalexit_witness :
    ∃ job1 calls,
      job_process_terminated 100
        ⟨⟨fun _ => none, .EXPECT_NONE, 5, false, true, 3, 10, [0]⟩, .JOB_RUNNING,
          fun _ => 7, none, none, 0, 0, 0, .TRACE_NONE⟩ .PROCESS_MAIN 0 = some (job1, calls)
      ∧ (∀ p s, Call.job_failed p s ∉ calls)
      ∧ Call.catch_runaway ∉ calls
      ∧ job1.respawn_time = 0
      ∧ job1.respawn_count = 0 :=
  terminated_main_normalexit 100
    ⟨⟨fun _ => none, .EXPECT_NONE, 5, false, true, 3, 10, [0]⟩, .JOB_RUNNING,
      fun _ => 7, none, none, 0, 0, 0, .TRACE_NONE⟩ 0 (Or.inl (by decide)) (by decide)

/-- C3, refuted as stated: `svc` (limit 3 in 10 seconds) 5 seconds into its window
with `respawn_count` at 2147483647, the largest value of the C `int`.  The
increment does not add 1: it wraps the count around to -2147483648, which is
not greater than the limit, and the answer is FALSE, where adding 1 gives
2147483648, greater than the limit. -/
theorem catch_runaway_wraps_at_int_max :
    svc.respawn_limit = 3 ∧ svc.respawn_interval = 10
    ∧ (105 : Int) - (svc_job .JOB_RUNNING 100 2147483647).respawn_time < 10
    ∧ (svc_job .JOB_RUNNING 100 2147483647).respawn_count + 1 > (svc.respawn_limit : Int)
    ∧ (job_process_catch_runaway 105 (svc_job .JOB_RUNNING 100 2147483647)).1.respawn_count
        = -2147483648
    ∧ (job_process_catch_runaway 105 (svc_job .JOB_RUNNING 100 2147483647)).1.respawn_count
        ≠ (svc_job .JOB_RUNNING 100 2147483647).respawn_count + 1
    ∧ (job_process_catch_runaway 105 (svc_job .JOB_RUNNING 100 2147483647)).2 = false := by
  decide

/-- C3, amended: `job_process_catch_runaway` at time `now`.  With `respawn_limit` or
`respawn_interval` zero it answers FALSE and changes nothing.  Otherwise, if
`now - respawn_time < respawn_interval` and `respawn_count`, a C `int`, is
below 2147483647, it adds one to `respawn_count`, leaves `respawn_time` alone
and answers TRUE exactly when the new count exceeds `respawn_limit`; if
`now - respawn_time` is not below `respawn_interval` it sets `respawn_time` to
`now` and `respawn_count` to 1 and answers FALSE. -/
theorem catch_runaway_rule (now : Int) (job : Job) :
    ((job.class_.respawn_limit = 0 ∨ job.class_.respawn_interval = 0) →
      job_process_catch_runaway now job = (job, false))
    ∧ (job.class_.respawn_limit ≠ 0 → job.class_.respawn_interval ≠ 0 →
        now - job.respawn_time < (job.class_.respawn_interval : Int) →
        -2147483648 ≤ job.respawn_count → job.respawn_count < 2147483647 →
        (job_process_catch_runaway now job).1
            = { job with respawn_count := job.respawn_count + 1 }
          ∧ ((job_process_catch_runaway now job).2 = true ↔
              job.respawn_count + 1 > (job.class_.respawn_limit : Int)))
    ∧ (job.class_.respawn_limit ≠ 0 → job.class_.respawn_interval ≠ 0 →
        ¬ now - job.respawn_time < (job.class_.respawn_interval : Int) →
        job_process_catch_runaway now job
          = ({ job with respawn_time := now, respawn_count := 1 }, false)) := by
  refine ⟨?_, ?_, ?_⟩
  · intro h
    have : ¬ (job.class_.respawn_limit ≠ 0 ∧ job.class_.respawn_interval ≠ 0) := by tauto
    unfold job_process_catch_runaway
    rw [if_neg this]
  · intro h1 h2 h3 h5 h6
    unfold job_process_catch_runaway
    rw [if_pos ⟨h1, h2⟩]
    dsimp only
    rw [if_pos h3, int_wrap_fits (job.respawn_count + 1) (by omega) (by omega)]
    by_cases h4 : job.respawn_count + 1 > (job.class_.respawn_limit : Int)
    · rw [if_pos h4]; simp [h4]
    · rw [if_neg h4]; simp [h4]
  · intro h1 h2 h3
    unfold job_process_catch_runaway
    rw [if_pos ⟨h1, h2⟩]
    dsimp only
    rw [if_neg h3]

/-- C3 amended, at instances of its three cases: no limit configured; the fourth
failure inside a window of limit 3; a failure after the window has run out. -/
theorem catch_runaway_rule_witness :
    (job_process_catch_runaway 5
        ⟨⟨fun _ => none, .EXPECT_NONE, 5, false, true, 0, 10, []⟩, .JOB_RUNNING,
          fun _ => 7, none, none, 0, 0, 0, .TRACE_NONE⟩).2 = false
    ∧ (job_process_catch_runaway 105
        ⟨⟨fun _ => none, .EXPECT_NONE, 5, false, true, 3, 10, []⟩, .JOB_RUNNING,
          fun _ => 7, none, none, 100, 3, 0, .TRACE_NONE⟩).2 = true
    ∧ (job_process_catch_runaway 110
        ⟨⟨fun _ => none, .EXPECT_NONE, 5, false, true, 3, 10, []⟩, .JOB_RUNNING,
          fun _ => 7, none, none, 100, 3, 0, .TRACE_NONE⟩).1.respawn_count = 1 := by
  refine ⟨?_, ?_, ?_⟩
  · rw [(catch_runaway_rule 5 _).1 (Or.inl rfl)]
  · exact ((catch_runaway_rule 105 _).2.1 (by decide) (by decide) (by decide) (by decide)
      (by decide)).2.2 (by decide)
  · rw [(catch_runaway_rule 110 _).2.2 (by decide) (by decide) (by decide)]

/-- The call `job_process_catch_runaway` leaves the class of the job alone. -/
theorem catch_runaway_class (now : Int) (job : Job) :
    (job_process_catch_runaway now job).1.class_ = job.class_ := by
  unfold job_process_catch_runaway
  dsimp only
  split_ifs <;> rfl

/-- One step of the count over a time window. -/
theorem respawns_in_time_cons (job : Job) (t : Int) (rest : List Int) (w len : Int) :
    respawns_in_time job (t :: rest) w len =
      respawns_in_time (job_process_catch_runaway (tv_sec t) job).1 rest w len
        + (if (job_process_catch_runaway (tv_sec t) job).2 = false ∧ w ≤ t ∧ t ≤ w + len
            then 1 else 0) := by
  unfold respawns_in_time
  rw [catch_runaway_at, List.countP_cons]
  congr 1
  by_cases h1 : (job_process_catch_runaway (tv_sec t) job).2 = false <;>
  by_cases h2 : w ≤ t <;> by_cases h3 : t ≤ w + len <;> simp [h1, h2, h3]

/-- The clock does not go back: a later instant has no smaller `tv_sec`. -/
theorem tv_sec_mono (s t : Int) (h : s ≤ t) : tv_sec s ≤ tv_sec t := by
  unfold tv_sec NSEC
  omega

/-- A time window that is less than a second longer than `interval` seconds meets
the seconds from that of its start to at most `interval + 1` later. -/
theorem tv_sec_window (w eps : Int) (interval : Nat) (h0 : 0 ≤ eps) (h1 : eps < NSEC) :
    tv_sec (w + (interval * NSEC + eps)) ≤ tv_sec w + interval + 1 := by
  unfold tv_sec NSEC at *
  omega

set_option maxHeartbeats 2000000 in
/-- The respawns in a time window that meets no more than the seconds from `tv_sec w`
to `tv_sec w + respawn_interval + 1` stay within `window_bound`, for a run of
non-decreasing instants during which the count stays in the range of a C
`int`. -/
theorem respawns_in_time_le_bound (cls : JobClass) (w len : Int)
    (hl : cls.respawn_limit ≠ 0) (hi : cls.respawn_interval ≠ 0)
    (hab : tv_sec (w + len) ≤ tv_sec w + cls.respawn_interval + 1) :
    ∀ (times : List Int) (job : Job) (lo : Int), job.class_ = cls →
      List.Chain (· ≤ ·) lo times →
      0 ≤ job.respawn_count → job.respawn_count + times.length ≤ 2147483647 →
      (respawns_in_time job times w len : Int) ≤
        window_bound cls.respawn_limit cls.respawn_interval (tv_sec w) (tv_sec (w + len))
          (tv_sec lo) job.respawn_time job.respawn_count := by
  intro times
  induction times with
  | nil =>
    intro job lo _ _ _ _
    unfold respawns_in_time window_bound
    simp only [catch_runaway_at, List.countP_nil]
    split_ifs <;> omega
  | cons t rest ih =>
    intro job lo hc hch h0 hmax
    rw [List.chain_cons] at hch
    obtain ⟨hlo, hch⟩ := hch
    rw [List.length_cons] at hmax
    push_cast at hmax
    have hmono := tv_sec_mono lo t hlo
    have hin : w ≤ t ∧ t ≤ w + len → tv_sec w ≤ tv_sec t ∧ tv_sec t ≤ tv_sec (w + len) :=
      fun h => ⟨tv_sec_mono w t h.1, tv_sec_mono t (w + len) h.2⟩
    rw [respawns_in_time_cons]
    have hl2 : job.class_.respawn_limit ≠ 0 := by rw [hc]; exact hl
    have hi2 : job.class_.respawn_interval ≠ 0 := by rw [hc]; exact hi
    have hone : ((if (job_process_catch_runaway (tv_sec t) job).2 = false ∧ w ≤ t ∧ t ≤ w + len
        then 1 else 0 : Nat) : Int)
        ≤ if (job_process_catch_runaway (tv_sec t) job).2 = false
            ∧ tv_sec w ≤ tv_sec t ∧ tv_sec t ≤ tv_sec (w + len) then 1 else 0 := by
      by_cases h : (job_process_catch_runaway (tv_sec t) job).2 = false ∧ w ≤ t ∧ t ≤ w + len
      · rw [if_pos h, if_pos ⟨h.1, hin h.2⟩]
        simp
      · rw [if_neg h]
        split_ifs <;> simp
    by_cases hw : tv_sec t - job.respawn_time < (job.class_.respawn_interval : Int)
    · obtain ⟨e1, e2⟩ := catch_runaway_within (tv_sec t) job hl2 hi2 hw ⟨by omega, by omega⟩
      have ht : (job_process_catch_runaway (tv_sec t) job).1.respawn_time
          = job.respawn_time := by rw [e1]
      have hn : (job_process_catch_runaway (tv_sec t) job).1.respawn_count
          = job.respawn_count + 1 := by rw [e1]
      have ih1 := ih (job_process_catch_runaway (tv_sec t) job).1 t
        ((catch_runaway_class (tv_sec t) job).trans hc) hch (by rw [hn]; omega)
        (by rw [hn]; omega)
      rw [ht, hn] at ih1
      rw [hc] at hw e2
      by_cases hrun : (job_process_catch_runaway (tv_sec t) job).2 = true
      · have hgt := e2.1 hrun
        have hnf : ¬ ((job_process_catch_runaway (tv_sec t) job).2 = false
            ∧ w ≤ t ∧ t ≤ w + len) := by
          simp [hrun]
        rw [if_neg hnf]
        unfold window_bound at ih1 ⊢
        split_ifs at ih1 ⊢ <;> push_cast <;> omega
      · have hle : ¬ job.respawn_count + 1 > (cls.respawn_limit : Int) :=
          fun h => hrun (e2.2 h)
        have hone2 : ((if (job_process_catch_runaway (tv_sec t) job).2 = false
            ∧ w ≤ t ∧ t ≤ w + len then 1 else 0 : Nat) : Int)
            ≤ if tv_sec w ≤ tv_sec t ∧ tv_sec t ≤ tv_sec (w + len) then 1 else 0 := by
          refine le_trans hone ?_
          split_ifs <;> simp_all
        unfold window_bound at ih1 ⊢
        split_ifs at ih1 hone2 ⊢ <;> push_cast <;> omega
    · have e := catch_runaway_expired (tv_sec t) job hl2 hi2 hw
      have ht : (job_process_catch_runaway (tv_sec t) job).1.respawn_time = tv_sec t := by
        rw [e]
      have hn : (job_process_catch_runaway (tv_sec t) job).1.respawn_count = 1 := by rw [e]
      have ih1 := ih (job_process_catch_runaway (tv_sec t) job).1 t
        ((catch_runaway_class (tv_sec t) job).trans hc) hch (by rw [hn]; omega)
        (by rw [hn]; omega)
      rw [ht, hn] at ih1
      rw [hc] at hw
      have hone2 : ((if (job_process_catch_runaway (tv_sec t) job).2 = false
          ∧ w ≤ t ∧ t ≤ w + len then 1 else 0 : Nat) : Int)
          ≤ if tv_sec w ≤ tv_sec t ∧ tv_sec t ≤ tv_sec (w + len) then 1 else 0 := by
        refine le_trans hone ?_
        split_ifs <;> simp_all
      unfold window_bound at ih1 ⊢
      split_ifs at ih1 hone2 ⊢ <;> push_cast <;> omega

/-- C4, refuted as stated: limit 3 in 10 seconds, no respawn on record, failures at
the seconds 100, 100, 100, 110, 110, 110.  All six are answered "not runaway"
and all six lie in the window from 100 to 110, more than `respawn_limit + 1`. -/
theorem respawns_in_window_exceeds_limit_succ :
    svc.respawn_limit = 3 ∧ svc.respawn_interval = 10
    ∧ List.Chain' (· ≤ ·) [(100 : Int), 100, 100, 110, 110, 110]
    ∧ respawns_in_window (svc_job .JOB_RUNNING 0 0) [100, 100, 100, 110, 110, 110] 100 = 6
    ∧ ¬ (respawns_in_window (svc_job .JOB_RUNNING 0 0) [100, 100, 100, 110, 110, 110] 100
          ≤ svc.respawn_limit + 1) := by
  refine ⟨by decide, by decide, by simp, by decide, by decide⟩

/-- C4, amended: for non-zero `respawn_limit` and `respawn_interval`, no respawn on
record and non-decreasing instants of failure, at most 2147483647 of them (the
count is a C `int`), handed to `job_process_catch_runaway`, which reads the
whole seconds of the clock at each: the failures answered "not runaway" in any
time window of length `respawn_interval` seconds plus `eps`, for `eps` below a
second, number at most `3 * respawn_limit`. -/
theorem respawns_in_time_le (job : Job) (times : List Int) (w eps : Int)
    (hl : job.class_.respawn_limit ≠ 0) (hi : job.class_.respawn_interval ≠ 0)
    (hfresh : job.respawn_time = 0 ∧ job.respawn_count = 0)
    (hsorted : List.Chain' (· ≤ ·) times)
    (hlen : times.length ≤ 2147483647)
    (heps : 0 ≤ eps ∧ eps < NSEC) :
    respawns_in_time job times w (job.class_.respawn_interval * NSEC + eps)
      ≤ 3 * job.class_.respawn_limit := by
  cases times with
  | nil => simp [respawns_in_time, catch_runaway_at]
  | cons t rest =>
    have hch : List.Chain (· ≤ ·) t (t :: rest) := List.Chain.cons (le_refl t) hsorted
    have h := respawns_in_time_le_bound job.class_ w
      (job.class_.respawn_interval * NSEC + eps) hl hi
      (tv_sec_window w eps job.class_.respawn_interval heps.1 heps.2)
      (t :: rest) job t rfl hch (by rw [hfresh.2]) (by rw [hfresh.2]; omega)
    rw [hfresh.1, hfresh.2] at h
    unfold window_bound at h
    split_ifs at h <;> omega

/-- C4 amended, at instances: `svc` (limit 3 in 10 seconds) failing at the instants
100.50 s, twice at 109.96 s and three times each at 110.00 s and 120.02 s has
eight respawns in the 10.06 s from 109.96 s on, more than twice the limit and
within the bound; failing three times each at 9.96 s, 10.00 s and 20.02 s it
has nine, the bound itself. -/
theorem respawns_in_time_le_witness :
    respawns_in_time (svc_job .JOB_RUNNING 0 0)
        [100500000000, 109960000000, 109960000000, 110000000000, 110000000000,
          110000000000, 120020000000, 120020000000, 120020000000]
        109960000000 (svc.respawn_interval * NSEC + 60000000) = 8
    ∧ respawns_in_time (svc_job .JOB_RUNNING 0 0)
        [100500000000, 109960000000, 109960000000, 110000000000, 110000000000,
          110000000000, 120020000000, 120020000000, 120020000000]
        109960000000 (svc.respawn_interval * NSEC + 60000000) ≤ 3 * svc.respawn_limit
    ∧ respawns_in_time (svc_job .JOB_RUNNING 0 0)
        [9960000000, 9960000000, 9960000000, 10000000000, 10000000000, 10000000000,
          20020000000, 20020000000, 20020000000]
        9960000000 (svc.respawn_interval * NSEC + 60000000) = 9 :=
  ⟨by decide,
    respawns_in_time_le (svc_job .JOB_RUNNING 0 0)
      [100500000000, 109960000000, 109960000000, 110000000000, 110000000000,
        110000000000, 120020000000, 120020000000, 120020000000]
      109960000000 60000000 (by decide) (by decide) ⟨rfl, rfl⟩ (by simp) (by decide)
      (by decide),
    by decide⟩

/-- A run inside one window: with the history at `respawn_count = rc`, failures that
all come less than `respawn_interval` after `respawn_time` are answered runaway
exactly from the one that takes the count past `respawn_limit`, as long as the
count stays in the range of a C `int`. -/
theorem catch_runaway_run_in_window (cls : JobClass)
    (hl : cls.respawn_limit ≠ 0) (hi : cls.respawn_interval ≠ 0) :
    ∀ (nows : List Int) (job : Job), job.class_ = cls →
      (∀ t ∈ nows, t - job.respawn_time < (cls.respawn_interval : Int)) →
      0 ≤ job.respawn_count → job.respawn_count + nows.length ≤ 2147483647 →
      (catch_runaway_run job nows).map Prod.snd =
        (List.range nows.length).map
          (fun (i : Nat) => decide ((cls.respawn_limit : Int) < job.respawn_count + 1 + (i : Int))) := by
  intro nows
  induction nows with
  | nil => intro job _ _ _ _; simp [catch_runaway_run]
  | cons t rest ih =>
    intro job hc hin h0 hmax
    rw [List.length_cons] at hmax
    push_cast at hmax
    have hl2 : job.class_.respawn_limit ≠ 0 := by rw [hc]; exact hl
    have hi2 : job.class_.respawn_interval ≠ 0 := by rw [hc]; exact hi
    have hw : t - job.respawn_time < (job.class_.respawn_interval : Int) := by
      rw [hc]; exact hin t (List.mem_cons_self t rest)
    obtain ⟨e1, e2⟩ := catch_runaway_within t job hl2 hi2 hw ⟨by omega, by omega⟩
    have ht : (job_process_catch_runaway t job).1.respawn_time = job.respawn_time := by
      rw [e1]
    have hn : (job_process_catch_runaway t job).1.respawn_count = job.respawn_count + 1 := by
      rw [e1]
    have ih1 := ih (job_process_catch_runaway t job).1
      ((catch_runaway_class t job).trans hc)
      (by intro u hu; rw [ht]; exact hin u (List.mem_cons_of_mem t hu))
      (by rw [hn]; omega) (by rw [hn]; omega)
    rw [catch_runaway_run, List.map_cons, ih1, List.length_cons, List.range_succ_eq_map,
      List.map_cons, List.map_map, hn]
    rw [hc] at e2
    congr 1
    · have : (job_process_catch_runaway t job).2
          = decide ((cls.respawn_limit : Int) < job.respawn_count + 1) := by
        by_cases h : job.respawn_count + 1 > (cls.respawn_limit : Int)
        · rw [e2.2 h]; simp; omega
        · have h2 : ¬ (job_process_catch_runaway t job).2 = true := fun h3 => h (e2.1 h3)
          simp at h2
          rw [h2]; simp; omega
      simpa using this
    · apply List.map_congr_left
      intro i _
      simp only [Function.comp, Nat.succ_eq_add_one]
      push_cast
      congr 1
      apply propext
      constructor <;> intro h <;> omega

/-- Where the window is opened by the first failure (the last respawn on record is
at least `respawn_interval` old), a run of failures that all come less than
`respawn_interval` after the first has exactly its first `respawn_limit`
failures answered "not runaway": failure number `i`, counted from 0, is
answered runaway exactly when `respawn_limit ≤ i`.  The run is short enough
for the count to stay in the range of a C `int`. -/
theorem catch_runaway_run_opened_window (job : Job) (t1 : Int) (rest : List Int)
    (hl : job.class_.respawn_limit ≠ 0) (hi : job.class_.respawn_interval ≠ 0)
    (hold : ¬ t1 - job.respawn_time < (job.class_.respawn_interval : Int))
    (hin : ∀ t ∈ rest, t - t1 < (job.class_.respawn_interval : Int))
    (hlen : rest.length + 1 ≤ 2147483647) :
    (catch_runaway_run job (t1 :: rest)).map Prod.snd =
      (List.range (rest.length + 1)).map
        (fun (i : Nat) => decide (job.class_.respawn_limit ≤ i)) := by
  have e := catch_runaway_expired t1 job hl hi hold
  have ht : (job_process_catch_runaway t1 job).1.respawn_time = t1 := by rw [e]
  have hn : (job_process_catch_runaway t1 job).1.respawn_count = 1 := by rw [e]
  have h2 : (job_process_catch_runaway t1 job).2 = false := by rw [e]
  have hrun := catch_runaway_run_in_window job.class_ hl hi rest
    (job_process_catch_runaway t1 job).1 (catch_runaway_class t1 job)
    (by intro u hu; rw [ht]; exact hin u hu) (by rw [hn]; omega) (by rw [hn]; omega)
  rw [catch_runaway_run, List.map_cons, hrun, List.range_succ_eq_map, List.map_cons,
    List.map_map, hn, h2]
  congr 1
  · have : ¬ job.class_.respawn_limit ≤ 0 := by omega
    simp [this]
  · apply List.map_congr_left
    intro i _
    simp only [Function.comp, Nat.succ_eq_add_one]
    congr 1
    apply propext
    constructor <;> intro h <;> omega

/-- C5, the run on which the code departs from it: limit 3 in 10 seconds, no respawn
on record, failures at the seconds 5, 12, 12, 12, 12 of the monotonic clock,
all within 10 s of the first.  The first failure is counted in a window that
began at second 0, the second failure opens a new window, and four failures
are answered "not runaway" before the fifth is reported as runaway. -/
theorem catch_runaway_run_early_clock :
    svc.respawn_limit = 3 ∧ svc.respawn_interval = 10
    ∧ (∀ t ∈ [(5 : Int), 12, 12, 12, 12], 5 ≤ t ∧ t - 5 < 10)
    ∧ catch_runaway_run (svc_job .JOB_RUNNING 0 0) [5, 12, 12, 12, 12]
        = [(5, false), (12, false), (12, false), (12, false), (12, true)] := by
  decide

/-- C6: MAIN of a respawn class dies with a failing status in RUNNING, SPAWNED,
POST_START or PRE_STOP and `job_process_catch_runaway` reports runaway: then
`job_failed` is called exactly once, with the respawn marker (process -1,
status 0), the goal is changed to STOP and is never set to RESPAWN. -/
theorem terminated_main_runaway_fails_once (now : Int) (job : Job) (status : Int)
    (hs : main_live_state job.state)
    (hresp : job.class_.respawn = true)
    (hfail : (status ≠ 0 ∨ job.class_.task = false) ∧ status ∉ job.class_.normalexit)
    (hrun : (job_process_catch_runaway now job).2 = true) :
    ∃ job1 calls, job_process_terminated now job .PROCESS_MAIN status = some (job1, calls)
      ∧ failures calls = [(none, 0)]
      ∧ Call.job_change_goal .JOB_STOP ∈ calls
      ∧ Call.job_change_goal .JOB_RESPAWN ∉ calls := by
  have hf : main_exit_failed job.class_ status = true := by
    rw [main_exit_failed_iff]
    exact ⟨hfail.1.imp id (fun h => ⟨hresp, h⟩), hfail.2⟩
  refine ⟨_, _, terminated_main_runaway now job status hs ⟨hf, hresp⟩ hrun, ?_, ?_, ?_⟩ <;>
  by_cases hg : ¬ state_deferred job ∧ job.state ≠ .JOB_RUNNING <;>
  simp [hg, failures]

/-- C6, at an instance: `svc` with its limit of 3 used up 5 seconds into the window,
MAIN exiting with status 1 in RUNNING. -/
theorem terminated_main_runaway_fails_once_witness :
    ∃ job1 calls,
      job_process_terminated 5 (svc_job .JOB_RUNNING 0 3) .PROCESS_MAIN 1 = some (job1, calls)
      ∧ failures calls = [(none, 0)]
      ∧ Call.job_change_goal .JOB_STOP ∈ calls
      ∧ Call.job_change_goal .JOB_RESPAWN ∉ calls :=
  terminated_main_runaway_fails_once 5 (svc_job .JOB_RUNNING 0 3) 1 (by decide) (by decide)
    (by decide) (by decide)

/-- C7, refuted as stated: `svc` (respawn, limit 3 in 10 seconds) with the limit
used up, MAIN exiting once more with status 1 in RUNNING.  The only failure
recorded is the respawn marker, process -1 with status 0; `job_failed` is not
called for MAIN with status 1. -/
theorem terminated_runaway_not_main_status :
    (job_process_terminated 5 (svc_job .JOB_RUNNING 0 3) .PROCESS_MAIN 1).map Prod.snd
        = some [Call.catch_runaway, Call.job_failed none 0, Call.job_change_goal .JOB_STOP]
    ∧ ¬ ∃ job1 calls,
        job_process_terminated 5 (svc_job .JOB_RUNNING 0 3) .PROCESS_MAIN 1 = some (job1, calls)
        ∧ Call.job_failed (some .PROCESS_MAIN) 1 ∈ calls := by
  have h := terminated_main_runaway 5 (svc_job .JOB_RUNNING 0 3) 1 (by decide)
    (by decide) (by decide)
  refine ⟨by decide, ?_⟩
  rintro ⟨job1, calls, he, hm⟩
  rw [h] at he
  have hc : calls = [Call.catch_runaway, Call.job_failed none 0,
      Call.job_change_goal .JOB_STOP] := by
    have := (Prod.mk.inj (Option.some.inj he)).2
    rw [← this]; decide
  rw [hc] at hm
  revert hm
  decide

/-- C7, amended: in the runaway case of the respawn-on-crash scenario (the class
respawns, limit and interval are non-zero, the count is already at the limit or
beyond, and below 2147483647 as a C `int` that can still be incremented, MAIN
exiting with status 1 inside the window) the failure recorded by
`job_process_terminated` is the respawn marker, process -1 with status 0, and
nothing else: `job_failed` is not called for MAIN with status 1. -/
theorem terminated_runaway_records_marker (now : Int) (job : Job)
    (hs : main_live_state job.state)
    (hresp : job.class_.respawn = true)
    (hne : (1 : Int) ∉ job.class_.normalexit)
    (hl : job.class_.respawn_limit ≠ 0) (hi : job.class_.respawn_interval ≠ 0)
    (hw : now - job.respawn_time < (job.class_.respawn_interval : Int))
    (hused : (job.class_.respawn_limit : Int) ≤ job.respawn_count)
    (hfit : job.respawn_count < 2147483647) :
    ∃ job1 calls, job_process_terminated now job .PROCESS_MAIN 1 = some (job1, calls)
      ∧ failures calls = [(none, 0)]
      ∧ Call.job_failed (some .PROCESS_MAIN) 1 ∉ calls := by
  have hf : main_exit_failed job.class_ 1 = true := by
    rw [main_exit_failed_iff]
    exact ⟨Or.inl (by decide), hne⟩
  have hrun : (job_process_catch_runaway now job).2 = true :=
    (catch_runaway_within now job hl hi hw ⟨by omega, hfit⟩).2.2 (by omega)
  refine ⟨_, _, terminated_main_runaway now job 1 hs ⟨hf, hresp⟩ hrun, ?_, ?_⟩ <;>
  by_cases hg : ¬ state_deferred job ∧ job.state ≠ .JOB_RUNNING <;>
  simp [hg, failures]

/-- C7 amended, at an instance: `svc` with its limit of 3 used up, 5 seconds into
the window, MAIN exiting with status 1 in RUNNING. -/
theorem terminated_runaway_records_marker_witness :
    ∃ job1 calls,
      job_process_terminated 5 (svc_job .JOB_RUNNING 0 3) .PROCESS_MAIN 1 = some (job1, calls)
      ∧ failures calls = [(none, 0)]
      ∧ Call.job_failed (some .PROCESS_MAIN) 1 ∉ calls :=
  terminated_runaway_records_marker 5 (svc_job .JOB_RUNNING 0 3) (by decide) (by decide)
    (by decide) (by decide) (by decide) (by decide) (by decide) (by decide)

/-- C8, refuted as stated: `svc` in RUNNING, no respawn on record, MAIN exiting with
status 1 at second 100.  The job is not running away and the state change is
not deferred; `job_process_terminated` advances the state and does not call
`job_change_goal` at all, so the goal is not set to RESPAWN. -/
theorem terminated_respawn_running_goal_untouched :
    (job_process_catch_runaway 100 (svc_job .JOB_RUNNING 0 0)).2 = false
    ∧ (job_process_terminated 100 (svc_job .JOB_RUNNING 0 0) .PROCESS_MAIN 1).map Prod.snd
        = some [Call.catch_runaway, Call.job_change_state_next]
    ∧ ¬ ∃ job1 calls,
        job_process_terminated 100 (svc_job .JOB_RUNNING 0 0) .PROCESS_MAIN 1
          = some (job1, calls)
        ∧ Call.job_change_goal .JOB_RESPAWN ∈ calls := by
  have h := terminated_main_respawn 100 (svc_job .JOB_RUNNING 0 0) 1 (by decide)
    (by decide) (by decide)
  refine ⟨by decide, by decide, ?_⟩
  rintro ⟨job1, calls, he, hm⟩
  rw [h] at he
  have hc : calls = [Call.catch_runaway, Call.job_change_state_next] := by
    have := (Prod.mk.inj (Option.some.inj he)).2
    rw [← this]; decide
  rw [hc] at hm
  revert hm
  decide

/-- C8, amended: MAIN of a respawn class dies with a failing status in RUNNING,
SPAWNED, POST_START or PRE_STOP and the job is not running away.  Then
`job_process_terminated` sets the goal to RESPAWN exactly when the state
change is deferred behind a live post-start or pre-stop process: its calls
are then the runaway check and `job_change_goal (JOB_RESPAWN)`.  When the
state change is not deferred it leaves the goal as it is, calling
`job_change_goal` for no goal at all, and advances the state: its calls are
the runaway check and `job_change_state` to `job_next_state`.  In neither
case does it set the goal to STOP, or to any goal but RESPAWN, or mark
the instance failed. -/
theorem terminated_main_respawn_goal (now : Int) (job : Job) (status : Int)
    (hs : main_live_state job.state)
    (hresp : job.class_.respawn = true)
    (hfail : (status ≠ 0 ∨ job.class_.task = false) ∧ status ∉ job.class_.normalexit)
    (hrun : (job_process_catch_runaway now job).2 = false) :
    ∃ job1 calls, job_process_terminated now job .PROCESS_MAIN status = some (job1, calls)
      ∧ (state_deferred job →
          calls = [Call.catch_runaway, Call.job_change_goal .JOB_RESPAWN])
      ∧ (¬ state_deferred job →
          calls = [Call.catch_runaway, Call.job_change_state_next]
            ∧ ∀ g, Call.job_change_goal g ∉ calls)
      ∧ (Call.job_change_goal .JOB_RESPAWN ∈ calls ↔ state_deferred job)
      ∧ (Call.job_change_state_next ∈ calls ↔ ¬ state_deferred job)
      ∧ (∀ g, Call.job_change_goal g ∈ calls → g = .JOB_RESPAWN)
      ∧ Call.job_change_goal .JOB_STOP ∉ calls
      ∧ failures calls = [] := by
  have hf : main_exit_failed job.class_ status = true := by
    rw [main_exit_failed_iff]
    exact ⟨hfail.1.imp id (fun h => ⟨hresp, h⟩), hfail.2⟩
  refine ⟨_, _, terminated_main_respawn now job status hs ⟨hf, hresp⟩ hrun,
    ?_, ?_, ?_, ?_, ?_, ?_, ?_⟩ <;>
  by_cases hd : state_deferred job <;>
  simp [hd, failures]

/-- C8 amended, at instances: a respawning service in POST_START whose post-start
process (pid 8) is still running, where the state change is deferred, and
`svc` in RUNNING, where it is not. -/
theorem terminated_main_respawn_goal_witness :
    (∃ job1 calls,
      job_process_terminated 100
        ⟨⟨fun _ => some ⟨true, "sleep 1"⟩, .EXPECT_NONE, 5, false, true, 3, 10, []⟩,
          .JOB_POST_START, fun _ => 8, none, none, 0, 0, 0, .TRACE_NONE⟩ .PROCESS_MAIN 1
        = some (job1, calls)
      ∧ calls = [Call.catch_runaway, Call.job_change_goal .JOB_RESPAWN]
      ∧ Call.job_change_goal .JOB_RESPAWN ∈ calls
      ∧ Call.job_change_state_next ∉ calls)
    ∧ ∃ job1 calls,
      job_process_terminated 100 (svc_job .JOB_RUNNING 0 0) .PROCESS_MAIN 1
        = some (job1, calls)
      ∧ calls = [Call.catch_runaway, Call.job_change_state_next]
      ∧ ∀ g, Call.job_change_goal g ∉ calls := by
  constructor
  · have h := terminated_main_respawn_goal 100
      ⟨⟨fun _ => some ⟨true, "sleep 1"⟩, .EXPECT_NONE, 5, false, true, 3, 10, []⟩,
        .JOB_POST_START, fun _ => 8, none, none, 0, 0, 0, .TRACE_NONE⟩ 1
      (by decide) (by decide) (by decide) (by decide)
    obtain ⟨job1, calls, he, h0, _, h1, h2, _, _, _⟩ := h
    exact ⟨job1, calls, he, h0 (by decide), h1.2 (by decide),
      fun hn => (h2.1 hn) (by decide)⟩
  · have h := terminated_main_respawn_goal 100 (svc_job .JOB_RUNNING 0 0) 1
      (by decide) (by decide) (by decide) (by decide)
    obtain ⟨job1, calls, he, _, h0, _, _, _, _, _⟩ := h
    exact ⟨job1, calls, he, (h0 (by decide)).1, (h0 (by decide)).2⟩

/-- C9, refuted as stated: MAIN of `svc` dying in KILLED.  Besides clearing the pid
and cancelling the timer, `job_process_terminated` advances the state
(`job_change_state` to `job_next_state`). -/
theorem terminated_main_killed_advances :
    (job_process_terminated 100 (svc_job .JOB_KILLED 0 0) .PROCESS_MAIN 0).map Prod.snd
        = some [Call.job_change_state_next]
    ∧ (job_process_terminated 100 (svc_job .JOB_KILLED 0 0) .PROCESS_MAIN 0).map Prod.snd
        ≠ some [] := by
  decide

/-- C9, amended: for every class and status, MAIN dying in KILLED or STOPPING never
marks the instance failed, never changes the goal and never consults or
changes the respawn counter; it clears `pid[MAIN]` and cancels the kill timer
and, in KILLED but not in STOPPING, advances the state to `job_next_state`. -/
theorem terminated_main_killed_or_stopping (now : Int) (job : Job) (status : Int)
    (hs : job.state = .JOB_KILLED ∨ job.state = .JOB_STOPPING) :
    ∃ job1 calls, job_process_terminated now job .PROCESS_MAIN status = some (job1, calls)
      ∧ failures calls = []
      ∧ (∀ g, Call.job_change_goal g ∉ calls)
      ∧ Call.catch_runaway ∉ calls
      ∧ job1.respawn_time = job.respawn_time
      ∧ job1.respawn_count = job.respawn_count
      ∧ job1 = reaped job .PROCESS_MAIN
      ∧ job1.pid .PROCESS_MAIN = 0
      ∧ job1.kill_timer = none
      ∧ calls = (if job.state = .JOB_KILLED then [Call.job_change_state_next] else []) := by
  rcases hs with hs | hs
  · refine ⟨_, _, terminated_main_killed now job status hs, by simp [failures], by simp,
      by simp, (reaped_respawn _ _).1, (reaped_respawn _ _).2, rfl, reaped_pid _ _,
      reaped_kill_timer _ _, by simp [hs]⟩
  · refine ⟨_, _, terminated_main_stopping now job status hs, by simp [failures], by simp,
      by simp, (reaped_respawn _ _).1, (reaped_respawn _ _).2, rfl, reaped_pid _ _,
      reaped_kill_timer _ _, by simp [hs]⟩

/-- C9 amended, at an instance: MAIN of `svc` dying with status 1 in STOPPING, a
kill timer of 5 seconds armed for MAIN. -/
theorem terminated_main_killed_or_stopping_witness :
    ∃ job1 calls,
      job_process_terminated 100
        { svc_job .JOB_STOPPING 95 3 with
          kill_timer := some 5, kill_process := some .PROCESS_MAIN } .PROCESS_MAIN 1
        = some (job1, calls)
      ∧ calls = []
      ∧ job1.pid .PROCESS_MAIN = 0 ∧ job1.kill_timer = none
      ∧ job1.respawn_count = 3 := by
  have h := terminated_main_killed_or_stopping 100
    { svc_job .JOB_STOPPING 95 3 with
      kill_timer := some 5, kill_process := some .PROCESS_MAIN } 1 (Or.inr rfl)
  obtain ⟨job1, calls, he, _, _, _, _, h5, _, h7, h8, h9⟩ := h
  exact ⟨job1, calls, he, h9, h7, h8, h5⟩

/-- When `job_process_terminated` advances the state for MAIN, in terms of
`state_deferred`. -/
theorem terminated_main_advances_deferred (now : Int) (job : Job) (status : Int)
    (hp : main_live_state job.state ∨ job.state = .JOB_KILLED ∨ job.state = .JOB_STOPPING) :
    ∃ job1 calls, job_process_terminated now job .PROCESS_MAIN status = some (job1, calls)
      ∧ job1.pid .PROCESS_MAIN = 0
      ∧ calls.count Call.job_change_state_next ≤ 1
      ∧ (Call.job_change_state_next ∈ calls ↔
          ¬ (job.state = .JOB_STOPPING ∨ state_deferred job
            ∨ (job.state = .JOB_RUNNING ∧ Call.job_change_goal .JOB_STOP ∈ calls))) := by
  have hdk : state_deferred job → ¬ job.state = .JOB_KILLED := by
    rintro (h | h) <;> simp [h.1]
  rcases hp with hs | hs | hs
  · have hnst : ¬ job.state = .JOB_STOPPING := by
      unfold main_live_state at hs; rcases hs with h | h | h | h <;> simp [h]
    have hdr : state_deferred job → ¬ job.state = .JOB_RUNNING := by
      rintro (h | h) <;> simp [h.1]
    by_cases h : main_exit_failed job.class_ status = true ∧ job.class_.respawn = true
    · cases hr : (job_process_catch_runaway now job).2
      · refine ⟨_, _, terminated_main_respawn now job status hs h hr, reaped_pid _ _, ?_, ?_⟩
        · by_cases hd : state_deferred job <;> simp [hd, List.count_cons]
        · by_cases hd : state_deferred job <;> simp [hd, hnst]
      · refine ⟨_, _, terminated_main_runaway now job status hs h hr, reaped_pid _ _, ?_, ?_⟩
        · by_cases hg : ¬ state_deferred job ∧ job.state ≠ .JOB_RUNNING <;>
          simp [hg, List.count_cons]
        · by_cases hd : state_deferred job <;> by_cases hrn : job.state = .JOB_RUNNING <;>
          simp [hd, hrn, hnst]
    · refine ⟨_, _, terminated_main_stop now job status hs h, reaped_pid _ _, ?_, ?_⟩
      · by_cases hf : main_exit_failed job.class_ status = true <;>
        by_cases hg : ¬ state_deferred job ∧ job.state ≠ .JOB_RUNNING <;>
        simp [hf, hg, List.count_cons]
      · by_cases hf : main_exit_failed job.class_ status = true <;>
        by_cases hd : state_deferred job <;> by_cases hrn : job.state = .JOB_RUNNING <;>
        simp [hf, hd, hrn, hnst]
  · refine ⟨_, _, terminated_main_killed now job status hs, reaped_pid _ _, by simp, ?_⟩
    have hd : ¬ state_deferred job := fun h => hdk h hs
    simp [hs, hd]
  · refine ⟨_, _, terminated_main_stopping now job status hs, reaped_pid _ _, by simp, ?_⟩
    simp [hs]

/-- C10: `job_process_terminated` for MAIN, in any of the six states it may be
called in, clears `pid[MAIN]`, and it advances the state itself
(`job_change_state` to `job_next_state`, once) exactly when none of these
holds: the state is STOPPING; the state is POST_START with a post-start
process defined and its pid non-zero; the state is PRE_STOP with a pre-stop
process defined and its pid non-zero; the goal is changed to STOP by this call
while the state is RUNNING. -/
theorem terminated_main_advances_iff (now : Int) (job : Job) (status : Int)
    (hp : main_live_state job.state ∨ job.state = .JOB_KILLED ∨ job.state = .JOB_STOPPING) :
    ∃ job1 calls, job_process_terminated now job .PROCESS_MAIN status = some (job1, calls)
      ∧ job1.pid .PROCESS_MAIN = 0
      ∧ calls.count Call.job_change_state_next ≤ 1
      ∧ (Call.job_change_state_next ∈ calls ↔
          ¬ (job.state = .JOB_STOPPING
            ∨ (job.state = .JOB_POST_START
                ∧ (job.class_.process .PROCESS_POST_START).isSome = true
                ∧ job.pid .PROCESS_POST_START ≠ 0)
            ∨ (job.state = .JOB_PRE_STOP
                ∧ (job.class_.process .PROCESS_PRE_STOP).isSome = true
                ∧ job.pid .PROCESS_PRE_STOP ≠ 0)
            ∨ (job.state = .JOB_RUNNING ∧ Call.job_change_goal .JOB_STOP ∈ calls))) := by
  obtain ⟨job1, calls, he, h1, h2, h3⟩ := terminated_main_advances_deferred now job status hp
  refine ⟨job1, calls, he, h1, h2, ?_⟩
  rw [h3]
  simp only [state_deferred, or_assoc]

/-- C10, at instances: MAIN of `svc` exiting with status 0, listed in no
`normalexit`, in SPAWNED, where the state is advanced, and in STOPPING, where
it is not. -/
theorem terminated_main_advances_iff_witness :
    (∃ job1 calls,
      job_process_terminated 100 (svc_job .JOB_SPAWNED 0 0) .PROCESS_MAIN 0
        = some (job1, calls)
      ∧ job1.pid .PROCESS_MAIN = 0 ∧ Call.job_change_state_next ∈ calls)
    ∧ (∃ job1 calls,
      job_process_terminated 100 (svc_job .JOB_STOPPING 0 0) .PROCESS_MAIN 0
        = some (job1, calls)
      ∧ job1.pid .PROCESS_MAIN = 0 ∧ Call.job_change_state_next ∉ calls) := by
  constructor
  · obtain ⟨job1, calls, he, h1, _, h3⟩ :=
      terminated_main_advances_iff 100 (svc_job .JOB_SPAWNED 0 0) 0 (Or.inl (by decide))
    refine ⟨job1, calls, he, h1, h3.2 ?_⟩
    rintro (h | h | h | h)
    · exact absurd h (by decide)
    · exact absurd h.1 (by decide)
    · exact absurd h.1 (by decide)
    · exact absurd h.1 (by decide)
  · obtain ⟨job1, calls, he, h1, _, h3⟩ :=
      terminated_main_advances_iff 100 (svc_job .JOB_STOPPING 0 0) 0 (Or.inr (Or.inr rfl))
    exact ⟨job1, calls, he, h1, fun hn => (h3.1 hn) (Or.inl rfl)⟩

/-- A pre-start, post-start, pre-stop or post-stop process dying in its own state:
the job is reaped and the state advanced, after `job_failed` and
`job_change_goal (JOB_STOP)` when the process is pre-start or post-stop and the
status is non-zero. -/
theorem terminated_script (now : Int) (job : Job) (process : ProcessType) (status : Int)
    (hown : (process = .PROCESS_PRE_START ∧ job.state = .JOB_PRE_START)
      ∨ (process = .PROCESS_POST_START ∧ job.state = .JOB_POST_START)
      ∨ (process = .PROCESS_PRE_STOP ∧ job.state = .JOB_PRE_STOP)
      ∨ (process = .PROCESS_POST_STOP ∧ job.state = .JOB_POST_STOP)) :
    job_process_terminated now job process status =
      some (reaped job process,
        if (process = .PROCESS_PRE_START ∨ process = .PROCESS_POST_STOP) ∧ status ≠ 0 then
          [Call.job_failed (some process) status, Call.job_change_goal .JOB_STOP,
            Call.job_change_state_next]
        else [Call.job_change_state_next]) := by
  unfold job_process_terminated terminated_switch
  rcases hown with ⟨hp, hs⟩ | ⟨hp, hs⟩ | ⟨hp, hs⟩ | ⟨hp, hs⟩ <;> subst hp <;>
  by_cases h0 : status = 0 <;> simp [hs, h0, reaped_state]

/-- C11: a PRE_START, POST_START, PRE_STOP or POST_STOP process terminating in its
own state.  `job_failed` is called, with that process kind and the status, and
the goal is changed to STOP exactly when the kind is PRE_START or POST_STOP and
the status is non-zero; for POST_START and PRE_STOP neither happens, whatever
the status.  In all four cases the pid is cleared and the state advanced once
to `job_next_state`. -/
theorem terminated_script_failure_rule (now : Int) (job : Job) (process : ProcessType)
    (status : Int)
    (hown : (process = .PROCESS_PRE_START ∧ job.state = .JOB_PRE_START)
      ∨ (process = .PROCESS_POST_START ∧ job.state = .JOB_POST_START)
      ∨ (process = .PROCESS_PRE_STOP ∧ job.state = .JOB_PRE_STOP)
      ∨ (process = .PROCESS_POST_STOP ∧ job.state = .JOB_POST_STOP)) :
    ∃ job1 calls, job_process_terminated now job process status = some (job1, calls)
      ∧ (failures calls = [(some process, status)] ↔
          (process = .PROCESS_PRE_START ∨ process = .PROCESS_POST_STOP) ∧ status ≠ 0)
      ∧ (failures calls = [] ↔
          ¬ ((process = .PROCESS_PRE_START ∨ process = .PROCESS_POST_STOP) ∧ status ≠ 0))
      ∧ (Call.job_change_goal .JOB_STOP ∈ calls ↔
          (process = .PROCESS_PRE_START ∨ process = .PROCESS_POST_STOP) ∧ status ≠ 0)
      ∧ (∀ g, Call.job_change_goal g ∈ calls → g = .JOB_STOP)
      ∧ ((process = .PROCESS_POST_START ∨ process = .PROCESS_PRE_STOP) →
          failures calls = [] ∧ ∀ g, Call.job_change_goal g ∉ calls)
      ∧ job1.pid process = 0
      ∧ calls.count Call.job_change_state_next = 1 := by
  refine ⟨_, _, terminated_script now job process status hown, ?_⟩
  by_cases hc : (process = .PROCESS_PRE_START ∨ process = .PROCESS_POST_STOP) ∧ status ≠ 0
  · rw [if_pos hc]
    have hn : ¬ (process = .PROCESS_POST_START ∨ process = .PROCESS_PRE_STOP) := by
      rcases hc.1 with h | h <;> subst h <;> decide
    simp [failures, hc, hn, reaped_pid, List.count_cons]
  · rw [if_neg hc]
    simp [failures, hc, reaped_pid, List.count_cons]

/-- C11, at its instance: a pre-start process exiting with status 1 in PRE_START
has the instance marked failed with process PRE_START and status 1. -/
theorem terminated_script_failure_rule_witness :
    ∃ job1 calls,
      job_process_terminated 0 (svc_job .JOB_PRE_START 0 0) .PROCESS_PRE_START 1
        = some (job1, calls)
      ∧ failures calls = [(some .PROCESS_PRE_START, 1)]
      ∧ Call.job_change_goal .JOB_STOP ∈ calls
      ∧ job1.pid .PROCESS_PRE_START = 0 := by
  obtain ⟨job1, calls, he, h1, _, h3, _, _, h6, _⟩ :=
    terminated_script_failure_rule 0 (svc_job .JOB_PRE_START 0 0) .PROCESS_PRE_START 1
      (Or.inl ⟨rfl, rfl⟩)
  exact ⟨job1, calls, he, h1.2 ⟨Or.inl rfl, by decide⟩, h3.2 ⟨Or.inl rfl, by decide⟩, h6⟩

/-- C12: `job_process_kill` called with `pid[process] > 0` and no kill timer sends
TERM exactly once, to `pid[process]`.  If the signal is sent it arms exactly
one timer, of `kill_timeout` seconds, and sets `kill_process` to the process;
if sending fails with any error, ESRCH included, no timer is armed and
`kill_process` is -1.  A warning is logged exactly when there is an error
other than ESRCH. -/
theorem kill_sends_term (result : Option Int) (job : Job) (process : ProcessType)
    (hpid : job.pid process > 0) (htimer : job.kill_timer = none) :
    ∃ job1 calls, job_process_kill result job process = some (job1, calls)
      ∧ signals_sent calls = [(job.pid process, false)]
      ∧ (result = none →
          timers_added calls = [job.class_.kill_timeout]
          ∧ job1.kill_timer = some job.class_.kill_timeout
          ∧ job1.kill_process = some process)
      ∧ (∀ e, result = some e →
          timers_added calls = [] ∧ job1.kill_timer = none ∧ job1.kill_process = none)
      ∧ (Call.nih_warn ∈ calls ↔ ∃ e, result = some e ∧ e ≠ ESRCH) := by
  unfold job_process_kill
  rw [if_pos hpid, if_pos htimer]
  cases result with
  | none => exact ⟨_, _, rfl, by simp [signals_sent, timers_added]⟩
  | some e =>
    by_cases he : e ≠ ESRCH
    · simp only [if_pos he]
      exact ⟨_, _, rfl, by simp [signals_sent, timers_added, he, htimer]⟩
    · simp only [if_neg he]
      exact ⟨_, _, rfl, by simp [signals_sent, timers_added, he, htimer]⟩

/-- C12, at instances: MAIN of `svc` (pid 7, kill timeout 5) sent TERM with success,
with ESRCH and with another error (1, EPERM). -/
theorem kill_sends_term_witness :
    (∃ job1 calls,
      job_process_kill none (svc_job .JOB_KILLED 0 0) .PROCESS_MAIN = some (job1, calls)
      ∧ signals_sent calls = [(7, false)] ∧ timers_added calls = [5]
      ∧ job1.kill_process = some .PROCESS_MAIN)
    ∧ (∃ job1 calls,
      job_process_kill (some ESRCH) (svc_job .JOB_KILLED 0 0) .PROCESS_MAIN
        = some (job1, calls)
      ∧ timers_added calls = [] ∧ job1.kill_process = none ∧ Call.nih_warn ∉ calls)
    ∧ (∃ job1 calls,
      job_process_kill (some 1) (svc_job .JOB_KILLED 0 0) .PROCESS_MAIN = some (job1, calls)
      ∧ timers_added calls = [] ∧ Call.nih_warn ∈ calls) := by
  refine ⟨?_, ?_, ?_⟩
  · obtain ⟨job1, calls, he, h1, h2, _, _⟩ :=
      kill_sends_term none (svc_job .JOB_KILLED 0 0) .PROCESS_MAIN (by decide) rfl
    exact ⟨job1, calls, he, h1, (h2 rfl).1, (h2 rfl).2.2⟩
  · obtain ⟨job1, calls, he, _, _, h3, h4⟩ :=
      kill_sends_term (some ESRCH) (svc_job .JOB_KILLED 0 0) .PROCESS_MAIN (by decide) rfl
    refine ⟨job1, calls, he, (h3 _ rfl).1, (h3 _ rfl).2.2, fun hw => ?_⟩
    obtain ⟨e, h5, h6⟩ := h4.1 hw
    exact h6 (Option.some.inj h5).symm
  · obtain ⟨job1, calls, he, _, _, h3, h4⟩ :=
      kill_sends_term (some 1) (svc_job .JOB_KILLED 0 0) .PROCESS_MAIN (by decide) rfl
    exact ⟨job1, calls, he, (h3 _ rfl).1, h4.2 ⟨1, rfl, by decide⟩⟩

/-- What `job_process_kill` leaves when the signal is sent. -/
theorem job_process_kill_sent (job : Job) (process : ProcessType)
    (hpid : job.pid process > 0) (htimer : job.kill_timer = none) :
    job_process_kill none job process =
      some ({ job with kill_process := some process,
                       kill_timer := some job.class_.kill_timeout },
        [Call.system_kill (job.pid process) false,
          Call.nih_timer_add_timeout job.class_.kill_timeout]) := by
  unfold job_process_kill
  rw [if_pos hpid, if_pos htimer]

/-- What `job_process_kill_timer` leaves, whatever becomes of the signal. -/
theorem job_process_kill_timer_fired (result : Option Int) (job : Job)
    (process : ProcessType) (t : Nat)
    (ht : job.kill_timer = some t) (hp : job.kill_process = some process)
    (hpid : job.pid process > 0) :
    ∃ calls, job_process_kill_timer result job =
        some ({ job with kill_timer := none, kill_process := none }, calls)
      ∧ signals_sent calls = [(job.pid process, true)]
      ∧ timers_added calls = [] := by
  unfold job_process_kill_timer
  simp only [ht, hp, Option.isSome_some, if_true, if_pos hpid]
  cases result with
  | none => exact ⟨_, rfl, by simp [signals_sent, timers_added]⟩
  | some e =>
    by_cases he : e ≠ ESRCH
    · simp only [if_pos he]
      exact ⟨_, rfl, by simp [signals_sent, timers_added]⟩
    · simp only [if_neg he]
      exact ⟨_, rfl, by simp [signals_sent, timers_added]⟩

/-- The signals of two runs of calls, one after the other. -/
theorem signals_sent_append (c1 c2 : List Call) :
    signals_sent (c1 ++ c2) = signals_sent c1 ++ signals_sent c2 := by
  unfold signals_sent
  rw [List.filterMap_append]

/-- The timers of two runs of calls, one after the other. -/
theorem timers_added_append (c1 c2 : List Call) :
    timers_added (c1 ++ c2) = timers_added c1 ++ timers_added c2 := by
  unfold timers_added
  rw [List.filterMap_append]

/-- C13: when the kill timer fires, `job_process_kill_timer` sends KILL exactly
once, to `pid[kill_process]`, adds no timer and leaves `kill_timer` empty and
`kill_process` at -1 whether or not the sending succeeds.  And a
`job_process_kill` that succeeds followed by the timer firing sends exactly
one TERM and then exactly one KILL, both to the same pid, with the one timer
in between. -/
theorem kill_timer_sends_kill (result : Option Int) (job : Job) (process : ProcessType)
    (hpid : job.pid process > 0) :
    (∀ t, job.kill_timer = some t → job.kill_process = some process →
      ∃ job1 calls, job_process_kill_timer result job = some (job1, calls)
        ∧ signals_sent calls = [(job.pid process, true)]
        ∧ timers_added calls = []
        ∧ job1.kill_timer = none ∧ job1.kill_process = none)
    ∧ (job.kill_timer = none →
      ∃ job1 calls1 job2 calls2,
        job_process_kill none job process = some (job1, calls1)
        ∧ job_process_kill_timer result job1 = some (job2, calls2)
        ∧ signals_sent (calls1 ++ calls2) = [(job.pid process, false), (job.pid process, true)]
        ∧ timers_added (calls1 ++ calls2) = [job.class_.kill_timeout]
        ∧ job2.kill_timer = none ∧ job2.kill_process = none) := by
  constructor
  · intro t ht hp
    obtain ⟨calls, he, h1, h2⟩ := job_process_kill_timer_fired result job process t ht hp hpid
    exact ⟨_, calls, he, h1, h2, rfl, rfl⟩
  · intro htimer
    obtain ⟨calls, he, h1, h2⟩ := job_process_kill_timer_fired result
      { job with kill_process := some process, kill_timer := some job.class_.kill_timeout }
      process job.class_.kill_timeout rfl rfl hpid
    refine ⟨_, _, _, calls, job_process_kill_sent job process hpid htimer, he, ?_, ?_,
      rfl, rfl⟩
    · rw [signals_sent_append, h1]; simp [signals_sent]
    · rw [timers_added_append, h2]; simp [timers_added]

/-- C13, at an instance: MAIN of `svc` (pid 7, kill timeout 5) ignoring TERM; the
KILL that follows fails with ESRCH. -/
theorem kill_timer_sends_kill_witness :
    ∃ job1 calls1 job2 calls2,
      job_process_kill none (svc_job .JOB_KILLED 0 0) .PROCESS_MAIN = some (job1, calls1)
      ∧ job_process_kill_timer (some ESRCH) job1 = some (job2, calls2)
      ∧ signals_sent (calls1 ++ calls2) = [(7, false), (7, true)]
      ∧ timers_added (calls1 ++ calls2) = [5]
      ∧ job2.kill_timer = none ∧ job2.kill_process = none :=
  (kill_timer_sends_kill (some ESRCH) (svc_job .JOB_KILLED 0 0) .PROCESS_MAIN
    (by decide)).2 rfl

/-- The process that `job_process_find` returns for a pid runs as that pid. -/
theorem job_process_find_pid (job : Job) (pid : Nat) (process : ProcessType)
    (h : job_process_find job pid = some process) : job.pid process = pid := by
  unfold job_process_find at h
  have := List.find?_some h
  simpa using this

/-- The pid of MAIN is found as MAIN. -/
theorem job_process_find_main (job : Job) :
    job_process_find job (job.pid .PROCESS_MAIN) = some .PROCESS_MAIN := by
  unfold job_process_find
  simp [List.find?]

/-- C14: for a STOPPED event with signal `status` on a pid owned by the job,
`job_process_handler` sends SIGCONT to that pid and advances the job to
`job_next_state` exactly when the signal is SIGSTOP, the process is MAIN, the
state is SPAWNED and the class expects STOP; in every other case no call is
made at all.  The job itself is as before in both cases. -/
theorem handler_stopped_rule (sys : Sys) (now : Int) (job : Job) (pid : Nat)
    (process : ProcessType) (status : Int)
    (hpid : pid > 0) (hfind : job_process_find job pid = some process) :
    ∃ calls, job_process_handler sys now job pid .NIH_CHILD_STOPPED status = some (job, calls)
      ∧ ((status = SIGSTOP ∧ process = .PROCESS_MAIN ∧ job.state = .JOB_SPAWNED
            ∧ job.class_.expect = .EXPECT_STOP) →
          calls = [Call.kill pid SIGCONT, Call.job_change_state_next])
      ∧ (¬ (status = SIGSTOP ∧ process = .PROCESS_MAIN ∧ job.state = .JOB_SPAWNED
            ∧ job.class_.expect = .EXPECT_STOP) →
          calls = []) := by
  have hp := job_process_find_pid job pid process hfind
  unfold job_process_handler
  rw [if_pos hpid, hfind]
  simp only []
  by_cases h1 : status = SIGSTOP
  · rw [if_pos h1]
    unfold job_process_stopped
    by_cases h2 : process ≠ .PROCESS_MAIN ∨ job.state ≠ .JOB_SPAWNED
    · rw [if_pos h2]
      refine ⟨_, rfl, ?_, fun _ => rfl⟩
      rintro ⟨_, h3, h4, _⟩
      rcases h2 with h2 | h2
      · exact absurd h3 h2
      · exact absurd h4 h2
    · rw [if_neg h2]
      by_cases h3 : job.class_.expect = .EXPECT_STOP
      · rw [if_pos h3, hp]
        refine ⟨_, rfl, fun _ => rfl, ?_⟩
        intro hn
        exfalso
        apply hn
        refine ⟨h1, ?_, ?_, h3⟩
        · by_contra h; exact h2 (Or.inl h)
        · by_contra h; exact h2 (Or.inr h)
      · rw [if_neg h3]
        exact ⟨_, rfl, fun h => absurd h.2.2.2 h3, fun _ => rfl⟩
  · rw [if_neg h1]
    exact ⟨_, rfl, fun h => absurd h.1 h1, fun _ => rfl⟩

/-- C14, at instances: a job that expects STOP, in SPAWNED with MAIN as pid 7,
stopped by SIGSTOP and by SIGTSTP (20). -/
theorem handler_stopped_rule_witness :
    job_process_handler sys_fail 0
        { svc_job .JOB_SPAWNED 0 0 with class_ := { svc with expect := .EXPECT_STOP } }
        7 .NIH_CHILD_STOPPED SIGSTOP
      = some ({ svc_job .JOB_SPAWNED 0 0 with class_ := { svc with expect := .EXPECT_STOP } },
          [Call.kill 7 SIGCONT, Call.job_change_state_next])
    ∧ job_process_handler sys_fail 0
        { svc_job .JOB_SPAWNED 0 0 with class_ := { svc with expect := .EXPECT_STOP } }
        7 .NIH_CHILD_STOPPED 20
      = some ({ svc_job .JOB_SPAWNED 0 0 with class_ := { svc with expect := .EXPECT_STOP } },
          []) := by
  constructor
  · obtain ⟨calls, he, h1, _⟩ := handler_stopped_rule sys_fail 0
      { svc_job .JOB_SPAWNED 0 0 with class_ := { svc with expect := .EXPECT_STOP } }
      7 .PROCESS_MAIN SIGSTOP (by decide) (by decide)
    rw [he, h1 ⟨rfl, rfl, rfl, rfl⟩]
  · obtain ⟨calls, he, _, h2⟩ := handler_stopped_rule sys_fail 0
      { svc_job .JOB_SPAWNED 0 0 with class_ := { svc with expect := .EXPECT_STOP } }
      7 .PROCESS_MAIN 20 (by decide) (by decide)
    rw [he, h2 (fun h => absurd h.1 (by decide))]

/-- The NEW handling for MAIN in SPAWNED when setting the options fails: a warning
and nothing else. -/
theorem trace_new_setoptions_fails (sys : Sys) (job : Job)
    (hst : job.state = .JOB_SPAWNED)
    (htr : job.trace_state = .TRACE_NEW ∨ job.trace_state = .TRACE_NEW_CHILD)
    (hset : sys.ptrace .PTRACE_SETOPTIONS (job.pid .PROCESS_MAIN) trace_options = false) :
    job_process_trace_new sys job .PROCESS_MAIN =
      some (job,
        [Call.ptrace .PTRACE_SETOPTIONS (job.pid .PROCESS_MAIN) trace_options,
          Call.nih_warn]) := by
  unfold job_process_trace_new
  rw [if_pos htr]
  simp [hst, hset]

/-- The NEW handling for MAIN in SPAWNED when setting the options succeeds: the
trace becomes NORMAL and the child is continued. -/
theorem trace_new_setoptions_ok (sys : Sys) (job : Job)
    (hst : job.state = .JOB_SPAWNED)
    (htr : job.trace_state = .TRACE_NEW ∨ job.trace_state = .TRACE_NEW_CHILD)
    (hset : sys.ptrace .PTRACE_SETOPTIONS (job.pid .PROCESS_MAIN) trace_options = true) :
    job_process_trace_new sys job .PROCESS_MAIN =
      some ({ job with trace_state := .TRACE_NORMAL },
        Call.ptrace .PTRACE_SETOPTIONS (job.pid .PROCESS_MAIN) trace_options
          :: ptrace_cont sys (job.pid .PROCESS_MAIN) 0) := by
  unfold job_process_trace_new ptrace_cont
  rw [if_pos htr]
  by_cases hc : sys.ptrace .PTRACE_CONT (job.pid .PROCESS_MAIN) 0 = false
  · simp [hst, hset, hc]
  · simp [hst, hset, hc]

/-- The NEW_CHILD handling for MAIN in SPAWNED once the forks expected are seen: the
child is detached, the trace ends and the state is advanced. -/
theorem trace_new_child_done (sys : Sys) (job : Job)
    (hst : job.state = .JOB_SPAWNED) (htr : job.trace_state = .TRACE_NEW_CHILD)
    (h : job.trace_forks + 1 > 1 ∨ job.class_.expect = .EXPECT_FORK) :
    job_process_trace_new_child sys job .PROCESS_MAIN =
      some ({ job with trace_forks := job.trace_forks + 1, trace_state := .TRACE_NONE },
        ptrace_detach sys (job.pid .PROCESS_MAIN) ++ [Call.job_change_state_next]) := by
  unfold job_process_trace_new_child
  rw [if_pos htr]
  simp only [hst, ne_eq, not_true_eq_false, or_self, if_false]
  rw [if_pos h]

/-- The NEW_CHILD handling for MAIN in SPAWNED while forks are still expected: the
fork is counted and the NEW handling applied. -/
theorem trace_new_child_again (sys : Sys) (job : Job)
    (hst : job.state = .JOB_SPAWNED) (htr : job.trace_state = .TRACE_NEW_CHILD)
    (h : ¬ (job.trace_forks + 1 > 1 ∨ job.class_.expect = .EXPECT_FORK)) :
    job_process_trace_new_child sys job .PROCESS_MAIN =
      job_process_trace_new sys { job with trace_forks := job.trace_forks + 1 }
        .PROCESS_MAIN := by
  unfold job_process_trace_new_child
  rw [if_pos htr]
  simp only [hst, ne_eq, not_true_eq_false, or_self, if_false]
  rw [if_neg h]

/-- The fork handling for MAIN in SPAWNED under a NORMAL trace when the event
message cannot be read: a warning and nothing else. -/
theorem trace_fork_geteventmsg_fails (sys : Sys) (job : Job)
    (hst : job.state = .JOB_SPAWNED) (htr : job.trace_state = .TRACE_NORMAL)
    (hget : sys.ptrace .PTRACE_GETEVENTMSG (job.pid .PROCESS_MAIN) 0 = false) :
    job_process_trace_fork sys job .PROCESS_MAIN =
      some (job, [Call.ptrace .PTRACE_GETEVENTMSG (job.pid .PROCESS_MAIN) 0,
        Call.nih_warn]) := by
  unfold job_process_trace_fork
  simp [hst, htr, hget]

/-- The fork handling for MAIN in SPAWNED under a NORMAL trace when the new child
cannot be probed yet: the parent is detached, MAIN is the child and the trace
waits at NEW_CHILD. -/
theorem trace_fork_probe_fails (sys : Sys) (job : Job)
    (hst : job.state = .JOB_SPAWNED) (htr : job.trace_state = .TRACE_NORMAL)
    (hget : sys.ptrace .PTRACE_GETEVENTMSG (job.pid .PROCESS_MAIN) 0 = true)
    (hprobe : sys.ptrace .PTRACE_SETOPTIONS (sys.eventmsg (job.pid .PROCESS_MAIN)) 0
      = false) :
    job_process_trace_fork sys job .PROCESS_MAIN =
      some (forked sys job,
        Call.ptrace .PTRACE_GETEVENTMSG (job.pid .PROCESS_MAIN) 0
          :: ptrace_detach sys (job.pid .PROCESS_MAIN)
          ++ [Call.ptrace .PTRACE_SETOPTIONS (sys.eventmsg (job.pid .PROCESS_MAIN)) 0]) := by
  unfold job_process_trace_fork forked
  simp [hst, htr, hget, hprobe]

/-- The fork handling for MAIN in SPAWNED under a NORMAL trace when the new child
has stopped already: the NEW_CHILD handling follows at once. -/
theorem trace_fork_probe_ok (sys : Sys) (job : Job)
    (hst : job.state = .JOB_SPAWNED) (htr : job.trace_state = .TRACE_NORMAL)
    (hget : sys.ptrace .PTRACE_GETEVENTMSG (job.pid .PROCESS_MAIN) 0 = true)
    (hprobe : sys.ptrace .PTRACE_SETOPTIONS (sys.eventmsg (job.pid .PROCESS_MAIN)) 0
      = true) :
    job_process_trace_fork sys job .PROCESS_MAIN =
      (job_process_trace_new_child sys (forked sys job) .PROCESS_MAIN).map
        (fun r => (r.1,
          Call.ptrace .PTRACE_GETEVENTMSG (job.pid .PROCESS_MAIN) 0
            :: ptrace_detach sys (job.pid .PROCESS_MAIN)
            ++ [Call.ptrace .PTRACE_SETOPTIONS (sys.eventmsg (job.pid .PROCESS_MAIN)) 0]
            ++ r.2)) := by
  unfold job_process_trace_fork forked
  simp only [hst, htr, hget, hprobe, ne_eq, not_true_eq_false, or_self, if_false,
    Bool.true_eq_false, Function.update_same]
  cases job_process_trace_new_child sys _ .PROCESS_MAIN <;> rfl

/-- The pid of MAIN after the fork handling is the child of the event message. -/
theorem forked_pid (sys : Sys) (job : Job) :
    (forked sys job).pid .PROCESS_MAIN = sys.eventmsg (job.pid .PROCESS_MAIN) := by
  unfold forked
  simp

/-- The advances of the state recorded in a list of calls. -/
theorem count_next_ptrace_detach (sys : Sys) (pid : Nat) :
    (ptrace_detach sys pid).count Call.job_change_state_next = 0 := by
  unfold ptrace_detach
  split_ifs <;> simp [List.count_cons]

/-- A continue records no advance of the state. -/
theorem count_next_ptrace_cont (sys : Sys) (pid : Nat) (signum : Int) :
    (ptrace_cont sys pid signum).count Call.job_change_state_next = 0 := by
  unfold ptrace_cont
  split_ifs <;> simp [List.count_cons]

/-- C15: a job expecting FORK in SPAWNED with the trace NEW and no fork counted.
TRAPPED(SIGTRAP) on the main pid, then PTRACE(FORK) with the child pid `c` as
event message, then TRAPPED(SIGSTOP) on `c`, every ptrace call succeeding but
the probing `PTRACE_SETOPTIONS` on `c` at fork time, end with the trace at
NONE, one fork counted, `pid[MAIN] = c` and exactly one advance past SPAWNED.
If the probe succeeds, the same is reached at the end of the PTRACE(FORK)
event.  (What the kernel answers during the third event, `sys3`, is the
detaching of `c` only and does not matter.) -/
theorem handler_expect_fork_trace (now : Int) (job : Job) (c : Nat) (sys1 sys2 sys3 : Sys)
    (hexp : job.class_.expect = .EXPECT_FORK) (hst : job.state = .JOB_SPAWNED)
    (htr : job.trace_state = .TRACE_NEW) (hforks : job.trace_forks = 0)
    (hpid : job.pid .PROCESS_MAIN > 0) (hc : c > 0)
    (h1 : ∀ r p d, sys1.ptrace r p d = true)
    (hmsg : sys2.eventmsg (job.pid .PROCESS_MAIN) = c)
    (h2 : ∀ r p d, ¬ (r = .PTRACE_SETOPTIONS ∧ p = c ∧ d = 0) → sys2.ptrace r p d = true) :
    (sys2.ptrace .PTRACE_SETOPTIONS c 0 = false →
      ∃ j1 c1 j2 c2 j3 c3,
        job_process_handler sys1 now job (job.pid .PROCESS_MAIN) .NIH_CHILD_TRAPPED SIGTRAP
          = some (j1, c1)
        ∧ job_process_handler sys2 now j1 (job.pid .PROCESS_MAIN) .NIH_CHILD_PTRACE
            PTRACE_EVENT_FORK = some (j2, c2)
        ∧ job_process_handler sys3 now j2 c .NIH_CHILD_TRAPPED SIGSTOP = some (j3, c3)
        ∧ j2.trace_state = .TRACE_NEW_CHILD
        ∧ j3.trace_state = .TRACE_NONE ∧ j3.trace_forks = 1 ∧ j3.pid .PROCESS_MAIN = c
        ∧ (c1 ++ c2 ++ c3).count Call.job_change_state_next = 1)
    ∧ (sys2.ptrace .PTRACE_SETOPTIONS c 0 = true →
      ∃ j1 c1 j2 c2,
        job_process_handler sys1 now job (job.pid .PROCESS_MAIN) .NIH_CHILD_TRAPPED SIGTRAP
          = some (j1, c1)
        ∧ job_process_handler sys2 now j1 (job.pid .PROCESS_MAIN) .NIH_CHILD_PTRACE
            PTRACE_EVENT_FORK = some (j2, c2)
        ∧ j2.trace_state = .TRACE_NONE ∧ j2.trace_forks = 1 ∧ j2.pid .PROCESS_MAIN = c
        ∧ (c1 ++ c2).count Call.job_change_state_next = 1) := by
  -- first event: the NEW handling
  have e1 : job_process_handler sys1 now job (job.pid .PROCESS_MAIN) .NIH_CHILD_TRAPPED
      SIGTRAP = some ({ job with trace_state := .TRACE_NORMAL },
        Call.ptrace .PTRACE_SETOPTIONS (job.pid .PROCESS_MAIN) trace_options
          :: ptrace_cont sys1 (job.pid .PROCESS_MAIN) 0) := by
    unfold job_process_handler
    rw [if_pos hpid, job_process_find_main]
    simp only [htr, true_and, if_true]
    exact trace_new_setoptions_ok sys1 job hst (Or.inl htr) (h1 _ _ _)
  -- second event: the fork handling
  have hget : sys2.ptrace .PTRACE_GETEVENTMSG (job.pid .PROCESS_MAIN) 0 = true :=
    h2 _ _ _ (by simp)
  have e2 : job_process_handler sys2 now { job with trace_state := .TRACE_NORMAL }
      (job.pid .PROCESS_MAIN) .NIH_CHILD_PTRACE PTRACE_EVENT_FORK
      = job_process_trace_fork sys2 { job with trace_state := .TRACE_NORMAL }
          .PROCESS_MAIN := by
    unfold job_process_handler
    rw [if_pos hpid]
    rw [show job.pid .PROCESS_MAIN
      = ({ job with trace_state := .TRACE_NORMAL } : Job).pid .PROCESS_MAIN from rfl,
      job_process_find_main]
    simp
  have hfpid : (forked sys2 { job with trace_state := .TRACE_NORMAL }).pid .PROCESS_MAIN
      = c := by
    rw [forked_pid]; exact hmsg
  have hdone : ∀ sys : Sys,
      job_process_trace_new_child sys (forked sys2 { job with trace_state := .TRACE_NORMAL })
        .PROCESS_MAIN
      = some ({ forked sys2 { job with trace_state := .TRACE_NORMAL } with
                  trace_forks := job.trace_forks + 1, trace_state := .TRACE_NONE },
          ptrace_detach sys c ++ [Call.job_change_state_next]) := by
    intro sys
    rw [← hfpid]
    exact trace_new_child_done sys (forked sys2 { job with trace_state := .TRACE_NORMAL })
      hst rfl (Or.inr hexp)
  constructor
  · intro hprobe
    have e2b := trace_fork_probe_fails sys2 { job with trace_state := .TRACE_NORMAL } hst rfl
      hget (by rw [show ({ job with trace_state := .TRACE_NORMAL } : Job).pid .PROCESS_MAIN
        = job.pid .PROCESS_MAIN from rfl, hmsg]; exact hprobe)
    have e3 : job_process_handler sys3 now
        (forked sys2 { job with trace_state := .TRACE_NORMAL }) c .NIH_CHILD_TRAPPED SIGSTOP
        = job_process_trace_new_child sys3
            (forked sys2 { job with trace_state := .TRACE_NORMAL }) .PROCESS_MAIN := by
      unfold job_process_handler
      rw [if_pos hc]
      rw [← hfpid, job_process_find_main]
      simp [forked, SIGSTOP, SIGTRAP]
    refine ⟨_, _, _, _, _, _, e1, e2.trans e2b, e3.trans (hdone sys3), rfl, rfl, ?_, hfpid, ?_⟩
    · simp [hforks]
    · simp [List.count_append, List.count_cons, count_next_ptrace_detach,
        count_next_ptrace_cont]
  · intro hprobe
    have e2b := trace_fork_probe_ok sys2 { job with trace_state := .TRACE_NORMAL } hst rfl
      hget (by rw [show ({ job with trace_state := .TRACE_NORMAL } : Job).pid .PROCESS_MAIN
        = job.pid .PROCESS_MAIN from rfl, hmsg]; exact hprobe)
    rw [hdone sys2] at e2b
    refine ⟨_, _, _, _, e1, e2.trans e2b, rfl, ?_, hfpid, ?_⟩
    · simp [hforks]
    · simp [List.count_append, List.count_cons, count_next_ptrace_detach,
        count_next_ptrace_cont]

/-- C15, at an instance: `forking_job` (MAIN as pid 7) forking the child 8, which
has not stopped yet when the fork is reported. -/
theorem handler_expect_fork_trace_witness :
    ∃ j1 c1 j2 c2 j3 c3,
      job_process_handler (sys_ok 8) 0 forking_job 7 .NIH_CHILD_TRAPPED SIGTRAP
        = some (j1, c1)
      ∧ job_process_handler (sys_probe_fails 8) 0 j1 7 .NIH_CHILD_PTRACE PTRACE_EVENT_FORK
          = some (j2, c2)
      ∧ job_process_handler (sys_ok 8) 0 j2 8 .NIH_CHILD_TRAPPED SIGSTOP = some (j3, c3)
      ∧ j2.trace_state = .TRACE_NEW_CHILD
      ∧ j3.trace_state = .TRACE_NONE ∧ j3.trace_forks = 1 ∧ j3.pid .PROCESS_MAIN = 8
      ∧ (c1 ++ c2 ++ c3).count Call.job_change_state_next = 1 :=
  (handler_expect_fork_trace 0 forking_job 8 (sys_ok 8) (sys_probe_fails 8) (sys_ok 8)
    rfl rfl rfl rfl (by decide) (by decide) (fun _ _ _ => rfl) rfl
    (by
      intro r p d h
      simp only [sys_probe_fails, Bool.not_eq_true', Bool.and_eq_false_imp,
        Bool.and_eq_true, decide_eq_true_eq, decide_eq_false_iff_not]
      intro h1
      exact fun h3 => h ⟨h1.1, h1.2, h3⟩)).1 rfl

/-- C16, refuted as stated: a job expecting DAEMON at its first fork (SPAWNED, trace
NEW_CHILD, no fork counted) when the kernel refuses `PTRACE_SETOPTIONS`.  The
NEW handling logs a warning and returns: the trace stays at NEW_CHILD and the
child is not continued. -/
theorem trace_new_child_setoptions_refused :
    job_process_trace_new_child sys_fail (daemon_job 0 .TRACE_NEW_CHILD) .PROCESS_MAIN
        = some ({ daemon_job 0 .TRACE_NEW_CHILD with trace_forks := 1 },
            [Call.ptrace .PTRACE_SETOPTIONS 7 trace_options, Call.nih_warn])
    ∧ ¬ ∃ job1 calls,
        job_process_trace_new_child sys_fail (daemon_job 0 .TRACE_NEW_CHILD) .PROCESS_MAIN
          = some (job1, calls)
        ∧ job1.trace_state = .TRACE_NORMAL := by
  have h : job_process_trace_new_child sys_fail (daemon_job 0 .TRACE_NEW_CHILD) .PROCESS_MAIN
      = some ({ daemon_job 0 .TRACE_NEW_CHILD with trace_forks := 1 },
          [Call.ptrace .PTRACE_SETOPTIONS 7 trace_options, Call.nih_warn]) := by
    rw [trace_new_child_again sys_fail _ rfl rfl (by decide)]
    exact trace_new_setoptions_fails sys_fail _ rfl (Or.inr rfl) rfl
  refine ⟨h, ?_⟩
  rintro ⟨job1, calls, he, hn⟩
  rw [h] at he
  have hj := (Prod.mk.inj (Option.some.inj he)).1
  rw [← hj] at hn
  exact absurd hn (by decide)

/-- C16, amended: `job_process_trace_new_child` for MAIN in SPAWNED with the trace at
NEW_CHILD adds exactly one to `trace_forks`.  If the class expects FORK or the
new count is greater than 1 it detaches, sets the trace to NONE and advances
the state.  Otherwise it applies the NEW handling without advancing: when
`PTRACE_SETOPTIONS` succeeds the trace becomes NORMAL and the child is
continued, when it fails a warning is logged, the trace stays at NEW_CHILD and
the child is not continued.  So a job expecting DAEMON is advanced exactly when
a fork was counted before. -/
theorem trace_new_child_rule (sys : Sys) (job : Job)
    (hst : job.state = .JOB_SPAWNED) (htr : job.trace_state = .TRACE_NEW_CHILD) :
    ∃ job1 calls, job_process_trace_new_child sys job .PROCESS_MAIN = some (job1, calls)
      ∧ job1.trace_forks = job.trace_forks + 1
      ∧ ((job.class_.expect = .EXPECT_FORK ∨ job.trace_forks + 1 > 1) →
          job1.trace_state = .TRACE_NONE
          ∧ Call.ptrace .PTRACE_DETACH (job.pid .PROCESS_MAIN) 0 ∈ calls
          ∧ calls.count Call.job_change_state_next = 1)
      ∧ (¬ (job.class_.expect = .EXPECT_FORK ∨ job.trace_forks + 1 > 1) →
          Call.job_change_state_next ∉ calls
          ∧ (sys.ptrace .PTRACE_SETOPTIONS (job.pid .PROCESS_MAIN) trace_options = true →
              job1.trace_state = .TRACE_NORMAL
              ∧ Call.ptrace .PTRACE_CONT (job.pid .PROCESS_MAIN) 0 ∈ calls)
          ∧ (sys.ptrace .PTRACE_SETOPTIONS (job.pid .PROCESS_MAIN) trace_options = false →
              job1.trace_state = .TRACE_NEW_CHILD
              ∧ Call.nih_warn ∈ calls
              ∧ Call.ptrace .PTRACE_CONT (job.pid .PROCESS_MAIN) 0 ∉ calls))
      ∧ (job.class_.expect = .EXPECT_DAEMON →
          (Call.job_change_state_next ∈ calls ↔ job.trace_forks ≥ 1)) := by
  by_cases h : job.trace_forks + 1 > 1 ∨ job.class_.expect = .EXPECT_FORK
  · have h' : job.class_.expect = .EXPECT_FORK ∨ job.trace_forks + 1 > 1 := h.symm
    refine ⟨_, _, trace_new_child_done sys job hst htr h, rfl, ?_, ?_, ?_⟩
    · intro _
      refine ⟨rfl, ?_, ?_⟩
      · unfold ptrace_detach; split_ifs <;> simp
      · simp [List.count_append, count_next_ptrace_detach]
    · intro hn; exact absurd h' hn
    · intro hd
      rcases h with h | h
      · simp; omega
      · rw [hd] at h; exact absurd h (by decide)
  · have h' : ¬ (job.class_.expect = .EXPECT_FORK ∨ job.trace_forks + 1 > 1) :=
      fun x => h x.symm
    have hf : ¬ job.trace_forks ≥ 1 := fun x => h (Or.inl (by omega))
    rw [trace_new_child_again sys job hst htr h]
    cases hset : sys.ptrace .PTRACE_SETOPTIONS (job.pid .PROCESS_MAIN) trace_options
    · refine ⟨_, _, trace_new_setoptions_fails sys _ hst (Or.inr htr) hset, rfl, ?_, ?_, ?_⟩
      · intro x; exact absurd x h'
      · intro _
        refine ⟨by simp, by simp, ?_⟩
        intro _
        refine ⟨htr, by simp, by simp [trace_options, PTRACE_O_TRACEFORK, PTRACE_O_TRACEEXEC]⟩
      · intro _; simp [hf]
    · refine ⟨_, _, trace_new_setoptions_ok sys _ hst (Or.inr htr) hset, rfl, ?_, ?_, ?_⟩
      · intro x; exact absurd x h'
      · intro _
        refine ⟨?_, ?_, by simp⟩
        · unfold ptrace_cont; split_ifs <;> simp
        · intro _
          refine ⟨rfl, ?_⟩
          unfold ptrace_cont; split_ifs <;> simp
      · intro _
        have : Call.job_change_state_next ∉
            Call.ptrace .PTRACE_SETOPTIONS (job.pid .PROCESS_MAIN) trace_options
              :: ptrace_cont sys (job.pid .PROCESS_MAIN) 0 := by
          unfold ptrace_cont; split_ifs <;> simp
        simp only [this, false_iff]
        exact hf

/-- C16 amended, at instances: a job expecting DAEMON at its first fork, continued
without an advance, and at its second, detached and advanced. -/
theorem trace_new_child_rule_witness :
    (∃ job1 calls,
      job_process_trace_new_child (sys_ok 8) (daemon_job 0 .TRACE_NEW_CHILD) .PROCESS_MAIN
        = some (job1, calls)
      ∧ job1.trace_forks = 1 ∧ job1.trace_state = .TRACE_NORMAL
      ∧ Call.job_change_state_next ∉ calls)
    ∧ (∃ job1 calls,
      job_process_trace_new_child (sys_ok 9) (daemon_job 1 .TRACE_NEW_CHILD) .PROCESS_MAIN
        = some (job1, calls)
      ∧ job1.trace_forks = 2 ∧ job1.trace_state = .TRACE_NONE
      ∧ calls.count Call.job_change_state_next = 1) := by
  constructor
  · obtain ⟨job1, calls, he, h1, _, h3, _⟩ :=
      trace_new_child_rule (sys_ok 8) (daemon_job 0 .TRACE_NEW_CHILD) rfl rfl
    have h := h3 (by decide)
    exact ⟨job1, calls, he, h1, (h.2.1 rfl).1, h.1⟩
  · obtain ⟨job1, calls, he, h1, h2, _, _⟩ :=
      trace_new_child_rule (sys_ok 9) (daemon_job 1 .TRACE_NEW_CHILD) rfl rfl
    have h := h2 (Or.inr (by decide))
    exact ⟨job1, calls, he, h1, h.1, h.2.2⟩

/-- C17: a PTRACE(EXEC) event on MAIN in SPAWNED with the trace at NORMAL.  If
`trace_forks ≥ 1` the child is detached, the trace set to NONE and the state
advanced, whatever the class expects; if `trace_forks = 0` the child is
continued and nothing else: trace state, fork count, pids and state of the job
are as before. -/
theorem handler_exec_rule (sys : Sys) (now : Int) (job : Job)
    (hpid : job.pid .PROCESS_MAIN > 0)
    (hst : job.state = .JOB_SPAWNED) (htr : job.trace_state = .TRACE_NORMAL) :
    (job.trace_forks ≥ 1 →
      job_process_handler sys now job (job.pid .PROCESS_MAIN) .NIH_CHILD_PTRACE
          PTRACE_EVENT_EXEC
        = some ({ job with trace_state := .TRACE_NONE },
            ptrace_detach sys (job.pid .PROCESS_MAIN) ++ [Call.job_change_state_next])
      ∧ Call.ptrace .PTRACE_DETACH (job.pid .PROCESS_MAIN) 0
          ∈ ptrace_detach sys (job.pid .PROCESS_MAIN))
    ∧ (job.trace_forks = 0 →
      job_process_handler sys now job (job.pid .PROCESS_MAIN) .NIH_CHILD_PTRACE
          PTRACE_EVENT_EXEC
        = some (job, ptrace_cont sys (job.pid .PROCESS_MAIN) 0)
      ∧ Call.ptrace .PTRACE_CONT (job.pid .PROCESS_MAIN) 0
          ∈ ptrace_cont sys (job.pid .PROCESS_MAIN) 0
      ∧ Call.job_change_state_next ∉ ptrace_cont sys (job.pid .PROCESS_MAIN) 0) := by
  have e : job_process_handler sys now job (job.pid .PROCESS_MAIN) .NIH_CHILD_PTRACE
      PTRACE_EVENT_EXEC = some (job_process_trace_exec sys job .PROCESS_MAIN) := by
    unfold job_process_handler
    rw [if_pos hpid, job_process_find_main]
    simp [PTRACE_EVENT_EXEC, PTRACE_EVENT_FORK]
  rw [e]
  unfold job_process_trace_exec
  simp only [hst, htr, ne_eq, not_true_eq_false, or_self, if_false]
  constructor
  · intro hf
    have hf0 : ¬ job.trace_forks = 0 := by omega
    rw [if_pos hf0]
    refine ⟨rfl, ?_⟩
    unfold ptrace_detach; split_ifs <;> simp
  · intro hf
    have hf0 : ¬ ¬ job.trace_forks = 0 := fun h => h hf
    rw [if_neg hf0]
    refine ⟨rfl, ?_, ?_⟩ <;> unfold ptrace_cont <;> split_ifs <;> simp

/-- C17, at instances: a job expecting DAEMON that execs after one fork, and one
that execs before any fork. -/
theorem handler_exec_rule_witness :
    job_process_handler (sys_ok 8) 0 (daemon_job 1 .TRACE_NORMAL) 7 .NIH_CHILD_PTRACE
        PTRACE_EVENT_EXEC
      = some (daemon_job 1 .TRACE_NONE,
          [Call.ptrace .PTRACE_DETACH 7 0, Call.job_change_state_next])
    ∧ job_process_handler (sys_ok 8) 0 (daemon_job 0 .TRACE_NORMAL) 7 .NIH_CHILD_PTRACE
        PTRACE_EVENT_EXEC
      = some (daemon_job 0 .TRACE_NORMAL, [Call.ptrace .PTRACE_CONT 7 0]) := by
  constructor
  · exact ((handler_exec_rule (sys_ok 8) 0 (daemon_job 1 .TRACE_NORMAL) (by decide) rfl
      rfl).1 (by decide)).1
  · exact ((handler_exec_rule (sys_ok 8) 0 (daemon_job 0 .TRACE_NORMAL) (by decide) rfl
      rfl).2 rfl).1

/-- C18, refuted as stated: a job expecting FORK, just spawned (SPAWNED, trace NEW),
whose first trap is answered by a kernel that refuses `PTRACE_SETOPTIONS`.
A warning is logged, but the trace stays at NEW and the state is not
advanced. -/
theorem handler_setoptions_refused :
    job_process_handler sys_fail 0 forking_job 7 .NIH_CHILD_TRAPPED SIGTRAP
        = some (forking_job, [Call.ptrace .PTRACE_SETOPTIONS 7 trace_options, Call.nih_warn])
    ∧ forking_job.trace_state ≠ .TRACE_NONE
    ∧ Call.job_change_state_next
        ∉ [Call.ptrace .PTRACE_SETOPTIONS 7 trace_options, Call.nih_warn] := by
  refine ⟨?_, by decide, by decide⟩
  have e : job_process_handler sys_fail 0 forking_job 7 .NIH_CHILD_TRAPPED SIGTRAP
      = job_process_trace_new sys_fail forking_job .PROCESS_MAIN := by
    rfl
  rw [e]
  exact trace_new_setoptions_fails sys_fail forking_job rfl (Or.inl rfl) rfl

/-- C18, amended: whenever a ptrace operation of the tracker fails (setting the
options in `job_process_trace_new`, continuing the child there, in
`job_process_trace_exec` or in `job_process_trace_signal`, reading the fork
event message in `job_process_trace_fork`), the failure is logged and the job
is not marked failed; the trace state is not forced to NONE (it stays as it
is, or at NORMAL once the options are set) and the job is not advanced. -/
theorem trace_ptrace_failure_logged (sys : Sys) (job : Job) (signum : Int)
    (hst : job.state = .JOB_SPAWNED) :
    ((job.trace_state = .TRACE_NEW ∨ job.trace_state = .TRACE_NEW_CHILD) →
      sys.ptrace .PTRACE_SETOPTIONS (job.pid .PROCESS_MAIN) trace_options = false →
      ∃ calls, job_process_trace_new sys job .PROCESS_MAIN = some (job, calls)
        ∧ Call.nih_warn ∈ calls ∧ Call.job_change_state_next ∉ calls
        ∧ failures calls = [] ∧ job.trace_state ≠ .TRACE_NONE)
    ∧ ((job.trace_state = .TRACE_NEW ∨ job.trace_state = .TRACE_NEW_CHILD) →
      sys.ptrace .PTRACE_SETOPTIONS (job.pid .PROCESS_MAIN) trace_options = true →
      sys.ptrace .PTRACE_CONT (job.pid .PROCESS_MAIN) 0 = false →
      ∃ calls, job_process_trace_new sys job .PROCESS_MAIN
          = some ({ job with trace_state := .TRACE_NORMAL }, calls)
        ∧ Call.nih_warn ∈ calls ∧ Call.job_change_state_next ∉ calls
        ∧ failures calls = [])
    ∧ (job.trace_state = .TRACE_NORMAL →
      sys.ptrace .PTRACE_GETEVENTMSG (job.pid .PROCESS_MAIN) 0 = false →
      ∃ calls, job_process_trace_fork sys job .PROCESS_MAIN = some (job, calls)
        ∧ Call.nih_warn ∈ calls ∧ Call.job_change_state_next ∉ calls
        ∧ failures calls = [])
    ∧ (job.trace_state = .TRACE_NORMAL → job.trace_forks = 0 →
      sys.ptrace .PTRACE_CONT (job.pid .PROCESS_MAIN) 0 = false →
      ∃ calls, job_process_trace_exec sys job .PROCESS_MAIN = (job, calls)
        ∧ Call.nih_warn ∈ calls ∧ Call.job_change_state_next ∉ calls
        ∧ failures calls = [])
    ∧ (job.trace_state = .TRACE_NORMAL →
      sys.ptrace .PTRACE_CONT (job.pid .PROCESS_MAIN) signum = false →
      ∃ calls, job_process_trace_signal sys job .PROCESS_MAIN signum = (job, calls)
        ∧ Call.nih_warn ∈ calls ∧ Call.job_change_state_next ∉ calls
        ∧ failures calls = []) := by
  refine ⟨?_, ?_, ?_, ?_, ?_⟩
  · intro htr hset
    refine ⟨_, trace_new_setoptions_fails sys job hst htr hset, by simp, by simp,
      by simp [failures], ?_⟩
    rcases htr with h | h <;> rw [h] <;> decide
  · intro htr hset hcont
    refine ⟨_, trace_new_setoptions_ok sys job hst htr hset, ?_, ?_, ?_⟩ <;>
    simp [ptrace_cont, hcont, failures]
  · intro htr hget
    exact ⟨_, trace_fork_geteventmsg_fails sys job hst htr hget, by simp, by simp,
      by simp [failures]⟩
  · intro htr hf hcont
    unfold job_process_trace_exec
    simp only [hst, htr, hf, ne_eq, not_true_eq_false, or_self, if_false]
    refine ⟨_, rfl, ?_, ?_, ?_⟩ <;> simp [ptrace_cont, hcont, failures]
  · intro htr hcont
    unfold job_process_trace_signal
    simp only [hst, htr, ne_eq, not_true_eq_false, or_self, if_false]
    refine ⟨_, rfl, ?_, ?_, ?_⟩ <;> simp [ptrace_cont, hcont, failures]

/-- C18 amended, at instances: the kernel refusing every ptrace call, for a job just
spawned (trace NEW) and for a job whose MAIN forks under a NORMAL trace. -/
theorem trace_ptrace_failure_logged_witness :
    (∃ calls, job_process_trace_new sys_fail forking_job .PROCESS_MAIN
        = some (forking_job, calls)
      ∧ Call.nih_warn ∈ calls ∧ Call.job_change_state_next ∉ calls)
    ∧ (∃ calls, job_process_trace_fork sys_fail (daemon_job 0 .TRACE_NORMAL) .PROCESS_MAIN
        = some (daemon_job 0 .TRACE_NORMAL, calls)
      ∧ Call.nih_warn ∈ calls ∧ Call.job_change_state_next ∉ calls) := by
  constructor
  · obtain ⟨calls, he, h1, h2, _⟩ :=
      (trace_ptrace_failure_logged sys_fail forking_job 0 rfl).1 (Or.inl rfl) rfl
    exact ⟨calls, he, h1, h2⟩
  · obtain ⟨calls, he, h1, h2, _⟩ :=
      (trace_ptrace_failure_logged sys_fail (daemon_job 0 .TRACE_NORMAL) 0 rfl).2.2.1 rfl rfl
    exact ⟨calls, he, h1, h2⟩

/-- The loop of `job_process_run` over `n` temporary errors and then a pid: the pid
is stored, the trace set up and every spawn was asked with the same `trace`. -/
theorem run_loop_success (job : Job) (process : ProcessType) (trace : Bool) (p : Nat)
    (rest : List SpawnResult) :
    ∀ (n : Nat) (error : Bool), ∃ calls,
      job_process_run_loop job process trace error
          (List.replicate n .other_error ++ .pid p :: rest)
        = some ({ job with pid := Function.update job.pid process p,
                           trace_forks := 0,
                           trace_state := if trace = true then .TRACE_NEW else .TRACE_NONE },
            calls, 0)
      ∧ (∀ t, Call.job_process_spawn t ∈ calls → t = trace)
      ∧ calls.count (Call.job_process_spawn trace) = n + 1 := by
  intro n
  induction n with
  | zero =>
    intro error
    refine ⟨[Call.job_process_spawn trace], by simp [job_process_run_loop], ?_, ?_⟩ <;>
    simp
  | succ n ih =>
    intro error
    obtain ⟨calls, he, h1, h2⟩ := ih true
    rw [List.replicate_succ, List.cons_append, job_process_run_loop, he]
    refine ⟨_, rfl, ?_, ?_⟩
    · intro t ht
      cases error <;> simp at ht <;> rcases ht with ht | ht
      · exact ht
      · exact h1 t ht
      · exact ht
      · exact h1 t ht
    · cases error <;> simp [List.count_cons, h2]

/-- The loop of `job_process_run` over `n` temporary errors and then
`JOB_PROCESS_ERROR`: the pid is cleared, -1 returned, and every spawn was asked
with the same `trace`. -/
theorem run_loop_failure (job : Job) (process : ProcessType) (trace : Bool)
    (rest : List SpawnResult) :
    ∀ (n : Nat) (error : Bool), ∃ calls,
      job_process_run_loop job process trace error
          (List.replicate n .other_error ++ .job_process_error :: rest)
        = some ({ job with pid := Function.update job.pid process 0 }, calls, -1)
      ∧ (∀ t, Call.job_process_spawn t ∈ calls → t = trace) := by
  intro n
  induction n with
  | zero =>
    intro error
    refine ⟨[Call.job_process_spawn trace, Call.nih_warn],
      by simp [job_process_run_loop], ?_⟩
    simp
  | succ n ih =>
    intro error
    obtain ⟨calls, he, h1⟩ := ih true
    rw [List.replicate_succ, List.cons_append, job_process_run_loop, he]
    refine ⟨_, rfl, ?_⟩
    intro t ht
    cases error <;> simp at ht <;> rcases ht with ht | ht
    · exact ht
    · exact h1 t ht
    · exact ht
    · exact h1 t ht

/-- The local `trace` is set exactly for MAIN of a class expecting FORK or DAEMON. -/
theorem run_trace_iff (job : Job) (process : ProcessType) :
    run_trace job process = true ↔
      process = .PROCESS_MAIN
        ∧ (job.class_.expect = .EXPECT_FORK ∨ job.class_.expect = .EXPECT_DAEMON) := by
  unfold run_trace
  simp only [decide_eq_true_eq]
  constructor
  · rintro ⟨h1, h2⟩; exact ⟨h1, h2.symm⟩
  · rintro ⟨h1, h2⟩; exact ⟨h1, h2.symm⟩

/-- C20: `job_process_run` asks `job_process_spawn` to trace exactly when the process
is MAIN and the class expects FORK or DAEMON, in every call it makes, be the
run one that ends with a pid or one that ends with `JOB_PROCESS_ERROR`.  On a
successful spawn it returns 0 with `trace_forks` at 0 and the trace state at
NEW in that case and at NONE in every other case. -/
theorem run_trace_rule (job : Job) (process : ProcessType) (proc : Process) (n : Nat)
    (p : Nat) (rest : List SpawnResult)
    (hproc : job.class_.process process = some proc) :
    (∃ job1 calls,
      job_process_run (List.replicate n .other_error ++ .pid p :: rest) job process
        = some (job1, calls, 0)
      ∧ (∀ t, Call.job_process_spawn t ∈ calls →
          (t = true ↔ process = .PROCESS_MAIN
            ∧ (job.class_.expect = .EXPECT_FORK ∨ job.class_.expect = .EXPECT_DAEMON)))
      ∧ (∃ t, Call.job_process_spawn t ∈ calls)
      ∧ job1.pid process = p
      ∧ job1.trace_forks = 0
      ∧ ((process = .PROCESS_MAIN
            ∧ (job.class_.expect = .EXPECT_FORK ∨ job.class_.expect = .EXPECT_DAEMON)) →
          job1.trace_state = .TRACE_NEW)
      ∧ (¬ (process = .PROCESS_MAIN
            ∧ (job.class_.expect = .EXPECT_FORK ∨ job.class_.expect = .EXPECT_DAEMON)) →
          job1.trace_state = .TRACE_NONE))
    ∧ (∃ job1 calls,
      job_process_run (List.replicate n .other_error ++ .job_process_error :: rest) job
          process
        = some (job1, calls, -1)
      ∧ (∀ t, Call.job_process_spawn t ∈ calls →
          (t = true ↔ process = .PROCESS_MAIN
            ∧ (job.class_.expect = .EXPECT_FORK ∨ job.class_.expect = .EXPECT_DAEMON)))) := by
  constructor
  · obtain ⟨calls, he, h1, h2⟩ :=
      run_loop_success job process (run_trace job process) p rest n false
    refine ⟨_, calls, by unfold job_process_run; rw [hproc]; exact he, ?_, ?_, ?_, rfl, ?_, ?_⟩
    · intro t ht
      rw [h1 t ht, run_trace_iff]
    · refine ⟨run_trace job process, ?_⟩
      have : 0 < calls.count (Call.job_process_spawn (run_trace job process)) := by omega
      exact List.count_pos_iff.mp this
    · simp
    · intro hc
      have := (run_trace_iff job process).2 hc
      simp [this]
    · intro hc
      have : ¬ run_trace job process = true := fun h => hc ((run_trace_iff job process).1 h)
      simp [this]
  · obtain ⟨calls, he, h1⟩ := run_loop_failure job process (run_trace job process) rest n false
    refine ⟨_, calls, by unfold job_process_run; rw [hproc]; exact he, ?_⟩
    intro t ht
    rw [h1 t ht, run_trace_iff]

/-- C20, at instances: MAIN of a class expecting FORK spawned as pid 7 after two
temporary errors, and the pre-start process of the same class. -/
theorem run_trace_rule_witness :
    (∃ job1 calls,
      job_process_run [.other_error, .other_error, .pid 7]
          { forking_job with trace_state := .TRACE_NONE, trace_forks := 3 } .PROCESS_MAIN
        = some (job1, calls, 0)
      ∧ job1.trace_forks = 0 ∧ job1.trace_state = .TRACE_NEW)
    ∧ (∃ job1 calls,
      job_process_run [.pid 8]
          { forking_job with
            class_ := { forking with process := fun _ => some ⟨true, "true"⟩ } }
          .PROCESS_PRE_START
        = some (job1, calls, 0)
      ∧ job1.trace_forks = 0 ∧ job1.trace_state = .TRACE_NONE) := by
  constructor
  · obtain ⟨⟨job1, calls, he, _, _, _, h4, h5, _⟩, _⟩ :=
      run_trace_rule { forking_job with trace_state := .TRACE_NONE, trace_forks := 3 }
        .PROCESS_MAIN ⟨false, "/bin/crasher"⟩ 2 7 [] rfl
    exact ⟨job1, calls, he, h4, h5 ⟨rfl, Or.inl rfl⟩⟩
  · obtain ⟨⟨job1, calls, he, _, _, _, h4, _, h6⟩, _⟩ :=
      run_trace_rule
        { forking_job with
          class_ := { forking with process := fun _ => some ⟨true, "true"⟩ } }
        .PROCESS_PRE_START ⟨true, "true"⟩ 0 8 [] rfl
    exact ⟨job1, calls, he, h4, h6 (fun h => absurd h.1 (by decide))⟩

/-- The call `job_process_catch_runaway` leaves pids and trace state alone. -/
theorem catch_runaway_trace (now : Int) (job : Job) :
    (job_process_catch_runaway now job).1.pid = job.pid
      ∧ (job_process_catch_runaway now job).1.trace_state = job.trace_state := by
  unfold job_process_catch_runaway
  dsimp only
  split_ifs <;> exact ⟨rfl, rfl⟩

/-- The job that the switch of `job_process_terminated` hands on has the class,
pids and trace state it was entered with. -/
theorem terminated_switch_frame (now : Int) (job : Job) (process : ProcessType)
    (status : Int) (r : Switched)
    (h : terminated_switch now job process status = some r) :
    r.job.class_ = job.class_ ∧ r.job.pid = job.pid
      ∧ r.job.trace_state = job.trace_state := by
  have hc := catch_runaway_class now job
  have ht := catch_runaway_trace now job
  cases process with
  | PROCESS_MAIN =>
    by_cases hs : main_live_state job.state
    · rw [terminated_switch_main_live now job status hs] at h
      split_ifs at h <;> cases h <;>
      first
      | exact ⟨rfl, rfl, rfl⟩
      | exact ⟨hc, ht.1, ht.2⟩
    · unfold main_live_state at hs
      cases hstate : job.state <;> simp [hstate] at hs <;>
      simp [terminated_switch, hstate] at h <;>
      (rw [← h]; exact ⟨rfl, rfl, rfl⟩)
  | PROCESS_PRE_START =>
    unfold terminated_switch at h
    simp only [] at h
    split_ifs at h <;> cases h <;> exact ⟨rfl, rfl, rfl⟩
  | PROCESS_POST_START =>
    unfold terminated_switch at h
    simp only [] at h
    split_ifs at h
    cases h
    exact ⟨rfl, rfl, rfl⟩
  | PROCESS_PRE_STOP =>
    unfold terminated_switch at h
    simp only [] at h
    split_ifs at h
    cases h
    exact ⟨rfl, rfl, rfl⟩
  | PROCESS_POST_STOP =>
    unfold terminated_switch at h
    simp only [] at h
    split_ifs at h <;> cases h <;> exact ⟨rfl, rfl, rfl⟩

/-- Reaping leaves class and trace state alone and clears one pid. -/
theorem reaped_frame (job : Job) (process : ProcessType) :
    (reaped job process).class_ = job.class_
      ∧ (reaped job process).trace_state = job.trace_state
      ∧ (reaped job process).pid = Function.update job.pid process 0 := by
  unfold reaped
  split_ifs <;> exact ⟨rfl, rfl, rfl⟩

/-- After `job_process_terminated` the job has the class and trace state it had and
the pids it had but for the one cleared. -/
theorem terminated_frame (now : Int) (job : Job) (process : ProcessType) (status : Int)
    (job1 : Job) (calls : List Call)
    (h : job_process_terminated now job process status = some (job1, calls)) :
    job1.class_ = job.class_ ∧ job1.trace_state = job.trace_state
      ∧ job1.pid = Function.update job.pid process 0 := by
  unfold job_process_terminated at h
  cases hsw : terminated_switch now job process status with
  | none => rw [hsw] at h; exact absurd h (by simp)
  | some r =>
    rw [hsw] at h
    have hj := (Prod.mk.inj (Option.some.inj h)).1
    obtain ⟨f1, f2, f3⟩ := terminated_switch_frame now job process status r hsw
    obtain ⟨g1, g2, g3⟩ := reaped_frame r.job process
    rw [← hj]
    exact ⟨g1.trans f1, g2.trans f3, by rw [g3, f2]⟩

/-- The NEW handling keeps the trace predicate. -/
theorem trace_new_invariant (sys : Sys) (job : Job) (process : ProcessType)
    (job1 : Job) (calls : List Call) (hinv : trace_invariant job)
    (h : job_process_trace_new sys job process = some (job1, calls)) :
    trace_invariant job1 := by
  have hn : job.trace_state = .TRACE_NEW ∨ job.trace_state = .TRACE_NEW_CHILD →
      trace_invariant { job with trace_state := .TRACE_NORMAL } := by
    intro h1 _
    exact hinv (by rcases h1 with h1 | h1 <;> rw [h1] <;> decide)
  unfold job_process_trace_new at h
  dsimp only at h
  split_ifs at h with h1 <;> cases h <;>
  first
  | exact hinv
  | exact hn h1

/-- The NEW_CHILD handling keeps the trace predicate. -/
theorem trace_new_child_invariant (sys : Sys) (job : Job) (process : ProcessType)
    (job1 : Job) (calls : List Call) (hinv : trace_invariant job)
    (h : job_process_trace_new_child sys job process = some (job1, calls)) :
    trace_invariant job1 := by
  unfold job_process_trace_new_child at h
  dsimp only at h
  split_ifs at h with h1 h2 h3
  · cases h; exact hinv
  · cases h
    intro hn; exact absurd rfl hn
  · exact trace_new_invariant sys { job with trace_forks := job.trace_forks + 1 } process
      job1 calls hinv h

/-- The job the fork handling goes on with keeps the trace predicate when the event
message is a pid. -/
theorem forked_invariant (sys : Sys) (job : Job) (hinv : trace_invariant job)
    (htr : job.trace_state = .TRACE_NORMAL)
    (hmsg : sys.eventmsg (job.pid .PROCESS_MAIN) ≠ 0) :
    trace_invariant
      { job with pid := Function.update job.pid .PROCESS_MAIN
                   (sys.eventmsg (job.pid .PROCESS_MAIN)),
                 trace_state := .TRACE_NEW_CHILD } := by
  intro _
  refine ⟨(hinv (by rw [htr]; decide)).1, ?_⟩
  simpa using hmsg

/-- The fork handling keeps the trace predicate when the event message is a pid. -/
theorem trace_fork_invariant (sys : Sys) (job : Job) (process : ProcessType)
    (job1 : Job) (calls : List Call) (hinv : trace_invariant job)
    (hmsg : sys.eventmsg (job.pid .PROCESS_MAIN) ≠ 0)
    (h : job_process_trace_fork sys job process = some (job1, calls)) :
    trace_invariant job1 := by
  unfold job_process_trace_fork at h
  dsimp only at h
  split_ifs at h with h1 h2 h3
  · cases h; exact hinv
  · cases h; exact hinv
  · have hmain : process = .PROCESS_MAIN := by
      by_contra hne; exact h1 (Or.inl hne)
    have htr : job.trace_state = .TRACE_NORMAL := by
      by_contra hne; exact h1 (Or.inr (Or.inr hne))
    subst hmain
    cases h
    exact forked_invariant sys job hinv htr hmsg
  · have hmain : process = .PROCESS_MAIN := by
      by_contra hne; exact h1 (Or.inl hne)
    have htr : job.trace_state = .TRACE_NORMAL := by
      by_contra hne; exact h1 (Or.inr (Or.inr hne))
    subst hmain
    cases hn : job_process_trace_new_child sys
        { job with pid := Function.update job.pid .PROCESS_MAIN
                     (sys.eventmsg (job.pid .PROCESS_MAIN)),
                   trace_state := .TRACE_NEW_CHILD } .PROCESS_MAIN with
    | none => rw [hn] at h; cases h
    | some r =>
      rw [hn] at h
      cases h
      exact trace_new_child_invariant sys _ .PROCESS_MAIN r.1 r.2
        (forked_invariant sys job hinv htr hmsg) hn

/-- The stop handling changes nothing in the job. -/
theorem job_process_stopped_job (job : Job) (process : ProcessType) :
    (job_process_stopped job process).1 = job := by
  unfold job_process_stopped
  split_ifs <;> rfl

/-- The signal handling of the trace changes nothing in the job. -/
theorem trace_signal_job (sys : Sys) (job : Job) (process : ProcessType) (signum : Int) :
    (job_process_trace_signal sys job process signum).1 = job := by
  unfold job_process_trace_signal
  split_ifs <;> rfl

/-- The exec handling keeps the trace predicate. -/
theorem trace_exec_invariant (sys : Sys) (job : Job) (process : ProcessType)
    (hinv : trace_invariant job) :
    trace_invariant (job_process_trace_exec sys job process).1 := by
  unfold job_process_trace_exec
  split_ifs
  · exact hinv
  · intro hn; exact absurd rfl hn
  · exact hinv

/-- The trace predicate after a termination handled by `job_process_terminated`:
kept when the process is not MAIN; for MAIN the pid is cleared and the trace
state left as it is, so it holds exactly when the trace was at NONE. -/
theorem terminated_invariant (now : Int) (job : Job) (process : ProcessType)
    (status : Int) (job1 : Job) (calls : List Call) (hinv : trace_invariant job)
    (h : job_process_terminated now job process status = some (job1, calls)) :
    (process ≠ .PROCESS_MAIN → trace_invariant job1)
    ∧ (process = .PROCESS_MAIN →
        job1.pid .PROCESS_MAIN = 0 ∧ job1.trace_state = job.trace_state
        ∧ (trace_invariant job1 ↔ job.trace_state = .TRACE_NONE)) := by
  obtain ⟨f1, f2, f3⟩ := terminated_frame now job process status job1 calls h
  constructor
  · intro hne hn
    rw [f2] at hn
    rw [f1, f3, Function.update_noteq (Ne.symm hne)]
    exact hinv hn
  · intro he
    subst he
    have hp : job1.pid .PROCESS_MAIN = 0 := by rw [f3]; simp
    refine ⟨hp, f2, ?_⟩
    constructor
    · intro hi
      by_contra hn
      rw [← f2] at hn
      exact (hi hn).2 hp
    · intro hn hi
      rw [f2] at hi
      exact absurd hn hi

/-- C19, refuted as stated: a job expecting FORK in SPAWNED whose traced MAIN (pid 7,
trace NORMAL) exits.  The predicate holds before the event; after it
`pid[MAIN]` is 0 and the trace is still at NORMAL. -/
theorem trace_invariant_lost_on_exit :
    trace_invariant { forking_job with trace_state := .TRACE_NORMAL }
    ∧ ∃ job1 calls,
        job_process_handler (sys_ok 8) 0 { forking_job with trace_state := .TRACE_NORMAL } 7
          .NIH_CHILD_EXITED 0 = some (job1, calls)
        ∧ job1.pid .PROCESS_MAIN = 0 ∧ job1.trace_state = .TRACE_NORMAL
        ∧ ¬ trace_invariant job1 := by
  have hinv : trace_invariant { forking_job with trace_state := .TRACE_NORMAL } := by
    decide
  have e : job_process_handler (sys_ok 8) 0 { forking_job with trace_state := .TRACE_NORMAL }
      7 .NIH_CHILD_EXITED 0
      = job_process_terminated 0 { forking_job with trace_state := .TRACE_NORMAL }
          .PROCESS_MAIN 0 := by
    rfl
  have hs := terminated_main_stop 0 { forking_job with trace_state := .TRACE_NORMAL } 0
    (by decide) (by decide)
  obtain ⟨_, h2⟩ := terminated_invariant 0 _ .PROCESS_MAIN 0 _ _ hinv hs
  obtain ⟨h3, h4, h5⟩ := h2 rfl
  exact ⟨hinv, _, _, e.trans hs, h3, h4, fun hi => absurd (h5.1 hi) (by decide)⟩

/-- After a successful `job_process_run` the trace predicate holds. -/
theorem run_invariant (job0 : Job) (process : ProcessType) (proc : Process) (n p : Nat)
    (rest : List SpawnResult)
    (hproc : job0.class_.process process = some proc) (hp : p ≠ 0) :
    ∃ job2 calls2,
      job_process_run (List.replicate n .other_error ++ .pid p :: rest) job0 process
        = some (job2, calls2, 0)
      ∧ trace_invariant job2 := by
  obtain ⟨calls, he, _, _⟩ :=
    run_loop_success job0 process (run_trace job0 process) p rest n false
  refine ⟨_, calls, by unfold job_process_run; rw [hproc]; exact he, ?_⟩
  intro hn
  by_cases ht : run_trace job0 process = true
  · obtain ⟨h1, h2⟩ := (run_trace_iff job0 process).1 ht
    subst h1
    exact ⟨h2, by simpa using hp⟩
  · simp [ht] at hn

/-- C19, amended: the predicate "the trace state is not NONE only if the class
expects FORK or DAEMON and `pid[MAIN]` is non-zero" holds after every
successful `job_process_run` (the pid spawned being non-zero).  It is kept by
every STOPPED, CONTINUED, TRAPPED and PTRACE event that `job_process_handler`
handles (the fork event message being a pid, not 0) and by the termination of
any process other than MAIN.  It is not kept by `job_process_terminated` for
MAIN, which clears `pid[MAIN]` and leaves the trace state as it is: after the
death of MAIN the predicate holds exactly when the trace was at NONE. -/
theorem trace_invariant_rule (sys : Sys) (now : Int) (job : Job) (pid : Nat)
    (event : NihChildEvents) (status : Int) (job1 : Job) (calls : List Call)
    (hinv : trace_invariant job)
    (h : job_process_handler sys now job pid event status = some (job1, calls)) :
    ((event = .NIH_CHILD_STOPPED ∨ event = .NIH_CHILD_CONTINUED
        ∨ event = .NIH_CHILD_TRAPPED ∨ event = .NIH_CHILD_PTRACE) →
      sys.eventmsg (job.pid .PROCESS_MAIN) ≠ 0 → trace_invariant job1)
    ∧ ((event = .NIH_CHILD_EXITED ∨ event = .NIH_CHILD_KILLED
        ∨ event = .NIH_CHILD_DUMPED) →
      job_process_find job pid ≠ some .PROCESS_MAIN → trace_invariant job1)
    ∧ ((event = .NIH_CHILD_EXITED ∨ event = .NIH_CHILD_KILLED
        ∨ event = .NIH_CHILD_DUMPED) →
      job_process_find job pid = some .PROCESS_MAIN →
      job1.pid .PROCESS_MAIN = 0 ∧ job1.trace_state = job.trace_state
      ∧ (trace_invariant job1 ↔ job.trace_state = .TRACE_NONE))
    ∧ (∀ (job0 : Job) (process : ProcessType) (proc : Process) (n p : Nat)
        (rest : List SpawnResult),
      job0.class_.process process = some proc → p ≠ 0 →
      ∃ job2 calls2,
        job_process_run (List.replicate n .other_error ++ .pid p :: rest) job0 process
          = some (job2, calls2, 0)
        ∧ trace_invariant job2) := by
  refine ⟨?_, ?_, ?_, fun job0 process proc n p rest hproc hp =>
    run_invariant job0 process proc n p rest hproc hp⟩
  · -- stop, continue, trap and ptrace events
    intro hev hmsg
    unfold job_process_handler at h
    by_cases hpid : pid > 0
    · rw [if_pos hpid] at h
      cases hf : job_process_find job pid with
      | none => rw [hf] at h; cases h; exact hinv
      | some process =>
        rw [hf] at h
        rcases hev with hev | hev | hev | hev <;> subst hev <;> simp only [] at h
        · split_ifs at h
          · have hj : (job_process_stopped job process).1 = job1 :=
              congrArg Prod.fst (Option.some.inj h)
            rw [← hj, job_process_stopped_job]; exact hinv
          · cases h; exact hinv
        · cases h; exact hinv
        · split_ifs at h
          · exact trace_new_invariant sys job process job1 calls hinv h
          · exact trace_new_child_invariant sys job process job1 calls hinv h
          · have hj : (job_process_trace_signal sys job process status).1 = job1 :=
              congrArg Prod.fst (Option.some.inj h)
            rw [← hj, trace_signal_job]; exact hinv
        · split_ifs at h
          · exact trace_fork_invariant sys job process job1 calls hinv hmsg h
          · have hj : (job_process_trace_exec sys job process).1 = job1 :=
              congrArg Prod.fst (Option.some.inj h)
            rw [← hj]; exact trace_exec_invariant sys job process hinv
    · rw [if_neg hpid] at h; cases h
  · -- termination of a process other than MAIN
    intro hev hfind
    unfold job_process_handler at h
    by_cases hpid : pid > 0
    · rw [if_pos hpid] at h
      cases hf : job_process_find job pid with
      | none => rw [hf] at h; cases h; exact hinv
      | some process =>
        rw [hf] at h
        have hne : process ≠ .PROCESS_MAIN := fun he => hfind (by rw [hf, he])
        rcases hev with hev | hev | hev <;> subst hev <;> simp only [] at h <;>
        exact (terminated_invariant now job process _ job1 calls hinv h).1 hne
    · rw [if_neg hpid] at h; cases h
  · -- termination of MAIN
    intro hev hfind
    unfold job_process_handler at h
    by_cases hpid : pid > 0
    · rw [if_pos hpid, hfind] at h
      rcases hev with hev | hev | hev <;> subst hev <;> simp only [] at h <;>
      exact (terminated_invariant now job .PROCESS_MAIN _ job1 calls hinv h).2 rfl
    · rw [if_neg hpid] at h; cases h

/-- C19 amended, at an instance: the first trap of a job expecting FORK, just
spawned, keeps the predicate. -/
theorem trace_invariant_rule_witness :
    trace_invariant forking_job
    ∧ job_process_handler (sys_ok 8) 0 forking_job 7 .NIH_CHILD_TRAPPED SIGTRAP
        = some ({ forking_job with trace_state := .TRACE_NORMAL },
            [Call.ptrace .PTRACE_SETOPTIONS 7 trace_options, Call.ptrace .PTRACE_CONT 7 0])
    ∧ trace_invariant { forking_job with trace_state := .TRACE_NORMAL } :=
  ⟨by decide, rfl,
    (trace_invariant_rule (sys_ok 8) 0 forking_job 7 .NIH_CHILD_TRAPPED SIGTRAP
      { forking_job with trace_state := .TRACE_NORMAL }
      [Call.ptrace .PTRACE_SETOPTIONS 7 trace_options, Call.ptrace .PTRACE_CONT 7 0]
      (by decide) rfl).1 (Or.inr (Or.inr (Or.inl rfl))) (by decide)⟩

/-- The job that the switch of `job_process_terminated` hands on is the job it was
entered with, or what `job_process_catch_runaway` made of it; the latter only
for MAIN of a respawn class failing outside KILLED and STOPPING. -/
theorem terminated_switch_job (now : Int) (job : Job) (process : ProcessType)
    (status : Int) (r : Switched)
    (h : terminated_switch now job process status = some r) :
    r.job = job
    ∨ (r.job = (job_process_catch_runaway now job).1
        ∧ process = .PROCESS_MAIN ∧ main_live_state job.state
        ∧ main_exit_failed job.class_ status = true ∧ job.class_.respawn = true) := by
  cases process with
  | PROCESS_MAIN =>
    by_cases hs : main_live_state job.state
    · rw [terminated_switch_main_live now job status hs] at h
      split_ifs at h with h1 <;> cases h <;>
      first
      | exact Or.inl rfl
      | exact Or.inr ⟨rfl, rfl, hs, h1.1, h1.2⟩
    · unfold main_live_state at hs
      cases hstate : job.state <;> simp [hstate] at hs <;>
      simp [terminated_switch, hstate] at h <;>
      (rw [← h]; exact Or.inl rfl)
  | PROCESS_PRE_START =>
    unfold terminated_switch at h
    simp only [] at h
    split_ifs at h <;> cases h <;> exact Or.inl rfl
  | PROCESS_POST_START =>
    unfold terminated_switch at h
    simp only [] at h
    split_ifs at h
    cases h
    exact Or.inl rfl
  | PROCESS_PRE_STOP =>
    unfold terminated_switch at h
    simp only [] at h
    split_ifs at h
    cases h
    exact Or.inl rfl
  | PROCESS_POST_STOP =>
    unfold terminated_switch at h
    simp only [] at h
    split_ifs at h <;> cases h <;> exact Or.inl rfl

/-- The job after `job_process_terminated` is the job reaped, or what
`job_process_catch_runaway` made of it reaped; the latter only for MAIN of a
respawn class failing outside KILLED and STOPPING. -/
theorem terminated_job (now : Int) (job : Job) (process : ProcessType) (status : Int)
    (job1 : Job) (calls : List Call)
    (h : job_process_terminated now job process status = some (job1, calls)) :
    job1 = reaped job process
    ∨ (job1 = reaped (job_process_catch_runaway now job).1 process
        ∧ process = .PROCESS_MAIN ∧ main_live_state job.state
        ∧ main_exit_failed job.class_ status = true ∧ job.class_.respawn = true) := by
  unfold job_process_terminated at h
  cases hsw : terminated_switch now job process status with
  | none => rw [hsw] at h; cases h
  | some r =>
    rw [hsw] at h
    have hj : reaped r.job process = job1 := congrArg Prod.fst (Option.some.inj h)
    rcases terminated_switch_job now job process status r hsw with h1 | ⟨h1, h2⟩
    · left; rw [← hj, h1]
    · right; exact ⟨by rw [← hj, h1], h2⟩

/-- The call `job_process_catch_runaway` leaves the kill timer alone. -/
theorem catch_runaway_kill (now : Int) (job : Job) :
    (job_process_catch_runaway now job).1.kill_timer = job.kill_timer
      ∧ (job_process_catch_runaway now job).1.kill_process = job.kill_process := by
  unfold job_process_catch_runaway
  dsimp only
  split_ifs <;> exact ⟨rfl, rfl⟩

/-- Reaping leaves `kill_process` at -1 if a timer was armed, and as it was if not. -/
theorem reaped_kill_process (job : Job) (process : ProcessType) :
    (reaped job process).kill_process
      = if job.kill_timer.isSome then none else job.kill_process := by
  unfold reaped
  split_ifs <;> rfl

/-- Where its assertions hold, `job_process_terminated` returns. -/
theorem terminated_returns (now : Int) (job : Job) (process : ProcessType) (status : Int)
    (hp : terminated_permitted job process) :
    ∃ job1 calls, job_process_terminated now job process status = some (job1, calls) := by
  rcases hp with ⟨hm, hs⟩ | hown
  · subst hm
    rcases hs with hs | hs | hs
    · by_cases h : main_exit_failed job.class_ status = true ∧ job.class_.respawn = true
      · cases hr : (job_process_catch_runaway now job).2
        · exact ⟨_, _, terminated_main_respawn now job status hs h hr⟩
        · exact ⟨_, _, terminated_main_runaway now job status hs h hr⟩
      · exact ⟨_, _, terminated_main_stop now job status hs h⟩
    · exact ⟨_, _, terminated_main_killed now job status hs⟩
    · exact ⟨_, _, terminated_main_stopping now job status hs⟩
  · exact ⟨_, _, terminated_script now job process status hown⟩

/-- C27: the kill timer predicate "a kill timer is armed if and only if
`kill_process` is not -1, and then `pid[kill_process] > 0`" holds after
`job_process_kill` and after `job_process_kill_timer`, and it is kept by
`job_process_terminated`; after `job_process_terminated` has handled the
termination of a process of any kind, for a job the predicate held of, no kill
timer is armed and `kill_process` is -1.  The three functions return where
their assertions hold. -/
theorem kill_invariant_rule (now : Int) (result : Option Int) (job : Job)
    (process : ProcessType) (status : Int) :
    (∀ job1 calls, job_process_kill result job process = some (job1, calls) →
      kill_invariant job1)
    ∧ (∀ job1 calls, job_process_kill_timer result job = some (job1, calls) →
      kill_invariant job1)
    ∧ (kill_invariant job →
      ∀ job1 calls, job_process_terminated now job process status = some (job1, calls) →
        kill_invariant job1 ∧ job1.kill_timer = none ∧ job1.kill_process = none)
    ∧ (job.pid process > 0 → job.kill_timer = none →
      ∃ job1 calls, job_process_kill result job process = some (job1, calls))
    ∧ (kill_invariant job → job.kill_timer.isSome = true →
      ∃ job1 calls, job_process_kill_timer result job = some (job1, calls))
    ∧ (terminated_permitted job process →
      ∃ job1 calls, job_process_terminated now job process status = some (job1, calls)) := by
  refine ⟨?_, ?_, ?_, ?_, ?_, terminated_returns now job process status⟩
  · intro job1 calls h
    unfold job_process_kill at h
    dsimp only at h
    split_ifs at h with h1 h2
    cases result with
    | none =>
      cases h
      exact ⟨by simp, fun p hp => by cases hp; exact h1⟩
    | some e =>
      simp only [] at h
      split_ifs at h <;> cases h <;>
      exact ⟨by simp [h2], fun p hp => by cases hp⟩
  · intro job1 calls h
    unfold job_process_kill_timer at h
    split_ifs at h with h1
    cases hk : job.kill_process with
    | none => rw [hk] at h; cases h
    | some p =>
      rw [hk] at h
      dsimp only at h
      split_ifs at h with h2
      cases result with
      | none =>
        cases h
        exact ⟨by simp, fun p hp => by cases hp⟩
      | some e =>
        simp only [] at h
        split_ifs at h <;> cases h <;>
        exact ⟨by simp, fun p hp => by cases hp⟩
  · intro hinv job1 calls h
    have hr : ∀ j : Job, j.kill_timer = job.kill_timer → j.kill_process = job.kill_process →
        (reaped j process).kill_timer = none ∧ (reaped j process).kill_process = none := by
      intro j e1 e2
      refine ⟨reaped_kill_timer j process, ?_⟩
      rw [reaped_kill_process, e1, e2]
      cases ht : job.kill_timer.isSome
      · simp only [Bool.false_eq_true, if_false]
        cases hk : job.kill_process with
        | none => rfl
        | some p =>
          have := hinv.1.2 (by rw [hk]; rfl)
          rw [ht] at this
          cases this
      · simp
    have hfin : job1.kill_timer = none ∧ job1.kill_process = none := by
      rcases terminated_job now job process status job1 calls h with h1 | ⟨h1, _⟩
      · rw [h1]; exact hr job rfl rfl
      · rw [h1]
        exact hr _ (catch_runaway_kill now job).1 (catch_runaway_kill now job).2
    refine ⟨⟨?_, ?_⟩, hfin.1, hfin.2⟩
    · simp [hfin.1, hfin.2]
    · intro p hp; rw [hfin.2] at hp; cases hp
  · intro h1 h2
    unfold job_process_kill
    rw [if_pos h1, if_pos h2]
    cases result with
    | none => exact ⟨_, _, rfl⟩
    | some e =>
      simp only []
      split_ifs <;> exact ⟨_, _, rfl⟩
  · intro hinv ht
    have hk := hinv.1.1 ht
    cases hkp : job.kill_process with
    | none => rw [hkp] at hk; cases hk
    | some p =>
      have hpid := hinv.2 p hkp
      unfold job_process_kill_timer
      rw [if_pos ht, hkp]
      simp only [if_pos hpid]
      cases result with
      | none => exact ⟨_, _, rfl⟩
      | some e =>
        simp only []
        split_ifs <;> exact ⟨_, _, rfl⟩

/-- C27, at an instance: MAIN of `svc` dying in KILLED while the kill timer armed for
it is running. -/
theorem kill_invariant_rule_witness :
    kill_invariant
      { svc_job .JOB_KILLED 0 0 with kill_timer := some 5, kill_process := some .PROCESS_MAIN }
    ∧ ∃ job1 calls,
      job_process_terminated 0
        { svc_job .JOB_KILLED 0 0 with
          kill_timer := some 5, kill_process := some .PROCESS_MAIN } .PROCESS_MAIN 0
        = some (job1, calls)
      ∧ kill_invariant job1 ∧ job1.kill_timer = none ∧ job1.kill_process = none := by
  have hinv : kill_invariant
      { svc_job .JOB_KILLED 0 0 with
        kill_timer := some 5, kill_process := some .PROCESS_MAIN } := by
    refine ⟨by simp, ?_⟩
    intro p hp
    cases hp
    decide
  have h := kill_invariant_rule 0 none
    { svc_job .JOB_KILLED 0 0 with kill_timer := some 5, kill_process := some .PROCESS_MAIN }
    .PROCESS_MAIN 0
  obtain ⟨job1, calls, he⟩ := h.2.2.2.2.2 (Or.inl ⟨rfl, Or.inr (Or.inl rfl)⟩)
  exact ⟨hinv, job1, calls, he, h.2.2.1 hinv job1 calls he⟩

/-- C28: for a TRAPPED event with signal `sig` on a pid owned by the job, which is
neither the NEW/SIGTRAP nor the NEW_CHILD/SIGSTOP case, `job_process_handler`
continues the tracee with `PTRACE_CONT` carrying exactly `sig` (and logs a
warning if that call fails) when the process is MAIN, the state is SPAWNED
and the trace state is NORMAL, and makes no call otherwise.  In both cases
the job is returned as it was (state, pids, trace state and count of forks),
and no call changes the goal or the state. -/
theorem handler_trapped_signal_rule (sys : Sys) (now : Int) (job : Job) (pid : Nat)
    (process : ProcessType) (sig : Int)
    (hpid : pid > 0) (hfind : job_process_find job pid = some process)
    (h1 : ¬ (job.trace_state = .TRACE_NEW ∧ sig = SIGTRAP))
    (h2 : ¬ (job.trace_state = .TRACE_NEW_CHILD ∧ sig = SIGSTOP)) :
    ∃ calls, job_process_handler sys now job pid .NIH_CHILD_TRAPPED sig = some (job, calls)
      ∧ ((process = .PROCESS_MAIN ∧ job.state = .JOB_SPAWNED
            ∧ job.trace_state = .TRACE_NORMAL) →
          calls = Call.ptrace .PTRACE_CONT pid sig
            :: (if sys.ptrace .PTRACE_CONT pid sig = false then [Call.nih_warn] else []))
      ∧ (¬ (process = .PROCESS_MAIN ∧ job.state = .JOB_SPAWNED
            ∧ job.trace_state = .TRACE_NORMAL) →
          calls = [])
      ∧ ∀ c ∈ calls, c = Call.ptrace .PTRACE_CONT pid sig ∨ c = Call.nih_warn := by
  have hp := job_process_find_pid job pid process hfind
  unfold job_process_handler
  rw [if_pos hpid, hfind]
  simp only []
  rw [if_neg h1, if_neg h2]
  unfold job_process_trace_signal
  by_cases h3 : process ≠ .PROCESS_MAIN ∨ job.state ≠ .JOB_SPAWNED
      ∨ job.trace_state ≠ .TRACE_NORMAL
  · rw [if_pos h3]
    refine ⟨_, rfl, ?_, fun _ => rfl, ?_⟩
    · rintro ⟨h4, h5, h6⟩
      rcases h3 with h3 | h3 | h3
      · exact absurd h4 h3
      · exact absurd h5 h3
      · exact absurd h6 h3
    · intro c hc
      cases hc
  · rw [if_neg h3, hp]
    unfold ptrace_cont
    by_cases h4 : sys.ptrace .PTRACE_CONT pid sig = false
    · rw [if_pos h4]
      refine ⟨_, rfl, fun _ => by rw [if_pos h4], ?_, ?_⟩
      · intro hn
        exfalso
        apply hn
        refine ⟨?_, ?_, ?_⟩
        · by_contra h; exact h3 (Or.inl h)
        · by_contra h; exact h3 (Or.inr (Or.inl h))
        · by_contra h; exact h3 (Or.inr (Or.inr h))
      · intro c hc
        simp only [List.mem_cons, List.mem_singleton] at hc
        rcases hc with hc | hc | hc
        · exact Or.inl hc
        · exact Or.inr hc
        · cases hc
    · rw [if_neg h4]
      refine ⟨_, rfl, fun _ => by rw [if_neg h4], ?_, ?_⟩
      · intro hn
        exfalso
        apply hn
        refine ⟨?_, ?_, ?_⟩
        · by_contra h; exact h3 (Or.inl h)
        · by_contra h; exact h3 (Or.inr (Or.inl h))
        · by_contra h; exact h3 (Or.inr (Or.inr h))
      · intro c hc
        simp only [List.mem_cons, List.mem_singleton] at hc
        rcases hc with hc | hc
        · exact Or.inl hc
        · cases hc

/-- C28, at instances: a daemon traced in NORMAL receives SIGHUP (1), which is
passed on with the continue; the same signal while the trace is still at NEW
is not passed on. -/
theorem handler_trapped_signal_rule_witness :
    job_process_handler (sys_ok 9) 0 (daemon_job 0 .TRACE_NORMAL) 7 .NIH_CHILD_TRAPPED 1
      = some (daemon_job 0 .TRACE_NORMAL, [Call.ptrace .PTRACE_CONT 7 1])
    ∧ job_process_handler (sys_ok 9) 0 (daemon_job 0 .TRACE_NEW) 7 .NIH_CHILD_TRAPPED 1
      = some (daemon_job 0 .TRACE_NEW, []) := by
  constructor
  · obtain ⟨calls, he, h1, _, _⟩ := handler_trapped_signal_rule (sys_ok 9) 0
      (daemon_job 0 .TRACE_NORMAL) 7 .PROCESS_MAIN 1 (by decide) (by decide)
      (fun h => absurd h.2 (by decide)) (fun h => absurd h.2 (by decide))
    rw [he, h1 ⟨rfl, rfl, rfl⟩]
    rfl
  · obtain ⟨calls, he, _, h2, _⟩ := handler_trapped_signal_rule (sys_ok 9) 0
      (daemon_job 0 .TRACE_NEW) 7 .PROCESS_MAIN 1 (by decide) (by decide)
      (fun h => absurd h.2 (by decide)) (fun h => absurd h.2 (by decide))
    rw [he, h2 (fun h => absurd h.2.2 (by decide))]

/-- The status that a death by signal `s` is handed on with, for `s` from 1 to 127,
is neither 0 nor an exit status from 0 to 255. -/
theorem signal_status_apart (s : Int) (h1 : 1 ≤ s) (h2 : s ≤ 127) :
    s * 256 ≠ 0 ∧ ∀ e : Int, 0 ≤ e → e ≤ 255 → s * 256 ≠ e := by
  constructor
  · omega
  · intro e _ he
    omega

/-- C29: for a KILLED or DUMPED event with signal `s`, from 1 to 127, on a pid owned
by the job, `job_process_handler` does what `job_process_terminated` does with
the status `s * 256`.  That status is not 0 and is none of the exit statuses 0
to 255.  A PRE_START or POST_STOP process so killed in its own state marks
the job failed, with that process and status.  For MAIN dying in RUNNING,
SPAWNED, POST_START or PRE_STOP the death counts as a failure (MAIN is marked
failed, or the runaway check is made) unless `normalexit` holds `s * 256`:
when it does not, a class without respawn has `job_failed` called for MAIN
with `s * 256` and a class with respawn has the runaway check made; when it
does, neither happens. -/
theorem handler_signal_status_rule (sys : Sys) (now : Int) (job : Job) (pid : Nat)
    (process : ProcessType) (event : NihChildEvents) (s : Int)
    (hpid : pid > 0) (hfind : job_process_find job pid = some process)
    (hev : event = .NIH_CHILD_KILLED ∨ event = .NIH_CHILD_DUMPED)
    (h1 : 1 ≤ s) (h2 : s ≤ 127) :
    job_process_handler sys now job pid event s
        = job_process_terminated now job process (s * 256)
      ∧ s * 256 ≠ 0
      ∧ (∀ e : Int, 0 ≤ e → e ≤ 255 → s * 256 ≠ e)
      ∧ (((process = .PROCESS_PRE_START ∧ job.state = .JOB_PRE_START)
            ∨ (process = .PROCESS_POST_STOP ∧ job.state = .JOB_POST_STOP)) →
          ∃ job1 calls, job_process_handler sys now job pid event s = some (job1, calls)
            ∧ failures calls = [(some process, s * 256)])
      ∧ ((process = .PROCESS_MAIN ∧ main_live_state job.state) →
          ∃ job1 calls, job_process_handler sys now job pid event s = some (job1, calls)
            ∧ (main_exit_failed job.class_ (s * 256) = false ↔ s * 256 ∈ job.class_.normalexit)
            ∧ (s * 256 ∉ job.class_.normalexit → job.class_.respawn = false →
                failures calls = [(some .PROCESS_MAIN, s * 256)])
            ∧ (s * 256 ∉ job.class_.normalexit → job.class_.respawn = true →
                Call.catch_runaway ∈ calls)
            ∧ (s * 256 ∈ job.class_.normalexit →
                failures calls = [] ∧ Call.catch_runaway ∉ calls)) := by
  have hne := signal_status_apart s h1 h2
  have heq : job_process_handler sys now job pid event s
      = job_process_terminated now job process (s * 256) := by
    unfold job_process_handler
    rw [if_pos hpid, hfind]
    rcases hev with hev | hev <;> rw [hev]
  have hfail : main_exit_failed job.class_ (s * 256) = true ↔
      s * 256 ∉ job.class_.normalexit := by
    rw [main_exit_failed_iff]
    constructor
    · intro h; exact h.2
    · intro h; exact ⟨Or.inl hne.1, h⟩
  refine ⟨heq, hne.1, hne.2, ?_, ?_⟩
  · intro hown
    rw [heq]
    have hown2 : (process = .PROCESS_PRE_START ∧ job.state = .JOB_PRE_START)
        ∨ (process = .PROCESS_POST_START ∧ job.state = .JOB_POST_START)
        ∨ (process = .PROCESS_PRE_STOP ∧ job.state = .JOB_PRE_STOP)
        ∨ (process = .PROCESS_POST_STOP ∧ job.state = .JOB_POST_STOP) := by
      rcases hown with h | h
      · exact Or.inl h
      · exact Or.inr (Or.inr (Or.inr h))
    have hk : (process = .PROCESS_PRE_START ∨ process = .PROCESS_POST_STOP) ∧ s * 256 ≠ 0 := by
      rcases hown with h | h
      · exact ⟨Or.inl h.1, hne.1⟩
      · exact ⟨Or.inr h.1, hne.1⟩
    refine ⟨_, _, terminated_script now job process (s * 256) hown2, ?_⟩
    rw [if_pos hk]
    rfl
  · rintro ⟨hm, hs⟩
    subst hm
    rw [heq]
    have hiff : main_exit_failed job.class_ (s * 256) = false
        ↔ s * 256 ∈ job.class_.normalexit := by
      constructor
      · intro h
        by_contra hn
        rw [hfail.2 hn] at h
        cases h
      · intro h
        cases hf : main_exit_failed job.class_ (s * 256)
        · rfl
        · exact absurd h (hfail.1 hf)
    by_cases hc : main_exit_failed job.class_ (s * 256) = true ∧ job.class_.respawn = true
    · have hnot := hfail.1 hc.1
      cases hr : (job_process_catch_runaway now job).2
      · refine ⟨_, _, terminated_main_respawn now job (s * 256) hs hc hr, hiff, ?_, ?_, ?_⟩
        · intro _ hresp; rw [hc.2] at hresp; cases hresp
        · intro _ _; split_ifs <;> simp
        · intro hin; exact absurd hin hnot
      · refine ⟨_, _, terminated_main_runaway now job (s * 256) hs hc hr, hiff, ?_, ?_, ?_⟩
        · intro _ hresp; rw [hc.2] at hresp; cases hresp
        · intro _ _; simp
        · intro hin; exact absurd hin hnot
    · refine ⟨_, _, terminated_main_stop now job (s * 256) hs hc, hiff, ?_, ?_, ?_⟩
      · intro hnin _
        rw [if_pos (hfail.2 hnin)]
        split_ifs <;> rfl
      · intro hnin hresp
        exact absurd ⟨hfail.2 hnin, hresp⟩ hc
      · intro hin
        have hf : ¬ main_exit_failed job.class_ (s * 256) = true := by
          rw [hiff.2 hin]; simp
        rw [if_neg hf]
        constructor
        · split_ifs <;> rfl
        · split_ifs <;> simp

/-- C29, at an instance: MAIN of `svc` running as pid 7 is killed by SIGKILL (9);
the runaway check is made for the status 2304. -/
theorem handler_signal_status_rule_witness :
    job_process_handler sys_fail 100 (svc_job .JOB_RUNNING 0 0) 7 .NIH_CHILD_KILLED 9
      = job_process_terminated 100 (svc_job .JOB_RUNNING 0 0) .PROCESS_MAIN 2304
    ∧ ∃ job1 calls,
      job_process_handler sys_fail 100 (svc_job .JOB_RUNNING 0 0) 7 .NIH_CHILD_KILLED 9
        = some (job1, calls)
      ∧ Call.catch_runaway ∈ calls := by
  have h := handler_signal_status_rule sys_fail 100 (svc_job .JOB_RUNNING 0 0) 7
    .PROCESS_MAIN .NIH_CHILD_KILLED 9 (by decide) (by decide) (Or.inl rfl)
    (by decide) (by decide)
  obtain ⟨job1, calls, he, _, _, h3, _⟩ := h.2.2.2.2 ⟨rfl, Or.inl rfl⟩
  exact ⟨h.1, job1, calls, he, h3 (by decide) rfl⟩

/-- C30: where its assertions hold `job_process_terminated` returns, and the job it
returns has the `respawn_time` and `respawn_count` it was entered with unless
the process is MAIN, the state is none of KILLED and STOPPING, the class has
respawn set and the termination counts as a failure.  So a status listed in
`normalexit`, a clean exit of a task, any termination in a class without
respawn, and any termination of a pre-start, post-start, pre-stop or post-stop
process leave the respawn history as it was.  (A clean exit of a respawning
service that is no task counts as a failure, as does any status not listed.) -/
theorem terminated_respawn_history_frame (now : Int) (job : Job) (process : ProcessType)
    (status : Int) (hp : terminated_permitted job process) :
    ∃ job1 calls, job_process_terminated now job process status = some (job1, calls)
      ∧ (¬ (process = .PROCESS_MAIN ∧ job.state ≠ .JOB_KILLED ∧ job.state ≠ .JOB_STOPPING
            ∧ job.class_.respawn = true ∧ main_exit_failed job.class_ status = true) →
          job1.respawn_time = job.respawn_time ∧ job1.respawn_count = job.respawn_count)
      ∧ (process ≠ .PROCESS_MAIN ∨ job.class_.respawn = false
            ∨ normalexit_listed job.class_.normalexit status = true
            ∨ (status = 0 ∧ job.class_.task = true) →
          job1.respawn_time = job.respawn_time ∧ job1.respawn_count = job.respawn_count) := by
  obtain ⟨job1, calls, he⟩ := terminated_returns now job process status hp
  have key : ¬ (process = .PROCESS_MAIN ∧ job.state ≠ .JOB_KILLED ∧ job.state ≠ .JOB_STOPPING
        ∧ job.class_.respawn = true ∧ main_exit_failed job.class_ status = true) →
      job1.respawn_time = job.respawn_time ∧ job1.respawn_count = job.respawn_count := by
    intro hn
    rcases terminated_job now job process status job1 calls he with h1 | ⟨_, h2, h3, h4, h5⟩
    · rw [h1]; exact reaped_respawn job process
    · exfalso
      apply hn
      refine ⟨h2, ?_, ?_, h5, h4⟩
      · intro hk; unfold main_live_state at h3; rw [hk] at h3; simp at h3
      · intro hk; unfold main_live_state at h3; rw [hk] at h3; simp at h3
  refine ⟨job1, calls, he, key, ?_⟩
  intro hc
  apply key
  rintro ⟨h1, _, _, h4, h5⟩
  rcases hc with hc | hc | hc | hc
  · exact hc h1
  · rw [h4] at hc; cases hc
  · unfold main_exit_failed at h5
    split_ifs at h5
    · rw [hc] at h5; cases h5
  · unfold main_exit_failed at h5
    rw [if_neg (by
      intro h
      rcases h with h | h
      · exact h hc.1
      · rw [hc.2] at h; exact absurd h.2 (by simp))] at h5
    cases h5

/-- C30, at instances: MAIN of `svc` exiting in KILLED with status 1, and exiting in
RUNNING with a status its `normalexit` lists, leave the history 100, 2 as it
was. -/
theorem terminated_respawn_history_frame_witness :
    (∃ job1 calls,
      job_process_terminated 105 (svc_job .JOB_KILLED 100 2) .PROCESS_MAIN 1
        = some (job1, calls)
      ∧ job1.respawn_time = 100 ∧ job1.respawn_count = 2)
    ∧ ∃ job1 calls,
      job_process_terminated 105
        { svc_job .JOB_RUNNING 100 2 with class_ := { svc with normalexit := [1] } }
        .PROCESS_MAIN 1 = some (job1, calls)
      ∧ job1.respawn_time = 100 ∧ job1.respawn_count = 2 := by
  constructor
  · obtain ⟨job1, calls, he, h1, _⟩ := terminated_respawn_history_frame 105
      (svc_job .JOB_KILLED 100 2) .PROCESS_MAIN 1 (Or.inl ⟨rfl, Or.inr (Or.inl rfl)⟩)
    exact ⟨job1, calls, he, h1 (fun h => h.2.1 rfl)⟩
  · obtain ⟨job1, calls, he, _, h2⟩ := terminated_respawn_history_frame 105
      { svc_job .JOB_RUNNING 100 2 with class_ := { svc with normalexit := [1] } }
      .PROCESS_MAIN 1 (Or.inl ⟨rfl, Or.inl (Or.inl rfl)⟩)
    exact ⟨job1, calls, he, h2 (Or.inr (Or.inr (Or.inl (by decide))))⟩

/-- Where the reader names the resource, the record comes back as it was written:
for every setup-error type, arg and errno, the arg for the type RLIMIT being
one of the fifteen resources of the switch, the record that
`job_process_error_abort` writes to the open error pipe, read in full by
`job_process_error_read`, is raised as a `JOB_PROCESS_ERROR` with the same
type, arg and errnum (and -1 returned); a read of zero bytes returns 0 with no
error raised. -/
theorem error_record_round_trip (type : JobProcessErrorType) (arg errnum : Int)
    (h : type = .JOB_PROCESS_ERROR_RLIMIT → (rlimit_name arg).isSome = true) :
    job_process_error_abort true type arg errnum = .exit ⟨type, arg, errnum⟩ 255
      ∧ (∀ written code errno,
          job_process_error_abort true type arg errnum = .exit written code →
          job_process_error_read ⟨sizeof_wire_err, errno, written⟩
            = some (-1, some (NihError.job_process_error type arg errnum)))
      ∧ ∀ errno wire_err, job_process_error_read ⟨0, errno, wire_err⟩ = some (0, none) := by
  refine ⟨rfl, ?_, ?_⟩
  · intro written code errno hw
    have hw2 : written = ⟨type, arg, errnum⟩ := by
      unfold job_process_error_abort at hw
      rw [if_pos rfl] at hw
      cases hw
      rfl
    subst hw2
    unfold job_process_error_read
    have h0 : ¬ sizeof_wire_err = 0 := by decide
    have h1 : ¬ sizeof_wire_err < 0 := by decide
    simp only [h0, h1, if_false, ne_eq, not_true_eq_false]
    cases type <;> simp only []
    have := h rfl
    cases hn : rlimit_name arg with
    | none => rw [hn] at this; cases this
    | some n => rfl
  · intro errno wire_err
    rfl

/-- The record CHROOT, 0, ENOENT comes back as it was written. -/
theorem error_record_chroot_missing :
    job_process_error_abort true .JOB_PROCESS_ERROR_CHROOT 0 ENOENT
        = .exit ⟨.JOB_PROCESS_ERROR_CHROOT, 0, ENOENT⟩ 255
      ∧ job_process_error_read ⟨sizeof_wire_err, 0, ⟨.JOB_PROCESS_ERROR_CHROOT, 0, ENOENT⟩⟩
        = some (-1, some (NihError.job_process_error .JOB_PROCESS_ERROR_CHROOT 0 ENOENT)) :=
  ⟨(error_record_round_trip .JOB_PROCESS_ERROR_CHROOT 0 ENOENT
      (fun h => absurd h (by decide))).1,
    (error_record_round_trip .JOB_PROCESS_ERROR_CHROOT 0 ENOENT
      (fun h => absurd h (by decide))).2.1 _ 255 0 rfl⟩

/-- The warnings of the loop of `job_process_run` over `n` temporary errors and then
a pid: one, for the first temporary error, if there is one that has not been
warned of before. -/
theorem run_loop_success_warnings (job : Job) (process : ProcessType) (trace : Bool)
    (p : Nat) (rest : List SpawnResult) :
    ∀ (n : Nat) (error : Bool), ∃ job1 calls,
      job_process_run_loop job process trace error
          (List.replicate n .other_error ++ .pid p :: rest) = some (job1, calls, 0)
      ∧ calls.count Call.nih_warn = if error = false ∧ 0 < n then 1 else 0 := by
  intro n
  induction n with
  | zero =>
    intro error
    exact ⟨_, _, rfl, by simp⟩
  | succ n ih =>
    intro error
    obtain ⟨job1, calls, he, h1⟩ := ih true
    rw [List.replicate_succ, List.cons_append, job_process_run_loop, he]
    refine ⟨_, _, rfl, ?_⟩
    cases error <;> simp [List.count_cons, h1]

/-- The warnings of the loop of `job_process_run` over `n` temporary errors and then
`JOB_PROCESS_ERROR`: the one for the failure to spawn, after one for the first
temporary error if there is one that has not been warned of before. -/
theorem run_loop_failure_warnings (job : Job) (process : ProcessType) (trace : Bool)
    (rest : List SpawnResult) :
    ∀ (n : Nat) (error : Bool), ∃ job1 calls,
      job_process_run_loop job process trace error
          (List.replicate n .other_error ++ .job_process_error :: rest)
        = some (job1, calls, -1)
      ∧ calls.count Call.nih_warn = (if error = false ∧ 0 < n then 1 else 0) + 1 := by
  intro n
  induction n with
  | zero =>
    intro error
    exact ⟨_, _, rfl, by simp⟩
  | succ n ih =>
    intro error
    obtain ⟨job1, calls, he, h1⟩ := ih true
    rw [List.replicate_succ, List.cons_append, job_process_run_loop, he]
    refine ⟨_, _, rfl, ?_⟩
    cases error <;> simp [List.count_cons, h1]

/-- A run of the loop of `job_process_run` that returns has met, after temporary
errors only, `JOB_PROCESS_ERROR` and returns -1, or a pid and returns 0. -/
theorem run_loop_shape (job : Job) (process : ProcessType) (trace : Bool) :
    ∀ (spawns : List SpawnResult) (error : Bool) (job1 : Job) (calls : List Call) (v : Int),
      job_process_run_loop job process trace error spawns = some (job1, calls, v) →
      (v = -1 ∧ ∃ m rest, spawns = List.replicate m .other_error ++ .job_process_error :: rest)
      ∨ (v = 0 ∧ ∃ m q rest, spawns = List.replicate m .other_error ++ .pid q :: rest) := by
  intro spawns
  induction spawns with
  | nil =>
    intro error job1 calls v h
    simp [job_process_run_loop] at h
  | cons s rest ih =>
    intro error job1 calls v h
    cases s with
    | pid q =>
      simp only [job_process_run_loop, Option.some.injEq, Prod.mk.injEq] at h
      exact Or.inr ⟨h.2.2.symm, 0, q, rest, rfl⟩
    | job_process_error =>
      simp only [job_process_run_loop, Option.some.injEq, Prod.mk.injEq] at h
      exact Or.inl ⟨h.2.2.symm, 0, rest, rfl⟩
    | other_error =>
      rw [job_process_run_loop] at h
      cases hr : job_process_run_loop job process trace true rest with
      | none => rw [hr] at h; cases h
      | some r =>
        rw [hr] at h
        simp only [Option.some.injEq, Prod.mk.injEq] at h
        obtain ⟨r1, r2, r3⟩ := r
        rcases ih true r1 r2 r3 hr with ⟨hv, m, rest1, hs⟩ | ⟨hv, m, q, rest1, hs⟩
        · refine Or.inl ⟨by rw [← h.2.2]; exact hv, m + 1, rest1, ?_⟩
          rw [hs, List.replicate_succ, List.cons_append]
        · refine Or.inr ⟨by rw [← h.2.2]; exact hv, m + 1, q, rest1, ?_⟩
          rw [hs, List.replicate_succ, List.cons_append]

/-- What one call of `job_process_spawn` comes back with: `JOB_PROCESS_ERROR` exactly
when the read of the error pipe gave a complete record, a pid exactly when it
gave nothing, and another error for a failed `pipe` or `fork` and for a failed
or short read. -/
theorem spawn_result_cases (a : SpawnSys) (r : Int × Option NihError)
    (h : job_process_spawn a = some r) :
    (spawn_result r = .job_process_error
        ↔ a.pipe = none ∧ 0 < a.fork ∧ a.read.len = sizeof_wire_err)
      ∧ (spawn_result r = .other_error
        ↔ a.pipe.isSome = true ∨ a.fork < 0
          ∨ (0 < a.fork ∧ a.read.len ≠ 0 ∧ a.read.len ≠ sizeof_wire_err))
      ∧ (∀ p, spawn_result r = .pid p
        ↔ a.pipe = none ∧ 0 < a.fork ∧ a.read.len = 0 ∧ p = a.fork.toNat) := by
  have hsz : sizeof_wire_err = 12 := rfl
  unfold job_process_spawn at h
  cases hp : a.pipe with
  | some e =>
    rw [hp] at h
    cases h
    simp [spawn_result]
  | none =>
    rw [hp] at h
    simp only [] at h
    by_cases hf : a.fork > 0
    · rw [if_pos hf] at h
      unfold job_process_error_read at h
      by_cases h0 : a.read.len = 0
      · rw [if_pos h0] at h
        simp only [] at h
        rw [if_neg (by decide)] at h
        cases h
        have hnn : ¬ a.fork < 0 := by omega
        simp [spawn_result, hnn, hf, h0, hsz]
        exact fun p => eq_comm
      · rw [if_neg h0] at h
        by_cases h1 : a.read.len < 0
        · rw [if_pos h1] at h
          simp only [] at h
          rw [if_pos (by decide)] at h
          cases h
          have : ¬ a.read.len = 12 := by omega
          simp [spawn_result, hf, h0, hsz, this]
        · rw [if_neg h1] at h
          by_cases h2 : a.read.len ≠ sizeof_wire_err
          · rw [if_pos h2] at h
            simp only [] at h
            rw [if_pos (by decide)] at h
            cases h
            rw [hsz] at h2
            simp [spawn_result, hf, h0, hsz, h2]
          · rw [if_neg h2] at h
            have h3 : a.read.len = 12 := by
              rw [← hsz]; by_contra hc; exact h2 hc
            cases ht : a.read.wire_err.type <;> rw [ht] at h <;> simp only [] at h <;>
            first
            | (rw [if_pos (by decide)] at h
               cases h
               simp [spawn_result, hf, h3, hsz]
               omega)
            | (cases hn : rlimit_name a.read.wire_err.arg with
               | none => rw [hn] at h; cases h
               | some nm =>
                 rw [hn] at h
                 simp only [] at h
                 rw [if_pos (by decide)] at h
                 cases h
                 simp [spawn_result, hf, h3, hsz]
                 omega)
    · rw [if_neg hf] at h
      by_cases hf2 : a.fork < 0
      · rw [if_pos hf2] at h
        cases h
        have : ¬ 0 < a.fork := by omega
        simp [spawn_result, hf2, this]
      · rw [if_neg hf2] at h
        cases h

/-- C23: what `job_process_spawn` comes back with is `JOB_PROCESS_ERROR` exactly when
a complete setup-error record was read; a failed `pipe` or `fork` and a failed
or short read of the error pipe are other errors.  `job_process_run` returns
-1 exactly when, after other errors only, a spawn raises `JOB_PROCESS_ERROR`;
then `pid[process]` is 0 and `trace_state` and `trace_forks` are as before.
Other errors are retried and never returned, a warning being logged for the
first only; after any number `n` of them a successful spawn gives 0 with
`pid[process]` the pid spawned, after `n + 1` calls of `job_process_spawn`. -/
theorem run_spawn_error_rule (a : SpawnSys) (job : Job) (process : ProcessType)
    (proc : Process) (n p : Nat) (rest : List SpawnResult)
    (hproc : job.class_.process process = some proc) :
    (∀ r, job_process_spawn a = some r →
      (spawn_result r = .job_process_error
          ↔ a.pipe = none ∧ 0 < a.fork ∧ a.read.len = sizeof_wire_err)
        ∧ (spawn_result r = .other_error
          ↔ a.pipe.isSome = true ∨ a.fork < 0
            ∨ (0 < a.fork ∧ a.read.len ≠ 0 ∧ a.read.len ≠ sizeof_wire_err)))
    ∧ (∃ job1 calls,
        job_process_run (List.replicate n .other_error ++ .job_process_error :: rest)
            job process = some (job1, calls, -1)
        ∧ job1.pid process = 0
        ∧ job1.trace_state = job.trace_state
        ∧ job1.trace_forks = job.trace_forks
        ∧ calls.count Call.nih_warn = (if 0 < n then 1 else 0) + 1)
    ∧ (∃ job1 calls,
        job_process_run (List.replicate n .other_error ++ .pid p :: rest) job process
          = some (job1, calls, 0)
        ∧ job1.pid process = p
        ∧ calls.count Call.nih_warn = (if 0 < n then 1 else 0)
        ∧ calls.count (Call.job_process_spawn (run_trace job process)) = n + 1)
    ∧ ∀ spawns job1 calls v, job_process_run spawns job process = some (job1, calls, v) →
        (v = -1
          ∧ ∃ m rest1, spawns = List.replicate m .other_error ++ .job_process_error :: rest1)
        ∨ (v = 0
          ∧ ∃ m q rest1, spawns = List.replicate m .other_error ++ .pid q :: rest1) := by
  refine ⟨?_, ?_, ?_, ?_⟩
  · intro r hr
    have := spawn_result_cases a r hr
    exact ⟨this.1, this.2.1⟩
  · obtain ⟨job1, calls, he, hw⟩ :=
      run_loop_failure_warnings job process (run_trace job process) rest n false
    obtain ⟨calls2, he2, _⟩ :=
      run_loop_failure job process (run_trace job process) rest n false
    rw [he] at he2
    have hj : job1 = { job with pid := Function.update job.pid process 0 } :=
      congrArg Prod.fst (Option.some.inj he2)
    refine ⟨job1, calls, by unfold job_process_run; rw [hproc]; exact he, ?_, ?_, ?_, ?_⟩
    · rw [hj]; simp
    · rw [hj]
    · rw [hj]
    · rw [hw]; simp
  · obtain ⟨job1, calls, he, hw⟩ :=
      run_loop_success_warnings job process (run_trace job process) p rest n false
    obtain ⟨calls2, he2, _, hc⟩ :=
      run_loop_success job process (run_trace job process) p rest n false
    rw [he] at he2
    have hj : job1 = { job with pid := Function.update job.pid process p,
                                trace_forks := 0,
                                trace_state := if run_trace job process = true then .TRACE_NEW
                                  else .TRACE_NONE } :=
      congrArg Prod.fst (Option.some.inj he2)
    have hcalls : calls = calls2 :=
      congrArg (fun x => x.2.1) (Option.some.inj he2)
    refine ⟨job1, calls, by unfold job_process_run; rw [hproc]; exact he, ?_, ?_, ?_⟩
    · rw [hj]; simp
    · rw [hw]; simp
    · rw [hcalls]; exact hc
  · intro spawns job1 calls v h
    unfold job_process_run at h
    rw [hproc] at h
    exact run_loop_shape job process (run_trace job process) spawns false job1 calls v h

/-- C23, at instances: an attempt that reads the record CHROOT, 0, ENOENT raises
`JOB_PROCESS_ERROR`; MAIN of `svc` is run with one temporary error and then
`JOB_PROCESS_ERROR`, and with two temporary errors and then a spawn as pid 9. -/
theorem run_spawn_error_rule_witness :
    (job_process_spawn spawn_chroot_missing).map spawn_result = some .job_process_error
    ∧ (∃ job1 calls,
        job_process_run [.other_error, .job_process_error] (svc_job .JOB_STARTING 0 0)
          .PROCESS_MAIN = some (job1, calls, -1)
        ∧ job1.pid .PROCESS_MAIN = 0
        ∧ calls.count Call.nih_warn = 2)
    ∧ ∃ job1 calls,
        job_process_run [.other_error, .other_error, .pid 9] (svc_job .JOB_STARTING 0 0)
          .PROCESS_MAIN = some (job1, calls, 0)
        ∧ job1.pid .PROCESS_MAIN = 9
        ∧ calls.count Call.nih_warn = 1 := by
  refine ⟨by decide, ?_, ?_⟩
  · obtain ⟨job1, calls, he, h1, _, _, h4⟩ :=
      (run_spawn_error_rule spawn_chroot_missing (svc_job .JOB_STARTING 0 0) .PROCESS_MAIN
        ⟨false, "/bin/crasher"⟩ 1 0 [] rfl).2.1
    exact ⟨job1, calls, he, h1, h4⟩
  · obtain ⟨job1, calls, he, h1, h2, _⟩ :=
      (run_spawn_error_rule spawn_chroot_missing (svc_job .JOB_STARTING 0 0) .PROCESS_MAIN
        ⟨false, "/bin/crasher"⟩ 2 9 [] rfl).2.2.1
    exact ⟨job1, calls, he, h1, h2⟩

/-- A step that succeeds is logged and the child goes on with the steps left. -/
theorem run_child_cons_ok (sys : ChildSys) (cls : ClassSetup) (s : ChildStep)
    (l : List ChildStep) (h : step_result sys cls s = none) :
    run_child sys cls (s :: l) = after [s] (run_child sys cls l) := by
  simp [run_child, run_steps, h, after]

/-- A step that fails is the last one logged. -/
theorem run_child_cons_fail (sys : ChildSys) (cls : ClassSetup) (s : ChildStep)
    (l : List ChildStep) (e : Int) (h : step_result sys cls s = some e) :
    run_child sys cls (s :: l) = ([s], child_outcome cls.debug (some (s, e))) := by
  simp [run_child, run_steps, h]

/-- Steps that all succeed are all taken, with no failure. -/
theorem run_steps_all_ok (result : ChildStep → Option Int) (l : List ChildStep)
    (h : ∀ s ∈ l, result s = none) : run_steps result l = (l, none) := by
  induction l with
  | nil => rfl
  | cons s rest ih =>
    have hs := h s (List.mem_cons_self s rest)
    have hr := ih (fun t ht => h t (List.mem_cons_of_mem s ht))
    simp [run_steps, hs, hr]

/-- The run stops at the first step that fails: the steps before it and the step
itself are taken, those after it are not. -/
theorem run_steps_first_fail (result : ChildStep → Option Int) (pre : List ChildStep)
    (s : ChildStep) (post : List ChildStep) (e : Int)
    (hpre : ∀ t ∈ pre, result t = none) (hs : result s = some e) :
    run_steps result (pre ++ s :: post) = (pre ++ [s], some (s, e)) := by
  induction pre with
  | nil => simp [run_steps, hs]
  | cons t rest ih =>
    have ht := hpre t (List.mem_cons_self t rest)
    have hr := ih (fun u hu => hpre u (List.mem_cons_of_mem t hu))
    simp [run_steps, ht, hr]

/-- The child from the reset of the signals on runs the late steps of the specification. -/
theorem child_debug_eq (sys : ChildSys) (cls : ClassSetup) (trace : Bool) :
    child_debug sys cls trace = run_child sys cls (late_steps cls trace) := by
  unfold child_debug child_trace child_exec late_steps run_child
  cases hd : cls.debug <;> cases trace <;> cases hp : sys.ptrace <;>
  cases he : sys.execvp <;>
  simp [run_steps, step_result, child_outcome, step_error, pipe_open_at,
    job_process_error_abort, after, hp, he]

/-- The child from `chroot` on runs the steps of the specification from chroot on. -/
theorem child_chroot_eq (sys : ChildSys) (cls : ClassSetup) (trace : Bool) :
    child_chroot sys cls trace = run_child sys cls (dir_steps cls trace) := by
  have hdir : child_chdir sys cls trace
      = run_child sys cls (.chdir (cls.chdir.getD "/") :: late_steps cls trace) := by
    unfold child_chdir
    cases hc : sys.chdir with
    | none =>
      rw [run_child_cons_ok sys cls _ _ (by simp [step_result, hc]), child_debug_eq]
    | some e =>
      rw [run_child_cons_fail sys cls _ _ e (by simp [step_result, hc])]
      simp [child_outcome, step_error, pipe_open_at]
  unfold child_chroot dir_steps
  cases hr : cls.chroot with
  | none => simpa using hdir
  | some dir =>
    simp only [List.singleton_append, List.cons_append, List.nil_append]
    cases hc : sys.chroot with
    | none =>
      rw [run_child_cons_ok sys cls _ _ (by simp [step_result, hc]), hdir]
    | some e =>
      rw [run_child_cons_fail sys cls _ _ e (by simp [step_result, hc])]
      simp [child_outcome, step_error, pipe_open_at]

/-- The child from the assignment of `environ` on runs the steps of the specification from
the environment on. -/
theorem child_priority_eq (sys : ChildSys) (cls : ClassSetup) (trace : Bool) :
    child_priority sys cls trace = run_child sys cls (priority_steps cls trace) := by
  have hoom : child_oom_adj sys cls trace
      = run_child sys cls ((if cls.oom_adj ≠ 0 then [.oom_adj] else []) ++ dir_steps cls trace) := by
    unfold child_oom_adj
    by_cases h0 : cls.oom_adj ≠ 0
    · rw [if_pos h0, if_pos h0]
      simp only [List.singleton_append]
      cases ho : sys.fopen with
      | some e =>
        rw [run_child_cons_fail sys cls _ _ e (by simp [step_result, setup_oom_adj, ho])]
        simp [child_outcome, step_error, pipe_open_at]
      | none =>
        cases hc : sys.fclose with
        | some e =>
          rw [run_child_cons_fail sys cls _ _ e (by simp [step_result, setup_oom_adj, ho, hc])]
          simp [child_outcome, step_error, pipe_open_at]
        | none =>
          rw [run_child_cons_ok sys cls _ _ (by simp [step_result, setup_oom_adj, ho, hc]),
            child_chroot_eq]
    · rw [if_neg h0, if_neg h0, child_chroot_eq]
      rfl
  unfold child_priority priority_steps
  simp only [List.cons_append, List.nil_append]
  rw [run_child_cons_ok sys cls .environ _ rfl, run_child_cons_ok sys cls .umask _ rfl]
  cases hp : sys.setpriority with
  | some e =>
    rw [run_child_cons_fail sys cls _ _ e (by simp [step_result, hp])]
    simp [child_outcome, step_error, pipe_open_at, after]
  | none =>
    rw [run_child_cons_ok sys cls _ _ (by simp [step_result, hp]), hoom]
    simp [after]

/-- The loop over the resources runs the limits set on the class, in the order of
the indices, and then the steps of the specification from the environment on. -/
theorem child_limits_eq (sys : ChildSys) (cls : ClassSetup) (trace : Bool)
    (idx : List Nat) :
    child_limits sys cls trace idx
      = run_child sys cls (limit_steps cls idx ++ priority_steps cls trace) := by
  induction idx with
  | nil => simp [child_limits, limit_steps, child_priority_eq]
  | cons i rest ih =>
    unfold child_limits
    cases hl : cls.limits i with
    | none =>
      simp only []
      rw [ih]
      simp [limit_steps, hl]
    | some v =>
      have hsteps : limit_steps cls (i :: rest) = .setrlimit i :: limit_steps cls rest := by
        simp [limit_steps, hl]
      simp only []
      rw [hsteps, List.cons_append]
      cases hr : sys.setrlimit i with
      | some e =>
        rw [run_child_cons_fail sys cls _ _ e (by simp [step_result, hr])]
        simp [child_outcome, step_error, pipe_open_at]
      | none =>
        rw [run_child_cons_ok sys cls _ _ (by simp [step_result, hr]), ih]

/-- The child runs `setsid ()` and then the steps of the specification, in their order, up to
the first that fails. -/
theorem spawn_child_eq (sys : ChildSys) (cls : ClassSetup) (trace : Bool) :
    job_process_spawn_child sys cls trace
      = after [.setsid] (run_child sys cls (planned_steps cls trace)) := by
  unfold job_process_spawn_child child_console planned_steps
  simp only [List.singleton_append]
  cases hc : sys.system_setup_console cls.console with
  | none =>
    rw [run_child_cons_ok sys cls _ _ (by simp [step_result, setup_console, hc]),
      child_limits_eq]
  | some e =>
    simp only []
    by_cases ho : cls.console = .CONSOLE_OUTPUT
    · rw [if_pos ho]
      cases hn : sys.system_setup_console .CONSOLE_NONE with
      | none =>
        rw [run_child_cons_ok sys cls _ _ (by simp only [step_result, setup_console, hc, if_pos ho, hn]),
          child_limits_eq]
      | some e2 =>
        rw [run_child_cons_fail sys cls _ _ e2
          (by simp only [step_result, setup_console, hc, if_pos ho, hn])]
        simp [child_outcome, step_error, pipe_open_at]
    · rw [if_neg ho]
      rw [run_child_cons_fail sys cls _ _ e (by simp [step_result, setup_console, hc, ho])]
      simp [child_outcome, step_error, pipe_open_at]

/-- A class paused for debugging whose `execvp` fails with ENOENT, every step before
it succeeding: no record is written back and the child does not exit with 255,
since the pause has closed the error pipe. -/
theorem spawn_child_debug_exec_fails :
    step_result child_exec_missing debugged .execvp = some ENOENT
      ∧ (∀ s ∈ planned_steps debugged false, s ≠ .execvp →
          step_result child_exec_missing debugged s = none)
      ∧ (job_process_spawn_child child_exec_missing debugged false).1
          = .setsid :: planned_steps debugged false
      ∧ record_written (job_process_spawn_child child_exec_missing debugged false).2 = none
      ∧ (job_process_spawn_child child_exec_missing debugged false).2
          ≠ .exit ⟨.JOB_PROCESS_ERROR_EXEC, 0, ENOENT⟩ 255 := by
  refine ⟨rfl, by decide, rfl, rfl, by decide⟩

/-- C22, amended: the child of `job_process_spawn` runs, after `setsid ()`, the setup
steps in the fixed order console, resource limits (ascending resource index,
only those set on the class), environment, umask, priority, OOM adjustment
(only if non-zero), chroot (only if configured), chdir (to the chdir
of its class or "/"), signal reset, debug pause (only for a debugged class), ptrace
arm (only if trace), exec.  If no step fails all are taken and the child
execs.  Otherwise the steps up to the first that fails are taken and no later
one; if the class is not debugged, or the step comes before the debug pause,
the record written back names that step with its error number, the exit code
is 255, and the arg of the record is the resource index for RLIMIT and 0 for
every other type.  In a debugged class a failure of the ptrace arm or of the
exec, after the pause has closed the error pipe, writes no record back. -/
theorem spawn_child_rule (sys : ChildSys) (cls : ClassSetup) (trace : Bool) :
    ((∀ s ∈ planned_steps cls trace, step_result sys cls s = none) →
      job_process_spawn_child sys cls trace = (.setsid :: planned_steps cls trace, .exec))
    ∧ ∀ pre s post e, planned_steps cls trace = pre ++ s :: post →
        (∀ t ∈ pre, step_result sys cls t = none) → step_result sys cls s = some e →
        (job_process_spawn_child sys cls trace).1 = .setsid :: (pre ++ [s])
        ∧ ((cls.debug = false ∨ (s ≠ .ptrace_traceme ∧ s ≠ .execvp)) →
            ∃ t a, step_error s = some (t, a)
              ∧ (job_process_spawn_child sys cls trace).2 = .exit ⟨t, a, e⟩ 255
              ∧ (∀ i, s = .setrlimit i → t = .JOB_PROCESS_ERROR_RLIMIT ∧ a = (i : Int))
              ∧ ((∀ i, s ≠ .setrlimit i) → t ≠ .JOB_PROCESS_ERROR_RLIMIT ∧ a = 0))
        ∧ (cls.debug = true → (s = .ptrace_traceme ∨ s = .execvp) →
            record_written (job_process_spawn_child sys cls trace).2 = none) := by
  constructor
  · intro hall
    rw [spawn_child_eq]
    unfold run_child
    rw [run_steps_all_ok _ _ hall]
    rfl
  · intro pre s post e hplan hpre hs
    rw [spawn_child_eq]
    unfold run_child
    rw [hplan, run_steps_first_fail _ pre s post e hpre hs]
    refine ⟨rfl, ?_, ?_⟩
    · intro hopen
      have hpo : pipe_open_at cls.debug s = true := by
        unfold pipe_open_at
        rcases hopen with h | ⟨h1, h2⟩
        · simp [h]
        · simp [h1, h2]
      cases s <;>
      first
      | (simp [step_result] at hs; done)
      | (simp only [after, child_outcome, step_error, hpo, job_process_error_abort]
         refine ⟨_, _, rfl, rfl, ?_, ?_⟩
         · intro i hi
           first
           | (cases hi; exact ⟨rfl, rfl⟩)
           | cases hi
         · intro hne
           first
           | exact ⟨by decide, rfl⟩
           | exact absurd rfl (hne _))
    · intro hd hlate
      rcases hlate with h | h <;> subst h <;>
      simp [after, child_outcome, step_error, pipe_open_at, hd, job_process_error_abort,
        record_written]

/-- C22, at the instance the specification names: chroot to a missing directory with every
earlier step succeeding yields the record CHROOT, 0, ENOENT and the exit
code 255, and neither chdir nor any later step is taken. -/
theorem spawn_child_rule_witness :
    (job_process_spawn_child child_chroot_missing bad false).1
        = [.setsid, .system_setup_console, .environ, .umask, .setpriority,
            .chroot "/no/such/dir"]
      ∧ (job_process_spawn_child child_chroot_missing bad false).2
        = .exit ⟨.JOB_PROCESS_ERROR_CHROOT, 0, ENOENT⟩ 255 := by
  have h := (spawn_child_rule child_chroot_missing bad false).2
    [.system_setup_console, .environ, .umask, .setpriority] (.chroot "/no/such/dir")
    [.chdir "/", .nih_signal_reset, .execvp] ENOENT rfl (by decide) rfl
  obtain ⟨h1, h2, _⟩ := h
  obtain ⟨t, a, hse, hend, _, _⟩ := h2 (Or.inl rfl)
  simp only [step_error, Option.some.injEq, Prod.mk.injEq] at hse
  rw [← hse.1, ← hse.2] at hend
  exact ⟨h1, hend⟩

/-- The search of `strpbrk` succeeds exactly when the string holds one of the
characters. -/
theorem strpbrk_iff (s accept : String) :
    strpbrk s accept = true ↔ ∃ c ∈ s.toList, c ∈ accept.toList := by
  unfold strpbrk
  simp [List.any_eq_true]

/-- The test `(! nl) || (! *p)` of line 185 holds exactly when the text has no
newline, or nothing but newlines from its first newline on. -/
theorem single_line_iff (t : List Char) :
    (strchr_nl t = none
        ∨ (strchr_nl t).map (fun l => l.dropWhile (fun c => decide (c = NL))) = some [])
      ↔ (NL ∉ t ∨ ∀ c ∈ t.dropWhile (fun c => decide (c ≠ NL)), c = NL) := by
  unfold strchr_nl
  cases h : t.dropWhile (fun c => decide (c ≠ NL)) with
  | nil =>
    simp
  | cons c l =>
    have hmem : ¬ NL ∉ t := by
      intro hn
      have : t.dropWhile (fun c => decide (c ≠ NL)) = [] := by
        rw [List.dropWhile_eq_nil_iff]
        intro x hx
        simp only [ne_eq, decide_eq_true_eq]
        intro e
        exact hn (e ▸ hx)
      rw [this] at h
      cases h
    simp only [Option.map_some', Option.some.injEq, false_or, hmem]
    rw [List.dropWhile_eq_nil_iff]
    simp

/-- The temporary errors and the pid of a run go through `job_process_run_shell` as
through `job_process_run`, the script pipe being used as the value returned
tells. -/
theorem run_shell_eq (nih_str_split : String → String → Bool → List String)
    (fds : Nat × Nat) (spawns : List SpawnResult) (job : Job) (process : ProcessType)
    (proc : Process) (r : Job × List Call × Int)
    (hproc : job.class_.process process = some proc)
    (h : job_process_run_loop job process (run_trace job process) false spawns = some r) :
    job_process_run_shell nih_str_split fds spawns job process
      = some ((job_process_run_argv nih_str_split fds.1 proc).argv,
          job_process_run_pipe (job_process_run_argv nih_str_split fds.1 proc).shell fds
            (job_process_run_argv nih_str_split fds.1 proc).script r.2.2,
          r.1, r.2.1, r.2.2) := by
  unfold job_process_run_shell
  rw [hproc]
  simp only [h]

/-- The script `two_lines` has a second line, so it goes to the shell through the
pipe; when the spawn raises `JOB_PROCESS_ERROR`, `job_process_run` returns -1
having closed both ends of the pipe: the text is not written to it. -/
theorem run_shell_script_not_written :
    (job_process_run_shell split_blank (3, 4) [.job_process_error] scripted_job
        .PROCESS_PRE_START).map (fun r => (r.1, r.2.1, r.2.2.2.2))
      = some (["/bin/sh", "-e", "/proc/self/fd/3"],
          [PipeCall.pipe, PipeCall.close 3, PipeCall.close 4], -1) := by
  decide

/-- C24, amended: `job_process_run` builds a shell command line exactly when the
process definition has the script flag or its command contains a character of
SHELL_CHARS; otherwise `argv` is the command split on whitespace.  In the
shell case the text is the command itself for a script and "exec " followed
by the command otherwise; if the text has no newline, or nothing but newlines
from its first newline on, `argv` is SHELL, "-e", "-c", the text cut at its
first newline, SHELL; otherwise `argv` is SHELL, "-e", "/proc/self/fd/N" for
the reading end N of the pipe, and once the spawn has succeeded the whole
text is written to the pipe and the pipe shut down, while after a spawn that
raised `JOB_PROCESS_ERROR` both ends of the pipe are closed with nothing
written. -/
theorem run_argv_rule (nih_str_split : String → String → Bool → List String)
    (fds : Nat × Nat) (job : Job) (process : ProcessType) (proc : Process) (n p : Nat)
    (rest : List SpawnResult) (hproc : job.class_.process process = some proc) :
    (¬ (proc.script = true ∨ ∃ c ∈ proc.command.toList, c ∈ SHELL_CHARS.toList) →
      job_process_run_argv nih_str_split fds.1 proc
        = ⟨nih_str_split proc.command " \t\r\n" true, "", false⟩)
    ∧ ((proc.script = true ∨ ∃ c ∈ proc.command.toList, c ∈ SHELL_CHARS.toList) →
      ((NL ∉ (shell_text proc).toList
          ∨ ∀ c ∈ (shell_text proc).toList.dropWhile (fun c => decide (c ≠ NL)), c = NL) →
        (job_process_run_argv nih_str_split fds.1 proc).argv
            = [SHELL, "-e", "-c",
                String.mk ((shell_text proc).toList.takeWhile (fun c => decide (c ≠ NL))),
                SHELL]
          ∧ (job_process_run_argv nih_str_split fds.1 proc).shell = false)
      ∧ (¬ (NL ∉ (shell_text proc).toList
          ∨ ∀ c ∈ (shell_text proc).toList.dropWhile (fun c => decide (c ≠ NL)), c = NL) →
        (job_process_run_argv nih_str_split fds.1 proc).argv
            = [SHELL, "-e", "/proc/self/fd/" ++ toString fds.1]
          ∧ (∃ job1 calls,
            job_process_run_shell nih_str_split fds
                (List.replicate n .other_error ++ .pid p :: rest) job process
              = some ([SHELL, "-e", "/proc/self/fd/" ++ toString fds.1],
                  [.pipe, .close fds.1, .nih_io_reopen fds.2,
                    .nih_io_write fds.2 (shell_text proc), .nih_io_shutdown fds.2],
                  job1, calls, 0))
          ∧ ∃ job1 calls,
            job_process_run_shell nih_str_split fds
                (List.replicate n .other_error ++ .job_process_error :: rest) job process
              = some ([SHELL, "-e", "/proc/self/fd/" ++ toString fds.1],
                  [.pipe, .close fds.1, .close fds.2], job1, calls, -1))) := by
  constructor
  · intro hn
    have : ¬ (proc.script = true ∨ strpbrk proc.command SHELL_CHARS = true) := by
      rw [strpbrk_iff]; exact hn
    unfold job_process_run_argv
    rw [if_neg this]
  · intro hsh
    have hsh2 : proc.script = true ∨ strpbrk proc.command SHELL_CHARS = true := by
      rw [strpbrk_iff]; exact hsh
    have hone := single_line_iff (shell_text proc).toList
    constructor
    · intro hs
      have hs2 := hone.2 hs
      unfold job_process_run_argv
      rw [if_pos hsh2]
      unfold shell_text at hs2 ⊢
      dsimp only
      rw [if_pos hs2]
      exact ⟨rfl, rfl⟩
    · intro hs
      have hs2 : ¬ _ := fun h => hs (hone.1 h)
      have hargv : job_process_run_argv nih_str_split fds.1 proc
          = ⟨[SHELL, "-e", "/proc/self/fd/" ++ toString fds.1], shell_text proc, true⟩ := by
        unfold job_process_run_argv
        rw [if_pos hsh2]
        unfold shell_text at hs2 ⊢
        dsimp only
        rw [if_neg hs2]
      refine ⟨by rw [hargv], ?_, ?_⟩
      · obtain ⟨calls, he, _⟩ :=
          run_loop_success job process (run_trace job process) p rest n false
        refine ⟨({ job with pid := Function.update job.pid process p,
                            trace_forks := 0,
                            trace_state := if run_trace job process = true then .TRACE_NEW
                              else .TRACE_NONE } : Job), calls, ?_⟩
        rw [run_shell_eq nih_str_split fds _ job process proc _ hproc he, hargv]
        rfl
      · obtain ⟨calls, he, _⟩ :=
          run_loop_failure job process (run_trace job process) rest n false
        refine ⟨({ job with pid := Function.update job.pid process 0 } : Job), calls, ?_⟩
        rw [run_shell_eq nih_str_split fds _ job process proc _ hproc he, hargv]
        rfl

/-- C24, at instances: the script `two_lines` fed through the pipe after a spawn as
pid 9, and a command with a shell character and trailing newlines handed over
with "-c". -/
theorem run_argv_rule_witness :
    (∃ job1 calls,
      job_process_run_shell split_blank (3, 4) [.pid 9] scripted_job .PROCESS_PRE_START
        = some (["/bin/sh", "-e", "/proc/self/fd/3"],
            [.pipe, .close 3, .nih_io_reopen 4, .nih_io_write 4 "echo a\necho b",
              .nih_io_shutdown 4],
            job1, calls, 0))
    ∧ (job_process_run_argv split_blank 3 ⟨false, "echo $HOME\n\n"⟩).argv
        = ["/bin/sh", "-e", "-c", "exec echo $HOME", "/bin/sh"] := by
  constructor
  · exact ((run_argv_rule split_blank (3, 4) scripted_job .PROCESS_PRE_START two_lines 0 9 []
      rfl).2 (Or.inl rfl)).2 (by decide) |>.2.1
  · exact (((run_argv_rule split_blank (3, 4)
      { scripted_job with
        class_ := { svc with process := fun _ => some ⟨false, "echo $HOME\n\n"⟩ } }
      .PROCESS_PRE_START ⟨false, "echo $HOME\n\n"⟩ 0 9 [] rfl).2
        (Or.inr (by decide))).1 (by decide)).1

/-- A call with the name "ping" and the valid environment "A=b" while memory for the
event is out: it fails with the system error, no event is made and no reply
sent. -/
theorem emit_event_out_of_memory :
    all_key_value ["A=b"] = true
      ∧ control_emit_event all_key_value (some ENOMEM) none ⟨[], []⟩ 1 "ping" ["A=b"] false
        = (⟨[], []⟩, -1, some (.system ENOMEM)) := by
  constructor <;> decide

/-- C25, amended: `control_emit_event` with a non-empty name and an environment that
`environ_all_valid` accepts, when the memory for the event (and, if wait is
true, for the blocker) is there, puts exactly one event with that name and
environment at the back of the queue and returns 0.  If wait is true the
event has exactly one blocker, of the kind EMIT_METHOD and holding the
message of the caller, and no reply is sent; if wait is false the reply is
sent at once and the event has no blocker.  When the memory for the event or
for the blocker is not there it fails with the system error, the queue is as
before and no reply is sent.  With an empty name or an invalid environment it
fails with InvalidArgs, the queue as before. -/
theorem emit_event_rule (environ_all_valid : List String → Bool)
    (event_alloc blocked_alloc : Option Int) (st : ControlState) (message : Nat)
    (name : String) (env : List String) (wait : Bool) :
    ((name.length = 0 ∨ environ_all_valid env = false) →
      control_emit_event environ_all_valid event_alloc blocked_alloc st message name env wait
        = (st, -1, some .invalid_args))
    ∧ (name.length ≠ 0 → environ_all_valid env = true →
      (event_alloc = none → wait = true → blocked_alloc = none →
        control_emit_event environ_all_valid event_alloc blocked_alloc st message name env
            wait
          = ({ st with
              events := st.events ++ [⟨name, env, [⟨.BLOCKED_EMIT_METHOD, message⟩]⟩] },
            0, none))
      ∧ (event_alloc = none → wait = false →
        control_emit_event environ_all_valid event_alloc blocked_alloc st message name env
            wait
          = ({ events := st.events ++ [⟨name, env, []⟩],
               replies := st.replies ++ [message] }, 0, none))
      ∧ ∀ e, (event_alloc = some e ∨ (event_alloc = none ∧ wait = true ∧ blocked_alloc = some e)) →
        control_emit_event environ_all_valid event_alloc blocked_alloc st message name env
            wait
          = (st, -1, some (.system e))) := by
  constructor
  · intro h
    unfold control_emit_event
    by_cases h0 : name.length = 0
    · rw [if_pos h0]
    · rw [if_neg h0]
      rcases h with h | h
      · exact absurd h h0
      · rw [if_pos h]
  · intro h0 hv
    have hv2 : ¬ environ_all_valid env = false := by simp [hv]
    refine ⟨?_, ?_, ?_⟩
    · intro he hw hb
      unfold control_emit_event
      rw [if_neg h0, if_neg hv2, he, hw, hb]
      simp [event_new, blocked_new]
    · intro he hw
      unfold control_emit_event
      rw [if_neg h0, if_neg hv2, he, hw]
      simp [event_new]
    · intro e h
      unfold control_emit_event
      rw [if_neg h0, if_neg hv2]
      rcases h with he | ⟨he, hw, hb⟩
      · rw [he]
        simp [event_new]
      · rw [he, hw, hb]
        simp [event_new, blocked_new]

/-- C25, at instances: "ping" emitted with the environment "A=b" by the message 1,
waiting and not waiting, after an event "startup", and an empty name. -/
theorem emit_event_rule_witness :
    control_emit_event all_key_value none none ⟨[⟨"startup", [], []⟩], []⟩ 1 "ping" ["A=b"]
        true
      = (⟨[⟨"startup", [], []⟩, ⟨"ping", ["A=b"], [⟨.BLOCKED_EMIT_METHOD, 1⟩]⟩], []⟩, 0, none)
    ∧ control_emit_event all_key_value none none ⟨[⟨"startup", [], []⟩], []⟩ 1 "ping"
        ["A=b"] false
      = (⟨[⟨"startup", [], []⟩, ⟨"ping", ["A=b"], []⟩], [1]⟩, 0, none)
    ∧ control_emit_event all_key_value none none ⟨[⟨"startup", [], []⟩], []⟩ 1 "" ["A=b"]
        false
      = (⟨[⟨"startup", [], []⟩], []⟩, -1, some .invalid_args) :=
  ⟨((emit_event_rule all_key_value none none ⟨[⟨"startup", [], []⟩], []⟩ 1 "ping" ["A=b"]
      true).2 (by decide) (by decide)).1 rfl rfl rfl,
    ((emit_event_rule all_key_value none none ⟨[⟨"startup", [], []⟩], []⟩ 1 "ping" ["A=b"]
      false).2 (by decide) (by decide)).2.1 rfl rfl,
    (emit_event_rule all_key_value none none ⟨[⟨"startup", [], []⟩], []⟩ 1 "" ["A=b"]
      false).1 (Or.inl (by decide))⟩

/-- C26: the building of `argv` goes by the lines of the text and not by its
length.  The script `two_lines`, 13 bytes long and so shorter than 1KB, is
not handed over with "-c" but read from `/proc/self/fd/3`, fed through the
pipe; and a script of one line is handed over with "-c" whatever its length
`n`, also from 1024 bytes on. -/
theorem run_argv_ignores_length :
    (two_lines.command.utf8ByteSize = 13
      ∧ job_process_run_argv split_blank 3 two_lines
        = ⟨["/bin/sh", "-e", "/proc/self/fd/3"], "echo a\necho b", true⟩)
    ∧ ∀ n : Nat,
      (String.mk (List.replicate n 'x')).utf8ByteSize = n
      ∧ job_process_run_argv split_blank 3 ⟨true, String.mk (List.replicate n 'x')⟩
        = ⟨["/bin/sh", "-e", "-c", String.mk (List.replicate n 'x'), "/bin/sh"],
            String.mk (List.replicate n 'x'), false⟩ := by
  refine ⟨⟨by decide, by decide⟩, ?_⟩
  intro n
  have hx : ∀ c ∈ List.replicate n 'x', decide (c ≠ NL) = true := by
    intro c hc
    rw [List.eq_of_mem_replicate hc]
    decide
  have hdrop : (List.replicate n 'x').dropWhile (fun c => decide (c ≠ NL)) = [] :=
    List.dropWhile_eq_nil_iff.2 hx
  have htake : (List.replicate n 'x').takeWhile (fun c => decide (c ≠ NL))
      = List.replicate n 'x' := List.takeWhile_eq_self_iff.2 hx
  have e : (String.mk (List.replicate n 'x')).toList = List.replicate n 'x' := rfl
  constructor
  · have hgo : ∀ k : Nat, String.utf8ByteSize.go (List.replicate k 'x') = k := by
      intro k
      induction k with
      | zero => rfl
      | succ k ih =>
        have h1 : ('x' : Char).utf8Size = 1 := by decide
        rw [List.replicate_succ, String.utf8ByteSize.go, ih, h1]
    exact hgo n
  · unfold job_process_run_argv
    simp only [true_or, if_true]
    have hnl : strchr_nl (List.replicate n 'x') = none := by
      unfold strchr_nl
      rw [hdrop]
    rw [e, if_pos (Or.inl hnl), htake]
    rfl

end Upstart
